import Mathlib

/-!
# GOAT request codec and extraction pipeline

A shallow embedding of `core/types/goattypes` (request.go, req_bridge.go,
req_locking.go, req_relayer.go, constant.go) and of `core/state_processor_goat.go`.

Conventions of the embedding:

* a byte is a `Fin 256`, a byte slice / Go string is a `List Byte`;
* `uint64` values are natural numbers, truncated to 8 bytes where the code writes them;
* `*big.Int` values are integers (`Int`);
* `common.Address` / `common.Hash` / `[64]byte` are byte lists (of length 20 / 32 / 64);
* a Go function returning `(T, error)` returns a `Res T`: `ok v` is `(v, nil)`,
  `err e` is `(nil, e)` and `panic` is a run-time panic (slice or index out of range,
  `FillBytes` on a buffer that is too small);
* a Go function that returns no error but may panic returns an `Option`, `none` being the panic;
* a `Decode` method assigns the fields of its receiver: the embedding takes the receiver as an
  argument and returns it as it is after a successful call (the partly assigned receiver of a
  call that returns an error is not represented, no caller reads it).
-/

namespace Goat

/-! ## Bytes, results -/

abbrev Byte := Fin 256
abbrev Bytes := List Byte

/-- Go error values, represented by their message. -/
abbrev Error := String

/-- Conversion `byte(n)` of a non-negative Go integer: the low 8 bits. -/
def byte (n : Nat) : Byte := ⟨n % 256, Nat.mod_lt n (by decide)⟩

/-- Outcome of a Go function of result type `(T, error)`. -/
inductive Res (α : Type) where
  | ok (val : α)
  | err (e : Error)
  | panic
deriving DecidableEq, Repr

/-- Sequencing of Go statements: the first error return or panic ends the function. -/
def Res.bind {α β : Type} : Res α → (α → Res β) → Res β
  | .ok a, f => f a
  | .err e, _ => .err e
  | .panic, _ => .panic

instance : Monad Res where
  pure := Res.ok
  bind := Res.bind

/-- Go slice expression `b[lo:hi]` on a slice whose capacity is its length. -/
def slice {α : Type} (b : List α) (lo hi : Nat) : Res (List α) :=
  if lo ≤ hi ∧ hi ≤ b.length then .ok ((b.take hi).drop lo) else .panic

/-- Go slice expression `b[lo:hi]` with bounds of a signed integer type. -/
def sliceInt {α : Type} (b : List α) (lo hi : Int) : Res (List α) :=
  if 0 ≤ lo ∧ lo ≤ hi ∧ hi ≤ b.length then .ok ((b.take hi.toNat).drop lo.toNat) else .panic

/-- Go slice expression `b[lo:]`. -/
def sliceFrom {α : Type} (b : List α) (lo : Nat) : Res (List α) :=
  slice b lo b.length

/-- Go index expression `b[i]`. -/
def index {α : Type} (b : List α) (i : Nat) : Res α :=
  match b[i]? with
  | some a => .ok a
  | none => .panic

/-- Go conversion of a slice to the array type `[n]byte` (panics when the slice is shorter). -/
def toArray (n : Nat) (b : Bytes) : Res Bytes :=
  if b.length < n then .panic else .ok (b.take n)

/-! ## Integers and byte orders -/

/-- The `k` low-order bytes of `n`, least significant first. -/
def toLE : Nat → Nat → Bytes
  | 0, _ => []
  | k + 1, n => byte n :: toLE k (n / 256)

/-- Value of a byte string read least significant byte first. -/
def fromLE : Bytes → Nat
  | [] => 0
  | b :: bs => b.val + 256 * fromLE bs

/-- The `k` low-order bytes of `n`, most significant first. -/
def toBE (k n : Nat) : Bytes := (toLE k n).reverse

/-- Value of a byte string read most significant byte first. -/
def fromBE (b : Bytes) : Nat := fromLE b.reverse

/-- Library `binary.LittleEndian.PutUint64` on an 8-byte buffer. -/
def PutUint64 (n : Nat) : Bytes := toLE 8 n

/-- Library `binary.LittleEndian.Uint64(b)`: reads `b[0..7]`, panics when `len(b) < 8`. -/
def Uint64LE (b : Bytes) : Res Nat :=
  if b.length < 8 then .panic else .ok (fromLE (b.take 8))

/-- Library `new(big.Int).SetBytes(b)`: `b` read as a big-endian unsigned integer. -/
def SetBytes (b : Bytes) : Int := Int.ofNat (fromBE b)

/-- Library `x.FillBytes(make([]byte, n))`: the absolute value of `x` as `n` big-endian bytes,
zero-extended; panics when the absolute value does not fit. -/
def FillBytes (x : Int) (n : Nat) : Option Bytes :=
  if x.natAbs < 256 ^ n then some (toBE n x.natAbs) else none

/-- Library `x.IsUint64()`. -/
def IsUint64 (x : Int) : Bool := decide (0 ≤ x ∧ x < 2 ^ 64)

/-- Library `x.Uint64()`: the low 64 bits of the absolute value. -/
def Uint64 (x : Int) : Nat := x.natAbs % 2 ^ 64

/-- Library `x.Int64()`: the low 64 bits of `x` in two's complement, as a signed value. -/
def Int64 (x : Int) : Int :=
  let m := x % 2 ^ 64
  if m < 2 ^ 63 then m else m - 2 ^ 64

/-- Library `x.BitLen()`: zero exactly for `x = 0`. -/
def BitLen (x : Int) : Nat := if x = 0 then 0 else Nat.log2 x.natAbs + 1

/-- Library `common.BytesToAddress`: the last 20 bytes of `b`, left-padded with zeros. -/
def BytesToAddress (b : Bytes) : Bytes :=
  let b := if b.length > 20 then b.drop (b.length - 20) else b
  List.replicate (20 - b.length) 0 ++ b

/-- Library `common.BytesToHash`: the last 32 bytes of `b`, left-padded with zeros. -/
def BytesToHash (b : Bytes) : Bytes :=
  let b := if b.length > 32 then b.drop (b.length - 32) else b
  List.replicate (32 - b.length) 0 ++ b

/-! ## request.go -/

def GasRequestType : Byte := 0x60
def WithdrawalRequestType : Byte := 0x61
def ReplaceByFeeRequestType : Byte := 0x62
def Cancel1RequestType : Byte := 0x63
def CreateRequestType : Byte := 0x64
def LockRequestType : Byte := 0x65
def UnlockRequestType : Byte := 0x66
def ClaimRequestType : Byte := 0x67
def UpdateTokenWeightRequestType : Byte := 0x68
def UpdateTokenThresholdRequestType : Byte := 0x69
def GrantRequestType : Byte := 0x6a
def AddVoterRequestType : Byte := 0x6b
def RemoveVoterRequestType : Byte := 0x6c

/-- Source: EncodeUint64. Value `i` is written to `raw[8i : 8i+8]` of a buffer of `8*len(n)`
bytes, so the buffer is the concatenation of the 8-byte groups. -/
def EncodeUint64 : List Nat → Bytes
  | [] => []
  | n :: ns => PutUint64 n ++ EncodeUint64 ns

/-- The loop of DecodeUint64 from index `i` on, for `count` more iterations. -/
def DecodeUint64.loop (data : Bytes) : Nat → Nat → Res (List Nat)
  | 0, _ => .ok []
  | count + 1, i => do
    let start := i * 8
    let stop := start + 8
    let v ← Uint64LE (← slice data start stop)
    let rest ← DecodeUint64.loop data count (i + 1)
    pure (v :: rest)

/-- Source: DecodeUint64. -/
def DecodeUint64 (data : Bytes) (expectLen : Int) : Res (List Nat) :=
  let ln := data.length
  if ((ln / 8 : Nat) : Int) ≠ expectLen ∨ ln % 8 ≠ 0 then
    .err "invalid data length"
  else
    DecodeUint64.loop data expectLen.toNat 0

/-! ## req_bridge.go -/

structure WithdrawalRequest where
  Id : Nat
  Amount : Nat
  TxPrice : Nat
  Address : Bytes
deriving DecidableEq, Repr

def withdrawalReqAddrLoc : Int := 128

def satoshi : Int := 10000000000

/-- Source: UnpackIntoWithdrawRequest. -/
def UnpackIntoWithdrawRequest (topics : List Bytes) (data : Bytes) : Res WithdrawalRequest := do
  if topics.length ≠ 3 then
    Res.err ("invalid Withdraw event topics length: expect 3 got " ++ toString topics.length)
  else
  let dl := data.length
  if dl < 192 ∨ dl % 32 ≠ 0 then
    Res.err ("invalid Withdraw event data length: " ++ toString data.length)
  else
  let id := SetBytes (← index topics 1)
  if ¬ IsUint64 id then
    Res.err "withdrawal id is too large"
  else
  let amount := SetBytes (← slice data 0 32)
  let dust := Int.emod amount satoshi
  let amount := Int.ediv amount satoshi
  if ¬ IsUint64 amount then
    Res.err ("withdrawal amount is too large: " ++ toString amount)
  else
  if BitLen dust ≠ 0 then
    Res.err ("withdrawal amount has dust: " ++ toString dust)
  else
  let maxTxPrice := SetBytes (← slice data 64 96)
  if ¬ IsUint64 maxTxPrice then
    Res.err ("max tx price is too large: " ++ toString maxTxPrice)
  else
  let addrLoc := SetBytes (← slice data 96 128)
  if addrLoc ≠ withdrawalReqAddrLoc then
    Res.err ("address location in the withdraw event should be 128 but goat " ++ toString addrLoc)
  else
  let addrLen := SetBytes (← slice data 128 160)
  let addrLenInt64 := Int64 addrLen
  if addrLenInt64 > 90 then
    Res.err "address length too large"
  else
  if ((← sliceFrom data 160).length : Int) < addrLenInt64 then
    Res.err "address slice is out of range"
  else
  let address ← sliceInt data 160 (160 + addrLenInt64)
  pure
    { Id := Uint64 id
      Amount := Uint64 amount
      TxPrice := Uint64 maxTxPrice
      Address := address }

def WithdrawalRequest.RequestType (_req : WithdrawalRequest) : Byte := WithdrawalRequestType

/-- Source: (*WithdrawalRequest).Encode. -/
def WithdrawalRequest.Encode (req : WithdrawalRequest) : Bytes :=
  let buf : Bytes := []
  let buf := buf ++ [req.RequestType]
  let buf := buf ++ EncodeUint64 [req.Id, req.Amount, req.TxPrice]
  let buf := buf ++ [byte req.Address.length]
  let buf := buf ++ req.Address
  buf

/-- Source: (*WithdrawalRequest).Decode. The result is the receiver after the call. -/
def WithdrawalRequest.Decode (req : WithdrawalRequest) (input : Bytes) :
    Res WithdrawalRequest := do
  if input.length < 26 then
    Res.err "WithdrawalRequest bytes length too short"
  else
  if (← index input 0) ≠ req.RequestType then
    Res.err "not WithdrawalRequest bytes"
  else
  let res ← DecodeUint64 (← slice input 1 25) 3
  let req := { req with Id := ← index res 0, Amount := ← index res 1, TxPrice := ← index res 2 }
  let addrLength := (← index input 25).val
  if (← sliceFrom input 26).length ≠ addrLength then
    Res.err "invalid WithdrawalRequest length"
  else
  let req := { req with Address := ← sliceFrom input 26 }
  pure req

structure ReplaceByFeeRequest where
  Id : Nat
  TxPrice : Nat
deriving DecidableEq, Repr

/-- Source: UnpackIntoReplaceByFeeRequest. -/
def UnpackIntoReplaceByFeeRequest (topics : List Bytes) (data : Bytes) :
    Res ReplaceByFeeRequest := do
  if topics.length ≠ 2 then
    Res.err ("invalid ReplaceByFee event topics length: expect 3 got " ++ toString topics.length)
  else
  if data.length ≠ 32 then
    Res.err ("invalid ReplaceByFee event data length: " ++ toString data.length)
  else
  let id := SetBytes (← index topics 1)
  if ¬ IsUint64 id then
    Res.err "withdrawal id is too large"
  else
  let txPrice := SetBytes data
  if ¬ IsUint64 txPrice then
    Res.err "max tx price is too large"
  else
  pure { Id := Uint64 id, TxPrice := Uint64 txPrice }

def ReplaceByFeeRequest.RequestType (_req : ReplaceByFeeRequest) : Byte := ReplaceByFeeRequestType

/-- Source: (*ReplaceByFeeRequest).Encode. -/
def ReplaceByFeeRequest.Encode (req : ReplaceByFeeRequest) : Bytes :=
  [ReplaceByFeeRequestType] ++ EncodeUint64 [req.Id, req.TxPrice]

/-- Source: (*ReplaceByFeeRequest).Decode. -/
def ReplaceByFeeRequest.Decode (req : ReplaceByFeeRequest) (input : Bytes) :
    Res ReplaceByFeeRequest := do
  if input.length ≠ 17 then
    Res.err "invalid ReplaceByFeeRequest bytes length"
  else
  if (← index input 0) ≠ req.RequestType then
    Res.err "not ReplaceByFeeRequest request"
  else
  let res ← DecodeUint64 (← sliceFrom input 1) 2
  let req := { req with Id := ← index res 0, TxPrice := ← index res 1 }
  pure req

structure Cancel1Request where
  Id : Nat
deriving DecidableEq, Repr

/-- Source: UnpackIntoCancel1Request. -/
def UnpackIntoCancel1Request (topics : List Bytes) (data : Bytes) : Res Cancel1Request := do
  if topics.length ≠ 2 then
    Res.err ("invalid Cancel1 event topics length: expect 2 got " ++ toString topics.length)
  else
  if data.length ≠ 0 then
    Res.err ("invalid Cancel1 event data length, expect 0 got " ++ toString data.length)
  else
  let id := SetBytes (← index topics 1)
  if ¬ IsUint64 id then
    Res.err "withdrawal id is too large"
  else
  pure { Id := Uint64 id }

def Cancel1Request.RequestType (_req : Cancel1Request) : Byte := Cancel1RequestType

/-- Source: (*Cancel1Request).Encode. -/
def Cancel1Request.Encode (req : Cancel1Request) : Bytes :=
  [req.RequestType] ++ EncodeUint64 [req.Id]

/-- Source: (*Cancel1Request).Decode. -/
def Cancel1Request.Decode (req : Cancel1Request) (input : Bytes) : Res Cancel1Request := do
  if input.length ≠ 9 then
    Res.err "invalid Cancel1 bytes length"
  else
  if (← index input 0) ≠ req.RequestType then
    Res.err "not Cancel1 request"
  else
  let res ← DecodeUint64 (← sliceFrom input 1) 1
  let req := { req with Id := ← index res 0 }
  pure req

/-! ## req_relayer.go -/

structure AddVoterRequest where
  Voter : Bytes
  Pubkey : Bytes
deriving DecidableEq, Repr

/-- Source: UnpackIntoAddVoterRequest. -/
def UnpackIntoAddVoterRequest (topics : List Bytes) (data : Bytes) : Res AddVoterRequest := do
  if topics.length ≠ 2 then
    Res.err ("invalid AddVoter event topics length: expect 2 got " ++ toString topics.length)
  else
  if data.length ≠ 32 then
    Res.err ("invalid AddVoter event data length: want 32 have " ++ toString data.length)
  else
  pure
    { Voter := BytesToAddress (← index topics 1)
      Pubkey := BytesToHash data }

def AddVoterRequest.RequestType (_req : AddVoterRequest) : Byte := AddVoterRequestType

/-- Source: (*AddVoterRequest).Encode. -/
def AddVoterRequest.Encode (req : AddVoterRequest) : Bytes :=
  let res : Bytes := []
  let res := res ++ [req.RequestType]
  let res := res ++ req.Voter
  let res := res ++ req.Pubkey
  res

/-- Source: (*AddVoterRequest).Decode. -/
def AddVoterRequest.Decode (req : AddVoterRequest) (input : Bytes) : Res AddVoterRequest := do
  if input.length ≠ 53 then
    Res.err "invalid AddVoterRequest length"
  else
  if (← index input 0) ≠ req.RequestType then
    Res.err "not AddVoterRequest bytes"
  else
  let req := { req with Voter := BytesToAddress (← slice input 1 21) }
  let req := { req with Pubkey := BytesToHash (← sliceFrom input 21) }
  pure req

structure RemoveVoterRequest where
  Voter : Bytes
deriving DecidableEq, Repr

/-- Source: UnpackIntoRemoveVoterRequest. -/
def UnpackIntoRemoveVoterRequest (topics : List Bytes) (data : Bytes) :
    Res RemoveVoterRequest := do
  if topics.length ≠ 2 then
    Res.err ("invalid RemoveVoter event topics length: expect 2 got " ++ toString topics.length)
  else
  if data.length ≠ 0 then
    Res.err ("invalid RemoveVoter event data length: want 0, have " ++ toString data.length)
  else
  pure { Voter := BytesToAddress (← index topics 1) }

def RemoveVoterRequest.RequestType (_req : RemoveVoterRequest) : Byte := RemoveVoterRequestType

/-- Source: (*RemoveVoterRequest).Encode. -/
def RemoveVoterRequest.Encode (req : RemoveVoterRequest) : Bytes :=
  let res : Bytes := []
  let res := res ++ [req.RequestType]
  let res := res ++ req.Voter
  res

/-- Source: (*RemoveVoterRequest).Decode. -/
def RemoveVoterRequest.Decode (req : RemoveVoterRequest) (input : Bytes) :
    Res RemoveVoterRequest := do
  if input.length ≠ 21 then
    Res.err "invalid RemoveVoterRequest length"
  else
  if (← index input 0) ≠ req.RequestType then
    Res.err "not RemoveVoterRequest bytes"
  else
  let req := { req with Voter := BytesToAddress (← sliceFrom input 1) }
  pure req

/-! ## req_locking.go -/

structure GasRequest where
  Height : Nat
  Amount : Int
deriving DecidableEq, Repr

/-- Source: NewGasRequest. -/
def NewGasRequest (height : Nat) (amount : Int) : GasRequest :=
  { Height := height, Amount := amount }

def GasRequest.RequestType (_req : GasRequest) : Byte := GasRequestType

/-- Source: (*GasRequest).Encode. -/
def GasRequest.Encode (req : GasRequest) : Option Bytes := do
  let res : Bytes := []
  let res := res ++ [req.RequestType]
  let res := res ++ EncodeUint64 [req.Height]
  let res := res ++ (← FillBytes req.Amount 32)
  pure res

/-- Source: (*GasRequest).Decode. -/
def GasRequest.Decode (req : GasRequest) (input : Bytes) : Res GasRequest := do
  if input.length ≠ 41 then
    Res.err "invalid GasRequest bytes length"
  else
  if (← index input 0) ≠ req.RequestType then
    Res.err "not GasRequest"
  else
  let res ← DecodeUint64 (← slice input 1 9) 1
  let req := { req with Height := ← index res 0 }
  let req := { req with Amount := SetBytes (← sliceFrom input 9) }
  pure req

structure CreateRequest where
  Validator : Bytes
  Pubkey : Bytes
deriving DecidableEq, Repr

/-- Source: UnpackIntoCreateRequest. -/
def UnpackIntoCreateRequest (data : Bytes) : Res CreateRequest := do
  if data.length ≠ 128 then
    Res.err ("invalid CreateValidator event data length: want 128, have " ++ toString data.length)
  else
  pure
    { Validator := BytesToAddress (← slice data 0 32)
      Pubkey := ← toArray 64 (← sliceFrom data 64) }

def CreateRequest.RequestType (_req : CreateRequest) : Byte := CreateRequestType

/-- Source: (*CreateRequest).Encode. -/
def CreateRequest.Encode (req : CreateRequest) : Bytes :=
  let res : Bytes := []
  let res := res ++ [req.RequestType]
  let res := res ++ req.Validator
  let res := res ++ req.Pubkey
  res

/-- Source: (*CreateRequest).Decode. -/
def CreateRequest.Decode (req : CreateRequest) (input : Bytes) : Res CreateRequest := do
  if input.length ≠ 85 then
    Res.err "invalid CreateRequest bytes length"
  else
  if (← index input 0) ≠ req.RequestType then
    Res.err "not CreateRequest"
  else
  let req := { req with Validator := BytesToAddress (← slice input 1 21) }
  let req := { req with Pubkey := ← toArray 64 (← sliceFrom input 21) }
  pure req

structure LockRequest where
  Validator : Bytes
  Token : Bytes
  Amount : Int
deriving DecidableEq, Repr

def LockRequest.RequestType (_req : LockRequest) : Byte := LockRequestType

/-- Source: (*LockRequest).Encode. -/
def LockRequest.Encode (req : LockRequest) : Option Bytes := do
  let res : Bytes := []
  let res := res ++ [req.RequestType]
  let res := res ++ req.Validator
  let res := res ++ req.Token
  let res := res ++ (← FillBytes req.Amount 32)
  pure res

/-- Source: (*LockRequest).Decode. -/
def LockRequest.Decode (req : LockRequest) (input : Bytes) : Res LockRequest := do
  if input.length ≠ 73 then
    Res.err "invalid LockRequest bytes length"
  else
  if (← index input 0) ≠ req.RequestType then
    Res.err "not LockRequest"
  else
  let req := { req with Validator := BytesToAddress (← slice input 1 21) }
  let input ← sliceFrom input 21
  let req := { req with Token := BytesToAddress (← slice input 0 20) }
  let input ← sliceFrom input 20
  let req := { req with Amount := SetBytes input }
  pure req

/-- Source: UnpackIntoLockRequest. -/
def UnpackIntoLockRequest (data : Bytes) : Res LockRequest := do
  if data.length ≠ 96 then
    Res.err ("invalid Lock event data length: want 96, have " ++ toString data.length)
  else
  pure
    { Validator := BytesToAddress (← slice data 0 32)
      Token := BytesToAddress (← slice data 32 64)
      Amount := SetBytes (← sliceFrom data 64) }

structure UnlockRequest where
  Id : Nat
  Validator : Bytes
  Recipient : Bytes
  Token : Bytes
  Amount : Int
deriving DecidableEq, Repr

/-- Source: UnpackIntoUnlockRequest. -/
def UnpackIntoUnlockRequest (data : Bytes) : Res UnlockRequest := do
  if data.length ≠ 160 then
    Res.err ("invalid Unlock event data length: want 160, have " ++ toString data.length)
  else
  pure
    { Id := Uint64 (SetBytes (← slice data 0 32))
      Validator := BytesToAddress (← slice data 32 64)
      Recipient := BytesToAddress (← slice data 64 96)
      Token := BytesToAddress (← slice data 96 128)
      Amount := SetBytes (← slice data 128 160) }

def UnlockRequest.RequestType (_req : UnlockRequest) : Byte := UnlockRequestType

/-- Source: (*UnlockRequest).Encode. -/
def UnlockRequest.Encode (req : UnlockRequest) : Option Bytes := do
  let res : Bytes := []
  let res := res ++ [req.RequestType]
  let res := res ++ EncodeUint64 [req.Id]
  let res := res ++ req.Validator
  let res := res ++ req.Recipient
  let res := res ++ req.Token
  let res := res ++ (← FillBytes req.Amount 32)
  pure res

/-- Source: (*UnlockRequest).Decode. -/
def UnlockRequest.Decode (req : UnlockRequest) (input : Bytes) : Res UnlockRequest := do
  if input.length ≠ 101 then
    Res.err "invalid UnlockRequest bytes length"
  else
  if (← index input 0) ≠ req.RequestType then
    Res.err "not UnlockRequest"
  else
  let res ← DecodeUint64 (← slice input 1 9) 1
  let req := { req with Id := ← index res 0 }
  let input ← sliceFrom input 9
  let req := { req with Validator := BytesToAddress (← slice input 0 20) }
  let input ← sliceFrom input 20
  let req := { req with Recipient := BytesToAddress (← slice input 0 20) }
  let input ← sliceFrom input 20
  let req := { req with Token := BytesToAddress (← slice input 0 20) }
  let input ← sliceFrom input 20
  let req := { req with Amount := SetBytes input }
  pure req

structure ClaimRequest where
  Id : Nat
  Validator : Bytes
  Recipient : Bytes
deriving DecidableEq, Repr

def ClaimRequest.RequestType (_req : ClaimRequest) : Byte := ClaimRequestType

/-- Source: (*ClaimRequest).Encode. -/
def ClaimRequest.Encode (req : ClaimRequest) : Bytes :=
  let res : Bytes := []
  let res := res ++ [req.RequestType]
  let res := res ++ EncodeUint64 [req.Id]
  let res := res ++ req.Validator
  let res := res ++ req.Recipient
  res

/-- Source: (*ClaimRequest).Decode. -/
def ClaimRequest.Decode (req : ClaimRequest) (input : Bytes) : Res ClaimRequest := do
  if input.length ≠ 49 then
    Res.err "invalid UnlockRequest bytes length"
  else
  if (← index input 0) ≠ req.RequestType then
    Res.err "not ClaimRequest"
  else
  let res ← DecodeUint64 (← slice input 1 9) 1
  let req := { req with Id := ← index res 0 }
  let input ← sliceFrom input 9
  let req := { req with Validator := BytesToAddress (← slice input 0 20) }
  let req := { req with Recipient := BytesToAddress (← sliceFrom input 20) }
  pure req

/-- Source: UnpackIntoClaimRequest. -/
def UnpackIntoClaimRequest (data : Bytes) : Res ClaimRequest := do
  if data.length ≠ 96 then
    Res.err ("GoatRewardClaim wrong length: want 96, have " ++ toString data.length)
  else
  pure
    { Id := Uint64 (SetBytes (← slice data 0 32))
      Validator := BytesToAddress (← slice data 32 64)
      Recipient := BytesToAddress (← slice data 64 96) }

structure UpdateTokenWeightRequest where
  Token : Bytes
  Weight : Nat
deriving DecidableEq, Repr

/-- Source: UnpackIntoUpdateTokenWeightRequest. -/
def UnpackIntoUpdateTokenWeightRequest (data : Bytes) : Res UpdateTokenWeightRequest := do
  if data.length ≠ 64 then
    Res.err ("UpdateTokenWeight wrong length: want 64, have " ++ toString data.length)
  else
  pure
    { Token := BytesToAddress (← slice data 0 32)
      Weight := Uint64 (SetBytes (← slice data 32 64)) }

def UpdateTokenWeightRequest.RequestType (_req : UpdateTokenWeightRequest) : Byte :=
  UpdateTokenWeightRequestType

/-- Source: (*UpdateTokenWeightRequest).Encode. -/
def UpdateTokenWeightRequest.Encode (req : UpdateTokenWeightRequest) : Bytes :=
  let res : Bytes := []
  let res := res ++ [req.RequestType]
  let res := res ++ req.Token
  let res := res ++ EncodeUint64 [req.Weight]
  res

/-- Source: (*UpdateTokenWeightRequest).Decode. -/
def UpdateTokenWeightRequest.Decode (req : UpdateTokenWeightRequest) (input : Bytes) :
    Res UpdateTokenWeightRequest := do
  if input.length ≠ 29 then
    Res.err "invalid UpdateTokenWeightRequest bytes length"
  else
  if (← index input 0) ≠ req.RequestType then
    Res.err "not UpdateTokenWeightRequest"
  else
  let req := { req with Token := BytesToAddress (← slice input 1 21) }
  let res ← DecodeUint64 (← sliceFrom input 21) 1
  let req := { req with Weight := ← index res 0 }
  pure req

structure UpdateTokenThresholdRequest where
  Token : Bytes
  Threshold : Int
deriving DecidableEq, Repr

/-- Source: UnpackIntoUpdateTokenThresholdRequest. -/
def UnpackIntoUpdateTokenThresholdRequest (data : Bytes) : Res UpdateTokenThresholdRequest := do
  if data.length ≠ 64 then
    Res.err ("invalid UpdateTokenThreshold event data length: want 64, have "
      ++ toString data.length)
  else
  pure
    { Token := BytesToAddress (← slice data 0 32)
      Threshold := SetBytes (← slice data 32 64) }

def UpdateTokenThresholdRequest.RequestType (_req : UpdateTokenThresholdRequest) : Byte :=
  UpdateTokenThresholdRequestType

/-- Source: (*UpdateTokenThresholdRequest).Encode. -/
def UpdateTokenThresholdRequest.Encode (req : UpdateTokenThresholdRequest) : Option Bytes := do
  let res : Bytes := []
  let res := res ++ [req.RequestType]
  let res := res ++ req.Token
  let res := res ++ (← FillBytes req.Threshold 32)
  pure res

/-- Source: (*UpdateTokenThresholdRequest).Decode. -/
def UpdateTokenThresholdRequest.Decode (req : UpdateTokenThresholdRequest) (input : Bytes) :
    Res UpdateTokenThresholdRequest := do
  if input.length ≠ 53 then
    Res.err "invalid UpdateTokenThresholdRequest bytes length"
  else
  if (← index input 0) ≠ req.RequestType then
    Res.err "not UpdateTokenThresholdRequest"
  else
  let req := { req with Token := BytesToAddress (← slice input 1 21) }
  let req := { req with Threshold := SetBytes (← sliceFrom input 21) }
  pure req

structure GrantRequest where
  Amount : Int
deriving DecidableEq, Repr

/-- Source: UnpackIntoGrantRequest. -/
def UnpackIntoGrantRequest (data : Bytes) : Res GrantRequest := do
  if data.length ≠ 32 then
    Res.err ("invalid GoatGrant event data length: want 32, have " ++ toString data.length)
  else
  pure { Amount := SetBytes data }

def GrantRequest.RequestType (_req : GrantRequest) : Byte := GrantRequestType

/-- Source: (*GrantRequest).Encode. -/
def GrantRequest.Encode (req : GrantRequest) : Option Bytes := do
  pure ([req.RequestType] ++ (← FillBytes req.Amount 32))

/-- Source: (*GrantRequest).Decode. -/
def GrantRequest.Decode (req : GrantRequest) (input : Bytes) : Res GrantRequest := do
  if input.length ≠ 33 then
    Res.err "invalid UpdateTokenThresholdRequest bytes length"
  else
  if (← index input 0) ≠ req.RequestType then
    Res.err "not UpdateTokenThresholdRequest"
  else
  let req := { req with Amount := SetBytes (← sliceFrom input 1) }
  pure req

/-! ## constant.go and the event topics of request.go -/

/-- Source: common.HexToHash of 0xbe7c38d37e8132b1d2b29509df9bf58cf1126edf2563c00db0ef3a271fb9f35b. -/
def WithdrawEventTopic : Bytes :=
  [0xbe, 0x7c, 0x38, 0xd3, 0x7e, 0x81, 0x32, 0xb1, 0xd2, 0xb2, 0x95, 0x09, 0xdf, 0x9b, 0xf5, 0x8c,
   0xf1, 0x12, 0x6e, 0xdf, 0x25, 0x63, 0xc0, 0x0d, 0xb0, 0xef, 0x3a, 0x27, 0x1f, 0xb9, 0xf3, 0x5b]

/-- Source: common.HexToHash of 0x19875a7124af51c604454b74336ce2168c45bceade9d9a1e6dfae9ba7d31b7fa. -/
def ReplaceByFeeEventTopic : Bytes :=
  [0x19, 0x87, 0x5a, 0x71, 0x24, 0xaf, 0x51, 0xc6, 0x04, 0x45, 0x4b, 0x74, 0x33, 0x6c, 0xe2, 0x16,
   0x8c, 0x45, 0xbc, 0xea, 0xde, 0x9d, 0x9a, 0x1e, 0x6d, 0xfa, 0xe9, 0xba, 0x7d, 0x31, 0xb7, 0xfa]

/-- Source: common.HexToHash of 0x0106f4416537efff55311ef5e2f9c2a48204fcf84731f2b9d5091d23fc52160c. -/
def Cancel1EventTopic : Bytes :=
  [0x01, 0x06, 0xf4, 0x41, 0x65, 0x37, 0xef, 0xff, 0x55, 0x31, 0x1e, 0xf5, 0xe2, 0xf9, 0xc2, 0xa4,
   0x82, 0x04, 0xfc, 0xf8, 0x47, 0x31, 0xf2, 0xb9, 0xd5, 0x09, 0x1d, 0x23, 0xfc, 0x52, 0x16, 0x0c]

/-- Source: common.HexToHash of 0x101c617f43dd1b8a54a9d747d9121bbc55e93b88bc50560d782a79c4e28fc838. -/
def AddVoterEventTopoic : Bytes :=
  [0x10, 0x1c, 0x61, 0x7f, 0x43, 0xdd, 0x1b, 0x8a, 0x54, 0xa9, 0xd7, 0x47, 0xd9, 0x12, 0x1b, 0xbc,
   0x55, 0xe9, 0x3b, 0x88, 0xbc, 0x50, 0x56, 0x0d, 0x78, 0x2a, 0x79, 0xc4, 0xe2, 0x8f, 0xc8, 0x38]

/-- Source: common.HexToHash of 0x183393fc5cffbfc7d03d623966b85f76b9430f42d3aada2ac3f3deabc78899e8. -/
def RemoveVoterEventTopic : Bytes :=
  [0x18, 0x33, 0x93, 0xfc, 0x5c, 0xff, 0xbf, 0xc7, 0xd0, 0x3d, 0x62, 0x39, 0x66, 0xb8, 0x5f, 0x76,
   0xb9, 0x43, 0x0f, 0x42, 0xd3, 0xaa, 0xda, 0x2a, 0xc3, 0xf3, 0xde, 0xab, 0xc7, 0x88, 0x99, 0xe8]

/-- Source: common.HexToHash of 0xf3aa84440b70359721372633122645674adb6dbb72622a222627248ef053a7dd. -/
def CreateEventTopic : Bytes :=
  [0xf3, 0xaa, 0x84, 0x44, 0x0b, 0x70, 0x35, 0x97, 0x21, 0x37, 0x26, 0x33, 0x12, 0x26, 0x45, 0x67,
   0x4a, 0xdb, 0x6d, 0xbb, 0x72, 0x62, 0x2a, 0x22, 0x26, 0x27, 0x24, 0x8e, 0xf0, 0x53, 0xa7, 0xdd]

/-- Source: common.HexToHash of 0xec36c0364d931187a76cf66d7eee08fad0ec2e8b7458a8d8b26b36769d4d13f3. -/
def LockEventTopic : Bytes :=
  [0xec, 0x36, 0xc0, 0x36, 0x4d, 0x93, 0x11, 0x87, 0xa7, 0x6c, 0xf6, 0x6d, 0x7e, 0xee, 0x08, 0xfa,
   0xd0, 0xec, 0x2e, 0x8b, 0x74, 0x58, 0xa8, 0xd8, 0xb2, 0x6b, 0x36, 0x76, 0x9d, 0x4d, 0x13, 0xf3]

/-- Source: common.HexToHash of 0x40f2a8c5e2e2a9ad2f4e4dfc69825595b526178445c3eb22b02edfd190601db7. -/
def UnlockEventTopic : Bytes :=
  [0x40, 0xf2, 0xa8, 0xc5, 0xe2, 0xe2, 0xa9, 0xad, 0x2f, 0x4e, 0x4d, 0xfc, 0x69, 0x82, 0x55, 0x95,
   0xb5, 0x26, 0x17, 0x84, 0x45, 0xc3, 0xeb, 0x22, 0xb0, 0x2e, 0xdf, 0xd1, 0x90, 0x60, 0x1d, 0xb7]

/-- Source: common.HexToHash of 0xa983a6cfc4bd1095dac7b145ae020ba08e16cc7efa2051cc6b77e4011b9ee99b. -/
def ClaimEventTopic : Bytes :=
  [0xa9, 0x83, 0xa6, 0xcf, 0xc4, 0xbd, 0x10, 0x95, 0xda, 0xc7, 0xb1, 0x45, 0xae, 0x02, 0x0b, 0xa0,
   0x8e, 0x16, 0xcc, 0x7e, 0xfa, 0x20, 0x51, 0xcc, 0x6b, 0x77, 0xe4, 0x01, 0x1b, 0x9e, 0xe9, 0x9b]

/-- Source: common.HexToHash of 0x41891e803e84c188180caa0f073ce4235b8002dac887a69fcdcae1d295951fa0. -/
def GrantEventTopic : Bytes :=
  [0x41, 0x89, 0x1e, 0x80, 0x3e, 0x84, 0xc1, 0x88, 0x18, 0x0c, 0xaa, 0x0f, 0x07, 0x3c, 0xe4, 0x23,
   0x5b, 0x80, 0x02, 0xda, 0xc8, 0x87, 0xa6, 0x9f, 0xcd, 0xca, 0xe1, 0xd2, 0x95, 0x95, 0x1f, 0xa0]

/-- Source: common.HexToHash of 0xb59bf4596e5415117fb4625044cb5b0ca5b273742825b026d06afe82a48e6217. -/
def UpdateTokenWeightEventTopic : Bytes :=
  [0xb5, 0x9b, 0xf4, 0x59, 0x6e, 0x54, 0x15, 0x11, 0x7f, 0xb4, 0x62, 0x50, 0x44, 0xcb, 0x5b, 0x0c,
   0xa5, 0xb2, 0x73, 0x74, 0x28, 0x25, 0xb0, 0x26, 0xd0, 0x6a, 0xfe, 0x82, 0xa4, 0x8e, 0x62, 0x17]

/-- Source: common.HexToHash of 0x326e29ab1c62c7d77fdfb302916e82e1a54f3b9961db75ee7e18afe488a0e92d. -/
def UpdateTokenThresholdEventTopic : Bytes :=
  [0x32, 0x6e, 0x29, 0xab, 0x1c, 0x62, 0xc7, 0xd7, 0x7f, 0xdf, 0xb3, 0x02, 0x91, 0x6e, 0x82, 0xe1,
   0xa5, 0x4f, 0x3b, 0x99, 0x61, 0xdb, 0x75, 0xee, 0x7e, 0x18, 0xaf, 0xe4, 0x88, 0xa0, 0xe9, 0x2d]

/-- Source: common.HexToAddress of 0xBc10000000000000000000000000000000000002. -/
def GoatFoundationContract : Bytes :=
  [0xbc, 0x10, 0x00, 0x00, 0x00, 0x00, 0x00, 0x00, 0x00, 0x00, 0x00, 0x00, 0x00, 0x00, 0x00, 0x00,
   0x00, 0x00, 0x00, 0x02]

/-- Source: common.HexToAddress of 0xBC10000000000000000000000000000000000003. -/
def BridgeContract : Bytes :=
  [0xbc, 0x10, 0x00, 0x00, 0x00, 0x00, 0x00, 0x00, 0x00, 0x00, 0x00, 0x00, 0x00, 0x00, 0x00, 0x00,
   0x00, 0x00, 0x00, 0x03]

/-- Source: common.HexToAddress of 0xbC10000000000000000000000000000000000004. -/
def LockingContract : Bytes :=
  [0xbc, 0x10, 0x00, 0x00, 0x00, 0x00, 0x00, 0x00, 0x00, 0x00, 0x00, 0x00, 0x00, 0x00, 0x00, 0x00,
   0x00, 0x00, 0x00, 0x04]

/-- Source: common.HexToAddress of 0xBC10000000000000000000000000000000000006. -/
def RelayerContract : Bytes :=
  [0xbc, 0x10, 0x00, 0x00, 0x00, 0x00, 0x00, 0x00, 0x00, 0x00, 0x00, 0x00, 0x00, 0x00, 0x00, 0x00,
   0x00, 0x00, 0x00, 0x06]

/-! ## state_processor_goat.go -/

/-- A `types.Log`, restricted to the fields the pipeline reads. -/
structure Log where
  Address : Bytes
  Topics : List Bytes
  Data : Bytes
deriving DecidableEq, Repr

/-- The result pair `([][]byte, error)` of ProcessGoatRequests (a nil slice is the empty list),
or `none` for a run-time panic. -/
abbrev Requests := Option (List Bytes × Option Error)

/-- The `for _, log := range allLogs` loop of ProcessGoatRequests on the logs that remain,
`requests` being the list built so far. -/
def ProcessGoatRequests.loop : List Log → List Bytes → Requests
  | [], requests => some (requests, none)
  | log :: rest, requests =>
    if log.Address = BridgeContract then
      if log.Topics.length < 2 then
        ProcessGoatRequests.loop rest requests
      else
        match log.Topics[0]? with
        | none => none
        | some topic0 =>
          if topic0 = WithdrawEventTopic then
            match UnpackIntoWithdrawRequest log.Topics log.Data with
            | .panic => none
            | .err e => some ([], some e)
            | .ok req => ProcessGoatRequests.loop rest (requests ++ [req.Encode])
          else if topic0 = ReplaceByFeeEventTopic then
            match UnpackIntoReplaceByFeeRequest log.Topics log.Data with
            | .panic => none
            | .err e => some ([], some e)
            | .ok req => ProcessGoatRequests.loop rest (requests ++ [req.Encode])
          else if topic0 = Cancel1EventTopic then
            match UnpackIntoCancel1Request log.Topics log.Data with
            | .panic => none
            | .err e => some ([], some e)
            | .ok req => ProcessGoatRequests.loop rest (requests ++ [req.Encode])
          else
            ProcessGoatRequests.loop rest requests
    else if log.Address = LockingContract then
      if log.Topics.length ≠ 1 then
        ProcessGoatRequests.loop rest requests
      else
        match log.Topics[0]? with
        | none => none
        | some topic0 =>
          if topic0 = CreateEventTopic then
            match UnpackIntoCreateRequest log.Data with
            | .panic => none
            | .err e => some ([], some e)
            | .ok req => ProcessGoatRequests.loop rest (requests ++ [req.Encode])
          else if topic0 = LockEventTopic then
            match UnpackIntoLockRequest log.Data with
            | .panic => none
            | .err e => some ([], some e)
            | .ok req =>
              match req.Encode with
              | none => none
              | some enc => ProcessGoatRequests.loop rest (requests ++ [enc])
          else if topic0 = UnlockEventTopic then
            match UnpackIntoUnlockRequest log.Data with
            | .panic => none
            | .err e => some ([], some e)
            | .ok req =>
              match req.Encode with
              | none => none
              | some enc => ProcessGoatRequests.loop rest (requests ++ [enc])
          else if topic0 = ClaimEventTopic then
            match UnpackIntoClaimRequest log.Data with
            | .panic => none
            | .err e => some ([], some e)
            | .ok req => ProcessGoatRequests.loop rest (requests ++ [req.Encode])
          else if topic0 = GrantEventTopic then
            match UnpackIntoGrantRequest log.Data with
            | .panic => none
            | .err e => some ([], some e)
            | .ok req =>
              match req.Encode with
              | none => none
              | some enc => ProcessGoatRequests.loop rest (requests ++ [enc])
          else if topic0 = UpdateTokenWeightEventTopic then
            match UnpackIntoUpdateTokenWeightRequest log.Data with
            | .panic => none
            | .err e => some ([], some e)
            | .ok req => ProcessGoatRequests.loop rest (requests ++ [req.Encode])
          else if topic0 = UpdateTokenThresholdEventTopic then
            match UnpackIntoUpdateTokenThresholdRequest log.Data with
            | .panic => none
            | .err e => some ([], some e)
            | .ok req =>
              match req.Encode with
              | none => none
              | some enc => ProcessGoatRequests.loop rest (requests ++ [enc])
          else
            ProcessGoatRequests.loop rest requests
    else if log.Address = RelayerContract then
      if log.Topics.length ≠ 2 then
        ProcessGoatRequests.loop rest requests
      else
        match log.Topics[0]? with
        | none => none
        | some topic0 =>
          if topic0 = AddVoterEventTopoic then
            match UnpackIntoAddVoterRequest log.Topics log.Data with
            | .panic => none
            | .err e => some ([], some e)
            | .ok req => ProcessGoatRequests.loop rest (requests ++ [req.Encode])
          else if topic0 = RemoveVoterEventTopic then
            match UnpackIntoRemoveVoterRequest log.Topics log.Data with
            | .panic => none
            | .err e => some ([], some e)
            | .ok req => ProcessGoatRequests.loop rest (requests ++ [req.Encode])
          else
            ProcessGoatRequests.loop rest requests
    else
      ProcessGoatRequests.loop rest requests

/-- Source: ProcessGoatRequests. -/
def ProcessGoatRequests (height : Nat) (reward : Int) (allLogs : List Log) : Requests :=
  match (NewGasRequest height reward).Encode with
  | none => none
  | some gas => ProcessGoatRequests.loop allLogs [gas]

/-! ## request.go: DecodeRequests -/

/-- Source: BridgeRequests (req_bridge.go); the pointers to requests are the requests. -/
structure BridgeRequests where
  Withdraws : List WithdrawalRequest
  ReplaceByFees : List ReplaceByFeeRequest
  Cancel1s : List Cancel1Request
deriving DecidableEq, Repr

/-- Source: RelayerRequests (req_relayer.go). -/
structure RelayerRequests where
  Adds : List AddVoterRequest
  Removes : List RemoveVoterRequest
deriving DecidableEq, Repr

/-- Source: LockingRequests (req_locking.go). -/
structure LockingRequests where
  Gas : List GasRequest
  Creates : List CreateRequest
  Locks : List LockRequest
  Unlocks : List UnlockRequest
  Claims : List ClaimRequest
  Grants : List GrantRequest
  UpdateWeights : List UpdateTokenWeightRequest
  UpdateThresholds : List UpdateTokenThresholdRequest
deriving DecidableEq, Repr

/-- The named results `(bridge, relayer, locking, err)` of DecodeRequests, as they are when the
function returns: on an error the collections hold what was decoded before it. -/
structure DecodeResult where
  bridge : BridgeRequests
  relayer : RelayerRequests
  locking : LockingRequests
  err : Option Error
deriving DecidableEq, Repr

/-! The zero values that `new(T)` allocates (a nil `*big.Int` is represented by 0, address and
key arrays by zero bytes). -/

def GasRequest.new : GasRequest := { Height := 0, Amount := 0 }

def WithdrawalRequest.new : WithdrawalRequest :=
  { Id := 0, Amount := 0, TxPrice := 0, Address := [] }

def ReplaceByFeeRequest.new : ReplaceByFeeRequest := { Id := 0, TxPrice := 0 }

def Cancel1Request.new : Cancel1Request := { Id := 0 }

def CreateRequest.new : CreateRequest :=
  { Validator := List.replicate 20 0, Pubkey := List.replicate 64 0 }

def LockRequest.new : LockRequest :=
  { Validator := List.replicate 20 0, Token := List.replicate 20 0, Amount := 0 }

def UnlockRequest.new : UnlockRequest :=
  { Id := 0, Validator := List.replicate 20 0, Recipient := List.replicate 20 0
    Token := List.replicate 20 0, Amount := 0 }

def ClaimRequest.new : ClaimRequest :=
  { Id := 0, Validator := List.replicate 20 0, Recipient := List.replicate 20 0 }

def UpdateTokenWeightRequest.new : UpdateTokenWeightRequest :=
  { Token := List.replicate 20 0, Weight := 0 }

def UpdateTokenThresholdRequest.new : UpdateTokenThresholdRequest :=
  { Token := List.replicate 20 0, Threshold := 0 }

def GrantRequest.new : GrantRequest := { Amount := 0 }

def AddVoterRequest.new : AddVoterRequest :=
  { Voter := List.replicate 20 0, Pubkey := List.replicate 32 0 }

def RemoveVoterRequest.new : RemoveVoterRequest := { Voter := List.replicate 20 0 }

/-- The `for i := 0; i < len(reqs); i++` loop of DecodeRequests on the entries that remain, with
the collections built so far; `none` is a run-time panic. -/
def DecodeRequests.loop :
    List Bytes → BridgeRequests → RelayerRequests → LockingRequests → Option DecodeResult
  | [], bridge, relayer, locking => some ⟨bridge, relayer, locking, none⟩
  | input :: rest, bridge, relayer, locking =>
    if input.length ≤ 1 then
      some ⟨bridge, relayer, locking, some "typed request too short"⟩
    else
      match input[0]? with
      | none => none
      | some tag =>
        if tag = GasRequestType then
          match GasRequest.new.Decode input with
          | .panic => none
          | .err e => some ⟨bridge, relayer, locking, some e⟩
          | .ok inner =>
            DecodeRequests.loop rest
              bridge relayer { locking with Gas := locking.Gas ++ [inner] }
        else if tag = WithdrawalRequestType then
          match WithdrawalRequest.new.Decode input with
          | .panic => none
          | .err e => some ⟨bridge, relayer, locking, some e⟩
          | .ok inner =>
            DecodeRequests.loop rest
              { bridge with Withdraws := bridge.Withdraws ++ [inner] } relayer locking
        else if tag = ReplaceByFeeRequestType then
          match ReplaceByFeeRequest.new.Decode input with
          | .panic => none
          | .err e => some ⟨bridge, relayer, locking, some e⟩
          | .ok inner =>
            DecodeRequests.loop rest
              { bridge with ReplaceByFees := bridge.ReplaceByFees ++ [inner] } relayer locking
        else if tag = Cancel1RequestType then
          match Cancel1Request.new.Decode input with
          | .panic => none
          | .err e => some ⟨bridge, relayer, locking, some e⟩
          | .ok inner =>
            DecodeRequests.loop rest
              { bridge with Cancel1s := bridge.Cancel1s ++ [inner] } relayer locking
        else if tag = CreateRequestType then
          match CreateRequest.new.Decode input with
          | .panic => none
          | .err e => some ⟨bridge, relayer, locking, some e⟩
          | .ok inner =>
            DecodeRequests.loop rest
              bridge relayer { locking with Creates := locking.Creates ++ [inner] }
        else if tag = LockRequestType then
          match LockRequest.new.Decode input with
          | .panic => none
          | .err e => some ⟨bridge, relayer, locking, some e⟩
          | .ok inner =>
            DecodeRequests.loop rest
              bridge relayer { locking with Locks := locking.Locks ++ [inner] }
        else if tag = UnlockRequestType then
          match UnlockRequest.new.Decode input with
          | .panic => none
          | .err e => some ⟨bridge, relayer, locking, some e⟩
          | .ok inner =>
            DecodeRequests.loop rest
              bridge relayer { locking with Unlocks := locking.Unlocks ++ [inner] }
        else if tag = ClaimRequestType then
          match ClaimRequest.new.Decode input with
          | .panic => none
          | .err e => some ⟨bridge, relayer, locking, some e⟩
          | .ok inner =>
            DecodeRequests.loop rest
              bridge relayer { locking with Claims := locking.Claims ++ [inner] }
        else if tag = UpdateTokenWeightRequestType then
          match UpdateTokenWeightRequest.new.Decode input with
          | .panic => none
          | .err e => some ⟨bridge, relayer, locking, some e⟩
          | .ok inner =>
            DecodeRequests.loop rest
              bridge relayer { locking with UpdateWeights := locking.UpdateWeights ++ [inner] }
        else if tag = UpdateTokenThresholdRequestType then
          match UpdateTokenThresholdRequest.new.Decode input with
          | .panic => none
          | .err e => some ⟨bridge, relayer, locking, some e⟩
          | .ok inner =>
            DecodeRequests.loop rest
              bridge relayer { locking with UpdateThresholds := locking.UpdateThresholds ++ [inner] }
        else if tag = GrantRequestType then
          match GrantRequest.new.Decode input with
          | .panic => none
          | .err e => some ⟨bridge, relayer, locking, some e⟩
          | .ok inner =>
            DecodeRequests.loop rest
              bridge relayer { locking with Grants := locking.Grants ++ [inner] }
        else if tag = AddVoterRequestType then
          match AddVoterRequest.new.Decode input with
          | .panic => none
          | .err e => some ⟨bridge, relayer, locking, some e⟩
          | .ok inner =>
            DecodeRequests.loop rest
              bridge { relayer with Adds := relayer.Adds ++ [inner] } locking
        else if tag = RemoveVoterRequestType then
          match RemoveVoterRequest.new.Decode input with
          | .panic => none
          | .err e => some ⟨bridge, relayer, locking, some e⟩
          | .ok inner =>
            DecodeRequests.loop rest
              bridge { relayer with Removes := relayer.Removes ++ [inner] } locking
        else
          some ⟨bridge, relayer, locking,
            some ("request type " ++ toString tag.val ++ " not supported")⟩

/-- Source: DecodeRequests. -/
def DecodeRequests (reqs : List Bytes) : Option DecodeResult :=
  DecodeRequests.loop reqs ⟨[], [], []⟩ ⟨[], []⟩ ⟨[], [], [], [], [], [], [], []⟩

/-! ## state_processor_goat.go: the gas fee split -/

/-- The `tracing.BalanceChangeReason` passed by ProcessGoatGasFee. -/
inductive BalanceChangeReason where
  | BalanceIncreaseRewardTransactionFee
deriving DecidableEq, Repr

/-- Library `uint256.FromBig`: the low 256 bits of the value in two's complement, and whether the
value overflows 256 bits. -/
def FromBig (b : Int) : Nat × Bool :=
  ((b % 2 ^ 256).toNat, decide (2 ^ 256 ≤ b.natAbs))

def gfBasePoint : Int := 200

def gfMaxBasePoint : Int := 10000

/-- Source: ProcessGoatGasFee. The state database is a pointer that the function mutates through
its method AddBalance: the embedding passes the state along and returns it with the result; the
type of the state and AddBalance (package core/state) are parameters. -/
def ProcessGoatGasFee {S : Type} (AddBalance : S → Bytes → Nat → BalanceChangeReason → S)
    (statedb : S) (gasFees : Int) : S × Int :=
  if BitLen gasFees = 0 then
    (statedb, 0)
  else
    -- foundation tax 2%
    let tax := gasFees * gfBasePoint
    let tax := Int.ediv tax gfMaxBasePoint
    let statedb :=
      if BitLen tax ≠ 0 then
        let f := (FromBig tax).1
        AddBalance statedb GoatFoundationContract f .BalanceIncreaseRewardTransactionFee
      else statedb
    -- add gas revenue to locking contract
    let gas := gasFees - tax
    let statedb :=
      if BitLen gas ≠ 0 then
        let f := (FromBig gas).1
        AddBalance statedb LockingContract f .BalanceIncreaseRewardTransactionFee
      else statedb
    (statedb, gas)

/-- One call of the balance mutator: account, amount, reason. -/
structure Credit where
  account : Bytes
  amount : Nat
  reason : BalanceChangeReason
deriving DecidableEq, Repr

/-- Modelled from the spec: the account-balance mutator `credit(account, amount, reason-tag)` of
the state layer (`StateDB.AddBalance` of package core/state, which is not among the sources),
observed as the ordered sequence of the calls made so far. -/
def recordCredit (calls : List Credit) (account : Bytes) (amount : Nat)
    (reason : BalanceChangeReason) : List Credit :=
  calls ++ [{ account := account, amount := amount, reason := reason }]

/-! ## Well-formed request values

The Go types bound the fields of a request: a `uint64` is below `2^64`, a `common.Address` has
20 bytes, a `common.Hash` 32 and a `[64]byte` 64.  In the embedding these are predicates.  The
256-bit fields (`*big.Int` in the code) are in range when they lie in `[0, 2^256)`. -/

def WithdrawalRequest.Valid (v : WithdrawalRequest) : Prop :=
  v.Id < 2 ^ 64 ∧ v.Amount < 2 ^ 64 ∧ v.TxPrice < 2 ^ 64 ∧ v.Address.length ≤ 90

def ReplaceByFeeRequest.Valid (v : ReplaceByFeeRequest) : Prop :=
  v.Id < 2 ^ 64 ∧ v.TxPrice < 2 ^ 64

def Cancel1Request.Valid (v : Cancel1Request) : Prop :=
  v.Id < 2 ^ 64

def AddVoterRequest.Valid (v : AddVoterRequest) : Prop :=
  v.Voter.length = 20 ∧ v.Pubkey.length = 32

def RemoveVoterRequest.Valid (v : RemoveVoterRequest) : Prop :=
  v.Voter.length = 20

def GasRequest.Valid (v : GasRequest) : Prop :=
  v.Height < 2 ^ 64 ∧ 0 ≤ v.Amount ∧ v.Amount < 2 ^ 256

def CreateRequest.Valid (v : CreateRequest) : Prop :=
  v.Validator.length = 20 ∧ v.Pubkey.length = 64

def LockRequest.Valid (v : LockRequest) : Prop :=
  v.Validator.length = 20 ∧ v.Token.length = 20 ∧ 0 ≤ v.Amount ∧ v.Amount < 2 ^ 256

def UnlockRequest.Valid (v : UnlockRequest) : Prop :=
  v.Id < 2 ^ 64 ∧ v.Validator.length = 20 ∧ v.Recipient.length = 20 ∧ v.Token.length = 20 ∧
    0 ≤ v.Amount ∧ v.Amount < 2 ^ 256

def ClaimRequest.Valid (v : ClaimRequest) : Prop :=
  v.Id < 2 ^ 64 ∧ v.Validator.length = 20 ∧ v.Recipient.length = 20

def UpdateTokenWeightRequest.Valid (v : UpdateTokenWeightRequest) : Prop :=
  v.Token.length = 20 ∧ v.Weight < 2 ^ 64

def UpdateTokenThresholdRequest.Valid (v : UpdateTokenThresholdRequest) : Prop :=
  v.Token.length = 20 ∧ 0 ≤ v.Threshold ∧ v.Threshold < 2 ^ 256

def GrantRequest.Valid (v : GrantRequest) : Prop :=
  0 ≤ v.Amount ∧ v.Amount < 2 ^ 256

instance (v : WithdrawalRequest) : Decidable v.Valid := by
  unfold WithdrawalRequest.Valid; infer_instance

instance (v : ReplaceByFeeRequest) : Decidable v.Valid := by
  unfold ReplaceByFeeRequest.Valid; infer_instance

instance (v : Cancel1Request) : Decidable v.Valid := by
  unfold Cancel1Request.Valid; infer_instance

instance (v : AddVoterRequest) : Decidable v.Valid := by
  unfold AddVoterRequest.Valid; infer_instance

instance (v : RemoveVoterRequest) : Decidable v.Valid := by
  unfold RemoveVoterRequest.Valid; infer_instance

instance (v : GasRequest) : Decidable v.Valid := by
  unfold GasRequest.Valid; infer_instance

instance (v : CreateRequest) : Decidable v.Valid := by
  unfold CreateRequest.Valid; infer_instance

instance (v : LockRequest) : Decidable v.Valid := by
  unfold LockRequest.Valid; infer_instance

instance (v : UnlockRequest) : Decidable v.Valid := by
  unfold UnlockRequest.Valid; infer_instance

instance (v : ClaimRequest) : Decidable v.Valid := by
  unfold ClaimRequest.Valid; infer_instance

instance (v : UpdateTokenWeightRequest) : Decidable v.Valid := by
  unfold UpdateTokenWeightRequest.Valid; infer_instance

instance (v : UpdateTokenThresholdRequest) : Decidable v.Valid := by
  unfold UpdateTokenThresholdRequest.Valid; infer_instance

instance (v : GrantRequest) : Decidable v.Valid := by
  unfold GrantRequest.Valid; infer_instance

/-- The call returned an error: it neither succeeded nor panicked. -/
def Res.isErr {α : Type} : Res α → Bool
  | .err _ => true
  | _ => false

/-! ## The vocabulary of the pipeline claims

The claims about ProcessGoatRequests speak of the event decoder that a log selects and of the
request unpacked from a log.  The definitions below state these notions on their own, from the
dispatch table of the specification (contract address, topic count, topic0); the theorems relate
them to the loop of ProcessGoatRequests. -/

/-- The Go interface `Request`, as the sum of its implementations. -/
inductive Request where
  | gas (req : GasRequest)
  | withdrawal (req : WithdrawalRequest)
  | replaceByFee (req : ReplaceByFeeRequest)
  | cancel1 (req : Cancel1Request)
  | create (req : CreateRequest)
  | lock (req : LockRequest)
  | unlock (req : UnlockRequest)
  | claim (req : ClaimRequest)
  | updateTokenWeight (req : UpdateTokenWeightRequest)
  | updateTokenThreshold (req : UpdateTokenThresholdRequest)
  | grant (req : GrantRequest)
  | addVoter (req : AddVoterRequest)
  | removeVoter (req : RemoveVoterRequest)
deriving DecidableEq, Repr

/-- Method `Encode` of the interface (`none` is a panic). -/
def Request.Encode : Request → Option Bytes
  | .gas req => req.Encode
  | .withdrawal req => some req.Encode
  | .replaceByFee req => some req.Encode
  | .cancel1 req => some req.Encode
  | .create req => some req.Encode
  | .lock req => req.Encode
  | .unlock req => req.Encode
  | .claim req => some req.Encode
  | .updateTokenWeight req => some req.Encode
  | .updateTokenThreshold req => req.Encode
  | .grant req => req.Encode
  | .addVoter req => some req.Encode
  | .removeVoter req => some req.Encode

/-- The recognized events, one per event decoder. -/
inductive Event where
  | Withdraw | ReplaceByFee | Cancel1
  | Create | Lock | Unlock | Claim | Grant | UpdateTokenWeight | UpdateTokenThreshold
  | AddVoter | RemoveVoter
deriving DecidableEq, Repr

/-- The event decoder that a log selects, if any: bridge logs with at least two topics, locking
logs with exactly one topic and relayer logs with exactly two topics select by topic0. -/
def dispatch (log : Log) : Option Event :=
  if log.Address = BridgeContract then
    if 2 ≤ log.Topics.length then
      if log.Topics[0]? = some WithdrawEventTopic then some .Withdraw
      else if log.Topics[0]? = some ReplaceByFeeEventTopic then some .ReplaceByFee
      else if log.Topics[0]? = some Cancel1EventTopic then some .Cancel1
      else none
    else none
  else if log.Address = LockingContract then
    if log.Topics.length = 1 then
      if log.Topics[0]? = some CreateEventTopic then some .Create
      else if log.Topics[0]? = some LockEventTopic then some .Lock
      else if log.Topics[0]? = some UnlockEventTopic then some .Unlock
      else if log.Topics[0]? = some ClaimEventTopic then some .Claim
      else if log.Topics[0]? = some GrantEventTopic then some .Grant
      else if log.Topics[0]? = some UpdateTokenWeightEventTopic then some .UpdateTokenWeight
      else if log.Topics[0]? = some UpdateTokenThresholdEventTopic then
        some .UpdateTokenThreshold
      else none
    else none
  else if log.Address = RelayerContract then
    if log.Topics.length = 2 then
      if log.Topics[0]? = some AddVoterEventTopoic then some .AddVoter
      else if log.Topics[0]? = some RemoveVoterEventTopic then some .RemoveVoter
      else none
    else none
  else none

/-- The request wrapped as a value of the interface, errors and panics passed on. -/
def Res.wrap {α : Type} (f : α → Request) : Res α → Res Request
  | .ok a => .ok (f a)
  | .err e => .err e
  | .panic => .panic

/-- The event decoder of `ev` applied to a log. -/
def Event.unpack (ev : Event) (log : Log) : Res Request :=
  match ev with
  | .Withdraw => (UnpackIntoWithdrawRequest log.Topics log.Data).wrap .withdrawal
  | .ReplaceByFee => (UnpackIntoReplaceByFeeRequest log.Topics log.Data).wrap .replaceByFee
  | .Cancel1 => (UnpackIntoCancel1Request log.Topics log.Data).wrap .cancel1
  | .Create => (UnpackIntoCreateRequest log.Data).wrap .create
  | .Lock => (UnpackIntoLockRequest log.Data).wrap .lock
  | .Unlock => (UnpackIntoUnlockRequest log.Data).wrap .unlock
  | .Claim => (UnpackIntoClaimRequest log.Data).wrap .claim
  | .Grant => (UnpackIntoGrantRequest log.Data).wrap .grant
  | .UpdateTokenWeight => (UnpackIntoUpdateTokenWeightRequest log.Data).wrap .updateTokenWeight
  | .UpdateTokenThreshold =>
    (UnpackIntoUpdateTokenThresholdRequest log.Data).wrap .updateTokenThreshold
  | .AddVoter => (UnpackIntoAddVoterRequest log.Topics log.Data).wrap .addVoter
  | .RemoveVoter => (UnpackIntoRemoveVoterRequest log.Topics log.Data).wrap .removeVoter

/-- What one log contributes to the request list: nothing when no decoder is selected, else
the encoding of the unpacked request; the error of the decoder; or a panic. -/
def logOutcome (log : Log) : Res (Option Bytes) :=
  match dispatch log with
  | none => .ok none
  | some ev =>
    match ev.unpack log with
    | .panic => .panic
    | .err e => .err e
    | .ok req =>
      match req.Encode with
      | none => .panic
      | some enc => .ok (some enc)

/-- The encodings contributed by a list of logs, in the order of the logs, up to the first
error or panic. -/
def collect : List Log → Res (List Bytes)
  | [] => .ok []
  | log :: rest =>
    match logOutcome log with
    | .panic => .panic
    | .err e => .err e
    | .ok none => collect rest
    | .ok (some enc) =>
      match collect rest with
      | .panic => .panic
      | .err e => .err e
      | .ok encs => .ok (enc :: encs)

/-- A log is unknown when its address is none of the bridge, locking and relayer contracts, or
is one of them while its topic0 (if it has one) is not an event signature of that contract. -/
def unknownEvent (log : Log) : Prop :=
  (log.Address ≠ BridgeContract ∧ log.Address ≠ LockingContract ∧
    log.Address ≠ RelayerContract) ∨
  (log.Address = BridgeContract ∧ ∀ t, log.Topics[0]? = some t →
    t ≠ WithdrawEventTopic ∧ t ≠ ReplaceByFeeEventTopic ∧ t ≠ Cancel1EventTopic) ∨
  (log.Address = LockingContract ∧ ∀ t, log.Topics[0]? = some t →
    t ≠ CreateEventTopic ∧ t ≠ LockEventTopic ∧ t ≠ UnlockEventTopic ∧ t ≠ ClaimEventTopic ∧
    t ≠ GrantEventTopic ∧ t ≠ UpdateTokenWeightEventTopic ∧
    t ≠ UpdateTokenThresholdEventTopic) ∨
  (log.Address = RelayerContract ∧ ∀ t, log.Topics[0]? = some t →
    t ≠ AddVoterEventTopoic ∧ t ≠ RemoveVoterEventTopic)

/-! ## The vocabulary of the bulk decoder claims -/

/-- A request of the interface is valid when the value of its variant is. -/
def Request.Valid : Request → Prop
  | .gas req => req.Valid
  | .withdrawal req => req.Valid
  | .replaceByFee req => req.Valid
  | .cancel1 req => req.Valid
  | .create req => req.Valid
  | .lock req => req.Valid
  | .unlock req => req.Valid
  | .claim req => req.Valid
  | .updateTokenWeight req => req.Valid
  | .updateTokenThreshold req => req.Valid
  | .grant req => req.Valid
  | .addVoter req => req.Valid
  | .removeVoter req => req.Valid

/-- The request, if it is of the variant GasRequest. -/
def Request.gas? : Request → Option GasRequest
  | .gas req => some req
  | _ => none

/-- The request, if it is of the variant WithdrawalRequest. -/
def Request.withdrawal? : Request → Option WithdrawalRequest
  | .withdrawal req => some req
  | _ => none

/-- The request, if it is of the variant ReplaceByFeeRequest. -/
def Request.replaceByFee? : Request → Option ReplaceByFeeRequest
  | .replaceByFee req => some req
  | _ => none

/-- The request, if it is of the variant Cancel1Request. -/
def Request.cancel1? : Request → Option Cancel1Request
  | .cancel1 req => some req
  | _ => none

/-- The request, if it is of the variant CreateRequest. -/
def Request.create? : Request → Option CreateRequest
  | .create req => some req
  | _ => none

/-- The request, if it is of the variant LockRequest. -/
def Request.lock? : Request → Option LockRequest
  | .lock req => some req
  | _ => none

/-- The request, if it is of the variant UnlockRequest. -/
def Request.unlock? : Request → Option UnlockRequest
  | .unlock req => some req
  | _ => none

/-- The request, if it is of the variant ClaimRequest. -/
def Request.claim? : Request → Option ClaimRequest
  | .claim req => some req
  | _ => none

/-- The request, if it is of the variant UpdateTokenWeightRequest. -/
def Request.updateTokenWeight? : Request → Option UpdateTokenWeightRequest
  | .updateTokenWeight req => some req
  | _ => none

/-- The request, if it is of the variant UpdateTokenThresholdRequest. -/
def Request.updateTokenThreshold? : Request → Option UpdateTokenThresholdRequest
  | .updateTokenThreshold req => some req
  | _ => none

/-- The request, if it is of the variant GrantRequest. -/
def Request.grant? : Request → Option GrantRequest
  | .grant req => some req
  | _ => none

/-- The request, if it is of the variant AddVoterRequest. -/
def Request.addVoter? : Request → Option AddVoterRequest
  | .addVoter req => some req
  | _ => none

/-- The request, if it is of the variant RemoveVoterRequest. -/
def Request.removeVoter? : Request → Option RemoveVoterRequest
  | .removeVoter req => some req
  | _ => none

/-- The bulk decoder's result after appending one more request to the collection of its
variant. -/
def DecodeResult.push (d : DecodeResult) : Request → DecodeResult
  | .gas req => { d with locking := { d.locking with Gas := d.locking.Gas ++ [req] } }
  | .withdrawal req => { d with bridge := { d.bridge with Withdraws := d.bridge.Withdraws ++ [req] } }
  | .replaceByFee req => { d with bridge := { d.bridge with ReplaceByFees := d.bridge.ReplaceByFees ++ [req] } }
  | .cancel1 req => { d with bridge := { d.bridge with Cancel1s := d.bridge.Cancel1s ++ [req] } }
  | .create req => { d with locking := { d.locking with Creates := d.locking.Creates ++ [req] } }
  | .lock req => { d with locking := { d.locking with Locks := d.locking.Locks ++ [req] } }
  | .unlock req => { d with locking := { d.locking with Unlocks := d.locking.Unlocks ++ [req] } }
  | .claim req => { d with locking := { d.locking with Claims := d.locking.Claims ++ [req] } }
  | .updateTokenWeight req => { d with locking := { d.locking with UpdateWeights := d.locking.UpdateWeights ++ [req] } }
  | .updateTokenThreshold req => { d with locking := { d.locking with UpdateThresholds := d.locking.UpdateThresholds ++ [req] } }
  | .grant req => { d with locking := { d.locking with Grants := d.locking.Grants ++ [req] } }
  | .addVoter req => { d with relayer := { d.relayer with Adds := d.relayer.Adds ++ [req] } }
  | .removeVoter req => { d with relayer := { d.relayer with Removes := d.relayer.Removes ++ [req] } }

/-- The Decode that the first byte of an entry selects, applied to the entry on a fresh value of
the variant; `none` when the first byte is none of the 13 tags (or the entry is empty). -/
def selectDecode (input : Bytes) : Option (Res Request) :=
  match input[0]? with
  | none => none
  | some tag =>
    if tag = GasRequestType then some ((GasRequest.new.Decode input).wrap .gas)
    else if tag = WithdrawalRequestType then some ((WithdrawalRequest.new.Decode input).wrap .withdrawal)
    else if tag = ReplaceByFeeRequestType then some ((ReplaceByFeeRequest.new.Decode input).wrap .replaceByFee)
    else if tag = Cancel1RequestType then some ((Cancel1Request.new.Decode input).wrap .cancel1)
    else if tag = CreateRequestType then some ((CreateRequest.new.Decode input).wrap .create)
    else if tag = LockRequestType then some ((LockRequest.new.Decode input).wrap .lock)
    else if tag = UnlockRequestType then some ((UnlockRequest.new.Decode input).wrap .unlock)
    else if tag = ClaimRequestType then some ((ClaimRequest.new.Decode input).wrap .claim)
    else if tag = UpdateTokenWeightRequestType then some ((UpdateTokenWeightRequest.new.Decode input).wrap .updateTokenWeight)
    else if tag = UpdateTokenThresholdRequestType then some ((UpdateTokenThresholdRequest.new.Decode input).wrap .updateTokenThreshold)
    else if tag = GrantRequestType then some ((GrantRequest.new.Decode input).wrap .grant)
    else if tag = AddVoterRequestType then some ((AddVoterRequest.new.Decode input).wrap .addVoter)
    else if tag = RemoveVoterRequestType then some ((RemoveVoterRequest.new.Decode input).wrap .removeVoter)
    else none

/-- The number of requests in the 13 collections of a result. -/
def DecodeResult.size (d : DecodeResult) : Nat :=
  d.bridge.Withdraws.length + d.bridge.ReplaceByFees.length + d.bridge.Cancel1s.length +
  d.locking.Gas.length + d.locking.Creates.length + d.locking.Locks.length +
  d.locking.Unlocks.length + d.locking.Claims.length + d.locking.Grants.length +
  d.locking.UpdateWeights.length + d.locking.UpdateThresholds.length +
  d.relayer.Adds.length + d.relayer.Removes.length

instance (r : Request) : Decidable r.Valid := by
  cases r <;> unfold Request.Valid <;> infer_instance

/-! ## The words of an event -/

/-- The big-endian value of the 32-byte word `data[32*i : 32*i + 32]` of an event. -/
def word (data : Bytes) (i : Nat) : Nat :=
  fromBE ((data.take (32 * i + 32)).drop (32 * i))

/-- The big-endian value of topic `i` of an event (0 when the event has no such topic). -/
def topicValue (topics : List Bytes) (i : Nat) : Nat :=
  fromBE (topics.getD i [])

/-- A Withdraw event that is well formed apart from its amount word: exactly three topics, an id
(topic 1) below `2^64`, data of at least 192 bytes whose length is a multiple of 32, a max tx
price (word 2) below `2^64`, the address location (word 3) equal to 128, and an address length
(word 4) that is at most 90 and at most the number of data bytes after the first 160. -/
def withdrawEventShape (topics : List Bytes) (data : Bytes) : Prop :=
  topics.length = 3 ∧ topicValue topics 1 < 2 ^ 64 ∧
  192 ≤ data.length ∧ data.length % 32 = 0 ∧
  word data 2 < 2 ^ 64 ∧ word data 3 = 128 ∧
  word data 4 ≤ 90 ∧ word data 4 ≤ data.length - 160

instance (topics : List Bytes) (data : Bytes) : Decidable (withdrawEventShape topics data) := by
  unfold withdrawEventShape; infer_instance

/-! ## Sample values -/

/-- A 20-byte address `0x1111…11`. -/
def sampleAddress : Bytes := List.replicate 20 0x11

/-- A 32-byte hash `0x2222…22`. -/
def sampleHash : Bytes := List.replicate 32 0x22

/-- A 64-byte public key `0x3333…33`. -/
def samplePubkey : Bytes := List.replicate 64 0x33

/-- A Cancel1 event of the bridge contract for withdrawal id 9. -/
def sampleCancelLog : Log :=
  { Address := BridgeContract, Topics := [Cancel1EventTopic, toBE 32 9], Data := [] }

/-- A Grant event of the locking contract for the amount 1000. -/
def sampleGrantLog : Log :=
  { Address := LockingContract, Topics := [GrantEventTopic], Data := toBE 32 1000 }

/-- A RemoveVoter event of the relayer contract for the voter `sampleAddress`. -/
def sampleRemoveVoterLog : Log :=
  { Address := RelayerContract
    Topics := [RemoveVoterEventTopic, List.replicate 12 0 ++ sampleAddress]
    Data := [] }

/-- A Cancel1 event of the bridge contract with one byte of data, which the decoder rejects. -/
def malformedCancelLog : Log :=
  { Address := BridgeContract, Topics := [Cancel1EventTopic, toBE 32 9], Data := [0] }

/-- A bridge log with the Withdraw signature and only two topics. -/
def twoTopicWithdrawLog : Log :=
  { Address := BridgeContract, Topics := [WithdrawEventTopic, toBE 32 1], Data := [] }

/-- A bridge log with the Withdraw signature as its only topic. -/
def oneTopicWithdrawLog : Log :=
  { Address := BridgeContract, Topics := [WithdrawEventTopic], Data := [] }

/-- A log of a contract that is none of bridge, locking and relayer. -/
def foreignLog : Log :=
  { Address := sampleAddress, Topics := [WithdrawEventTopic, toBE 32 1, toBE 32 2], Data := [] }

/-- The topics of a Withdraw event with id 1. -/
def sampleWithdrawTopics : List Bytes :=
  [WithdrawEventTopic, toBE 32 1, List.replicate 12 0 ++ sampleAddress]

/-- The data of a Withdraw event: the amount word, a word that the decoder does not read, the
max tx price 7, the address location 128, the address length word and one 32-byte word holding
the address bytes 1, 2, 3, 4. -/
def sampleWithdrawData (amount addrLen : Nat) : Bytes :=
  toBE 32 amount ++ toBE 32 0 ++ toBE 32 7 ++ toBE 32 128 ++ toBE 32 addrLen ++
    ([1, 2, 3, 4] ++ List.replicate 28 0)

/-! ## Basic facts: results, slices, byte orders -/

section Basics

variable {α β : Type}

@[simp] theorem Res.pure_eq (a : α) : (pure a : Res α) = Res.ok a := rfl

@[simp] theorem Res.ok_bind (a : α) (f : α → Res β) : (Res.ok a >>= f) = f a := rfl

@[simp] theorem Res.err_bind (e : Error) (f : α → Res β) :
    ((Res.err e : Res α) >>= f) = Res.err e := rfl

@[simp] theorem Res.panic_bind (f : α → Res β) : ((Res.panic : Res α) >>= f) = Res.panic := rfl

theorem slice_ok (b : List α) (lo hi : Nat) (h1 : lo ≤ hi) (h2 : hi ≤ b.length) :
    slice b lo hi = .ok ((b.take hi).drop lo) := by
  simp [slice, h1, h2]

theorem slice_mid (p m s : List α) (lo hi : Nat) (h1 : lo = p.length)
    (h2 : hi = lo + m.length) : slice (p ++ (m ++ s)) lo hi = .ok m := by
  subst h1 h2
  rw [slice_ok _ _ _ (by omega) (by simp)]
  simp [List.take_append]

@[simp] theorem slice_cons_succ (a : α) (l : List α) (lo hi : Nat) :
    slice (a :: l) (lo + 1) (hi + 1) = slice l lo hi := by
  simp [slice]

theorem slice_append_left (p s : List α) (lo hi : Nat) (h : hi ≤ p.length) :
    slice (p ++ s) lo hi = slice p lo hi := by
  unfold slice
  have h2 : hi ≤ (p ++ s).length := by rw [List.length_append]; omega
  by_cases h1 : lo ≤ hi
  · rw [if_pos ⟨h1, h2⟩, if_pos ⟨h1, h⟩, List.take_append_of_le_length h]
  · simp [h1]

theorem slice_append_right (p s : List α) (lo hi : Nat) (h : p.length ≤ lo) (h1 : lo ≤ hi) :
    slice (p ++ s) lo hi = slice s (lo - p.length) (hi - p.length) := by
  unfold slice
  have h4 : lo - p.length ≤ hi - p.length := by omega
  by_cases h2 : hi ≤ (p ++ s).length
  · have h3 : hi - p.length ≤ s.length := by rw [List.length_append] at h2; omega
    rw [if_pos ⟨h1, h2⟩, if_pos ⟨h4, h3⟩]
    congr 1
    rw [List.take_append_eq_append_take, List.drop_append_eq_append_drop]
    have h5 : List.drop lo (List.take hi p) = [] := by
      apply List.drop_eq_nil_of_le; simp; omega
    have h6 : (List.take hi p).length = p.length := by simp; omega
    simp [h5, h6]
  · have h3 : ¬ hi - p.length ≤ s.length := by rw [List.length_append] at h2; omega
    rw [if_neg (fun hh => h2 hh.2), if_neg (fun hh => h3 hh.2)]

theorem slice_self (l : List α) (hi : Nat) (h : hi = l.length) : slice l 0 hi = .ok l := by
  subst h; simp [slice]

theorem sliceFrom_eq (l : List α) (lo : Nat) (h : lo ≤ l.length) :
    sliceFrom l lo = .ok (l.drop lo) := by
  simp [sliceFrom, slice, h]

@[simp] theorem index_cons_zero (a : α) (l : List α) : index (a :: l) 0 = .ok a := by
  simp [index]

@[simp] theorem index_cons_succ (a : α) (l : List α) (i : Nat) :
    index (a :: l) (i + 1) = index l i := by
  simp [index]

theorem index_eq_ok (l : List α) (i : Nat) (h : i < l.length) :
    index l i = .ok (l.get ⟨i, h⟩) := by
  simp [index, List.getElem?_eq_getElem h]

@[simp] theorem toLE_length (k n : Nat) : (toLE k n).length = k := by
  induction k generalizing n with
  | zero => rfl
  | succ k ih => simp [toLE, ih]

@[simp] theorem toBE_length (k n : Nat) : (toBE k n).length = k := by
  simp [toBE]

theorem fromLE_toLE (k n : Nat) : fromLE (toLE k n) = n % 256 ^ k := by
  induction k generalizing n with
  | zero => simp [toLE, fromLE, Nat.mod_one]
  | succ k ih =>
    simp only [toLE, fromLE, ih, byte]
    rw [pow_succ, Nat.mul_comm (256 ^ k) 256, Nat.mod_mul]

theorem fromLE_toLE_of_lt (k n : Nat) (h : n < 256 ^ k) : fromLE (toLE k n) = n := by
  rw [fromLE_toLE, Nat.mod_eq_of_lt h]

theorem fromLE_lt (b : Bytes) : fromLE b < 256 ^ b.length := by
  induction b with
  | nil => simp [fromLE]
  | cons a l ih =>
    simp only [fromLE, List.length_cons, pow_succ]
    have := a.isLt
    omega

theorem toLE_fromLE (b : Bytes) : toLE b.length (fromLE b) = b := by
  induction b with
  | nil => rfl
  | cons a l ih =>
    have ha := a.isLt
    simp only [List.length_cons, toLE, fromLE]
    have h1 : byte (a.val + 256 * fromLE l) = a := by
      apply Fin.ext
      simp only [byte]
      omega
    have h2 : (a.val + 256 * fromLE l) / 256 = fromLE l := by omega
    rw [h1, h2, ih]

theorem fromBE_toBE_of_lt (k n : Nat) (h : n < 256 ^ k) : fromBE (toBE k n) = n := by
  simp [fromBE, toBE, fromLE_toLE_of_lt k n h]

theorem fromBE_lt (b : Bytes) : fromBE b < 256 ^ b.length := by
  have := fromLE_lt b.reverse
  simpa [fromBE] using this

theorem toBE_fromBE (b : Bytes) : toBE b.length (fromBE b) = b := by
  have := toLE_fromLE b.reverse
  simp only [List.length_reverse] at this
  simp [toBE, fromBE, this]

theorem SetBytes_FillBytes (x : Int) (h0 : 0 ≤ x) (h : x < 2 ^ 256) :
    ∃ enc, FillBytes x 32 = some enc ∧ enc.length = 32 ∧ SetBytes enc = x := by
  have hx : x.natAbs < 256 ^ 32 := by omega
  refine ⟨toBE 32 x.natAbs, by simp only [FillBytes, if_pos hx], by simp, ?_⟩
  simp only [SetBytes, fromBE_toBE_of_lt 32 _ hx]
  simpa using abs_of_nonneg h0

theorem BytesToAddress_of_length (b : Bytes) (h : b.length = 20) : BytesToAddress b = b := by
  simp [BytesToAddress, h]

theorem BytesToHash_of_length (b : Bytes) (h : b.length = 32) : BytesToHash b = b := by
  simp [BytesToHash, h]

@[simp] theorem BytesToAddress_length (b : Bytes) : (BytesToAddress b).length = 20 := by
  simp only [BytesToAddress]
  split_ifs with h <;> simp <;> omega

@[simp] theorem BytesToHash_length (b : Bytes) : (BytesToHash b).length = 32 := by
  simp only [BytesToHash]
  split_ifs with h <;> simp <;> omega

end Basics


/-! ## The uint64 codec -/

section Uint64Codec

@[simp] theorem EncodeUint64_length (ns : List Nat) : (EncodeUint64 ns).length = 8 * ns.length := by
  induction ns with
  | nil => rfl
  | cons n ns ih => simp [EncodeUint64, PutUint64, ih]; omega

theorem DecodeUint64_loop_encode (ns : List Nat) (hns : ∀ n ∈ ns, n < 2 ^ 64)
    (pre suf : Bytes) (i : Nat) (hi : pre.length = i * 8) :
    DecodeUint64.loop (pre ++ (EncodeUint64 ns ++ suf)) ns.length i = .ok ns := by
  induction ns generalizing pre i with
  | nil => rfl
  | cons n ns ih =>
    have hn : n < 256 ^ 8 := by
      have := hns n (List.mem_cons_self _ _)
      omega
    have h1 : slice (pre ++ (EncodeUint64 (n :: ns) ++ suf)) (i * 8) (i * 8 + 8)
        = .ok (toLE 8 n) := by
      have := slice_mid pre (toLE 8 n) (EncodeUint64 ns ++ suf) (i * 8) (i * 8 + 8)
        hi.symm (by simp)
      simpa [EncodeUint64, PutUint64] using this
    have h2 : pre ++ (EncodeUint64 (n :: ns) ++ suf)
        = (pre ++ toLE 8 n) ++ (EncodeUint64 ns ++ suf) := by
      simp [EncodeUint64, PutUint64]
    have h3 := ih (fun m hm => hns m (List.mem_cons_of_mem _ hm)) (pre ++ toLE 8 n) (i + 1)
      (by simp [hi]; omega)
    simp only [List.length_cons, DecodeUint64.loop, h1, Res.ok_bind]
    rw [h2, h3]
    have h4 : List.take 8 (toLE 8 n) = toLE 8 n := List.take_of_length_le (by simp)
    simp [Uint64LE, h4, fromLE_toLE_of_lt 8 n hn]

theorem DecodeUint64_encode (ns : List Nat) (hns : ∀ n ∈ ns, n < 2 ^ 64) :
    DecodeUint64 (EncodeUint64 ns) ns.length = .ok ns := by
  have h := DecodeUint64_loop_encode ns hns [] [] 0 rfl
  simp only [List.nil_append, List.append_nil] at h
  simp only [DecodeUint64, EncodeUint64_length]
  rw [if_neg (by omega)]
  simpa using h

end Uint64Codec


section Uint64CodecArity

theorem DecodeUint64_encode1 (a : Nat) (ha : a < 2 ^ 64) :
    DecodeUint64 (EncodeUint64 [a]) 1 = .ok [a] := by
  have h := DecodeUint64_encode [a] (by intro n hn; simp only [List.mem_singleton] at hn; omega)
  simpa using h

theorem DecodeUint64_encode2 (a b : Nat) (ha : a < 2 ^ 64) (hb : b < 2 ^ 64) :
    DecodeUint64 (EncodeUint64 [a, b]) 2 = .ok [a, b] := by
  have h := DecodeUint64_encode [a, b] (by
    intro n hn
    simp only [List.mem_cons, List.mem_singleton, List.not_mem_nil, or_false] at hn
    rcases hn with rfl | rfl <;> assumption)
  simpa using h

theorem DecodeUint64_encode3 (a b c : Nat) (ha : a < 2 ^ 64) (hb : b < 2 ^ 64)
    (hc : c < 2 ^ 64) : DecodeUint64 (EncodeUint64 [a, b, c]) 3 = .ok [a, b, c] := by
  have h := DecodeUint64_encode [a, b, c] (by
    intro n hn
    simp only [List.mem_cons, List.mem_singleton, List.not_mem_nil, or_false] at hn
    rcases hn with rfl | rfl | rfl <;> assumption)
  simpa using h

end Uint64CodecArity

section SliceInitial

variable {α : Type}

theorem slice_initial (p s : List α) (hi : Nat) (h : p.length = hi) :
    slice (p ++ s) 0 hi = .ok p := by
  have := slice_mid [] p s 0 hi rfl (by omega)
  simpa using this

end SliceInitial


/-! ## Round trips of the request codecs -/

section RoundTrip

variable {α : Type}

theorem index_append_right (p s : List α) (i : Nat) (h : p.length ≤ i) :
    index (p ++ s) i = index s (i - p.length) := by
  simp [index, List.getElem?_append_right h]

theorem WithdrawalRequest_encode_length (v : WithdrawalRequest) :
    v.Encode.length = 26 + v.Address.length := by
  simp [WithdrawalRequest.Encode]; omega

theorem WithdrawalRequest_decode_encode (r v : WithdrawalRequest) (h : v.Valid) :
    r.Decode v.Encode = .ok v := by
  obtain ⟨h1, h2, h3, h4⟩ := h
  have hd := DecodeUint64_encode3 _ _ _ h1 h2 h3
  have hb : (byte v.Address.length).val = v.Address.length := by
    simp only [byte]; omega
  have hl : ¬ (24 + (v.Address.length + 1) + 1 < 26) := by omega
  have hs : sliceFrom (WithdrawalRequestType ::
      (EncodeUint64 [v.Id, v.Amount, v.TxPrice] ++ byte v.Address.length :: v.Address)) 26
      = .ok v.Address := by
    rw [sliceFrom_eq _ _ (by simp; omega)]
    have h5 : EncodeUint64 [v.Id, v.Amount, v.TxPrice] ++ byte v.Address.length :: v.Address
        = (EncodeUint64 [v.Id, v.Amount, v.TxPrice] ++ [byte v.Address.length]) ++ v.Address := by
      simp
    rw [List.drop_succ_cons, h5, List.drop_left' (by simp)]
  simp [WithdrawalRequest.Decode, WithdrawalRequest.Encode, WithdrawalRequest.RequestType,
    slice_initial, index_append_right, hd, hb, hl, hs]

theorem ReplaceByFeeRequest_decode_encode (r v : ReplaceByFeeRequest) (h : v.Valid) :
    r.Decode v.Encode = .ok v := by
  have hd := DecodeUint64_encode2 _ _ h.1 h.2
  simp [ReplaceByFeeRequest.Decode, ReplaceByFeeRequest.Encode, ReplaceByFeeRequest.RequestType,
    sliceFrom_eq, hd]

theorem Cancel1Request_decode_encode (r v : Cancel1Request) (h : v.Valid) :
    r.Decode v.Encode = .ok v := by
  have hd := DecodeUint64_encode1 _ h
  simp [Cancel1Request.Decode, Cancel1Request.Encode, Cancel1Request.RequestType,
    sliceFrom_eq, hd]

theorem AddVoterRequest_decode_encode (r v : AddVoterRequest) (h : v.Valid) :
    r.Decode v.Encode = .ok v := by
  obtain ⟨h1, h2⟩ := h
  simp [AddVoterRequest.Decode, AddVoterRequest.Encode, AddVoterRequest.RequestType,
    sliceFrom_eq, slice_initial, List.drop_left', BytesToAddress_of_length,
    BytesToHash_of_length, h1, h2]

theorem RemoveVoterRequest_decode_encode (r v : RemoveVoterRequest) (h : v.Valid) :
    r.Decode v.Encode = .ok v := by
  have h1 : v.Voter.length = 20 := h
  simp [RemoveVoterRequest.Decode, RemoveVoterRequest.Encode, RemoveVoterRequest.RequestType,
    sliceFrom_eq, BytesToAddress_of_length, h1]

theorem GasRequest_decode_encode (v : GasRequest) (h : v.Valid) :
    ∃ enc, v.Encode = some enc ∧ enc.length = 41 ∧
      ∀ r : GasRequest, r.Decode enc = .ok v := by
  obtain ⟨h1, h5, h6⟩ := h
  obtain ⟨amt, ha, hal, has⟩ := SetBytes_FillBytes v.Amount h5 h6
  have hd := DecodeUint64_encode1 _ h1
  refine ⟨_, by simp [GasRequest.Encode, ha]; rfl, by simp [hal], fun r => ?_⟩
  simp [GasRequest.Decode, GasRequest.RequestType, sliceFrom_eq, hd, hal, has,
    slice_initial, List.drop_left']

theorem CreateRequest_decode_encode (r v : CreateRequest) (h : v.Valid) :
    r.Decode v.Encode = .ok v := by
  obtain ⟨h1, h2⟩ := h
  have ht : List.take 64 v.Pubkey = v.Pubkey := List.take_of_length_le (by omega)
  simp [CreateRequest.Decode, CreateRequest.Encode, CreateRequest.RequestType,
    sliceFrom_eq, slice_initial, List.drop_left', BytesToAddress_of_length, toArray, h1, h2, ht]

theorem LockRequest_decode_encode (v : LockRequest) (h : v.Valid) :
    ∃ enc, v.Encode = some enc ∧ ∀ r : LockRequest, r.Decode enc = .ok v := by
  obtain ⟨h2, h3, h5, h6⟩ := h
  obtain ⟨amt, ha, hal, has⟩ := SetBytes_FillBytes v.Amount h5 h6
  refine ⟨_, by simp [LockRequest.Encode, ha]; rfl, fun r => ?_⟩
  simp [LockRequest.Decode, LockRequest.RequestType, sliceFrom_eq, h2, h3, hal, has,
    slice_initial, BytesToAddress_of_length, List.drop_left']

theorem UnlockRequest_decode_encode (v : UnlockRequest) (h : v.Valid) :
    ∃ enc, v.Encode = some enc ∧ ∀ r : UnlockRequest, r.Decode enc = .ok v := by
  obtain ⟨h1, h2, h3, h4, h5, h6⟩ := h
  obtain ⟨amt, ha, hal, has⟩ := SetBytes_FillBytes v.Amount h5 h6
  have hd := DecodeUint64_encode1 _ h1
  refine ⟨_, by simp [UnlockRequest.Encode, ha]; rfl, fun r => ?_⟩
  simp [UnlockRequest.Decode, UnlockRequest.RequestType, sliceFrom_eq, hd, h2, h3, h4, hal, has,
    slice_initial, BytesToAddress_of_length]

theorem ClaimRequest_decode_encode (r v : ClaimRequest) (h : v.Valid) :
    r.Decode v.Encode = .ok v := by
  obtain ⟨h1, h2, h3⟩ := h
  have hd := DecodeUint64_encode1 _ h1
  simp [ClaimRequest.Decode, ClaimRequest.Encode, ClaimRequest.RequestType, sliceFrom_eq, hd,
    h2, h3, slice_initial, BytesToAddress_of_length, List.drop_left']

theorem UpdateTokenWeightRequest_decode_encode (r v : UpdateTokenWeightRequest) (h : v.Valid) :
    r.Decode v.Encode = .ok v := by
  obtain ⟨h1, h2⟩ := h
  have hd := DecodeUint64_encode1 _ h2
  simp [UpdateTokenWeightRequest.Decode, UpdateTokenWeightRequest.Encode,
    UpdateTokenWeightRequest.RequestType, sliceFrom_eq, hd, h1, slice_initial,
    BytesToAddress_of_length, List.drop_left']

theorem UpdateTokenThresholdRequest_decode_encode (v : UpdateTokenThresholdRequest)
    (h : v.Valid) : ∃ enc, v.Encode = some enc ∧
      ∀ r : UpdateTokenThresholdRequest, r.Decode enc = .ok v := by
  obtain ⟨h1, h5, h6⟩ := h
  obtain ⟨amt, ha, hal, has⟩ := SetBytes_FillBytes v.Threshold h5 h6
  refine ⟨_, by simp [UpdateTokenThresholdRequest.Encode, ha]; rfl, fun r => ?_⟩
  simp [UpdateTokenThresholdRequest.Decode, UpdateTokenThresholdRequest.RequestType,
    sliceFrom_eq, h1, hal, has, slice_initial, BytesToAddress_of_length, List.drop_left']

theorem GrantRequest_decode_encode (v : GrantRequest) (h : v.Valid) :
    ∃ enc, v.Encode = some enc ∧ ∀ r : GrantRequest, r.Decode enc = .ok v := by
  obtain ⟨h5, h6⟩ := h
  obtain ⟨amt, ha, hal, has⟩ := SetBytes_FillBytes v.Amount h5 h6
  refine ⟨_, by simp [GrantRequest.Encode, ha]; rfl, fun r => ?_⟩
  simp [GrantRequest.Decode, GrantRequest.RequestType, sliceFrom_eq, hal, has]

end RoundTrip


/-! ## Claims C1 – C3: round trips -/

/-- C1: for every ReplaceByFee, Cancel, CreateValidator, Lock, Unlock, Claim, UpdateTokenWeight,
UpdateTokenThreshold, Grant, AddVoter and RemoveVoter value whose fields are in the ranges of
their types (256-bit fields in `[0, 2^256)`), Encode succeeds and Decode of the encoding, on
any receiver of the same variant (a fresh one in particular), succeeds and leaves the receiver
equal to the value. -/
theorem C1_fixed_width_round_trip
    (rbf : ReplaceByFeeRequest) (cancel : Cancel1Request) (create : CreateRequest)
    (lock : LockRequest) (unlock : UnlockRequest) (claim : ClaimRequest)
    (weight : UpdateTokenWeightRequest) (threshold : UpdateTokenThresholdRequest)
    (grant : GrantRequest) (add : AddVoterRequest) (remove : RemoveVoterRequest)
    (h1 : rbf.Valid) (h2 : cancel.Valid) (h3 : create.Valid) (h4 : lock.Valid)
    (h5 : unlock.Valid) (h6 : claim.Valid) (h7 : weight.Valid) (h8 : threshold.Valid)
    (h9 : grant.Valid) (h10 : add.Valid) (h11 : remove.Valid) :
    (∀ r : ReplaceByFeeRequest, r.Decode rbf.Encode = .ok rbf) ∧
    (∀ r : Cancel1Request, r.Decode cancel.Encode = .ok cancel) ∧
    (∀ r : CreateRequest, r.Decode create.Encode = .ok create) ∧
    (∃ enc, lock.Encode = some enc ∧ ∀ r : LockRequest, r.Decode enc = .ok lock) ∧
    (∃ enc, unlock.Encode = some enc ∧ ∀ r : UnlockRequest, r.Decode enc = .ok unlock) ∧
    (∀ r : ClaimRequest, r.Decode claim.Encode = .ok claim) ∧
    (∀ r : UpdateTokenWeightRequest, r.Decode weight.Encode = .ok weight) ∧
    (∃ enc, threshold.Encode = some enc ∧
      ∀ r : UpdateTokenThresholdRequest, r.Decode enc = .ok threshold) ∧
    (∃ enc, grant.Encode = some enc ∧ ∀ r : GrantRequest, r.Decode enc = .ok grant) ∧
    (∀ r : AddVoterRequest, r.Decode add.Encode = .ok add) ∧
    (∀ r : RemoveVoterRequest, r.Decode remove.Encode = .ok remove) :=
  ⟨fun r => ReplaceByFeeRequest_decode_encode r rbf h1,
   fun r => Cancel1Request_decode_encode r cancel h2,
   fun r => CreateRequest_decode_encode r create h3,
   LockRequest_decode_encode lock h4,
   UnlockRequest_decode_encode unlock h5,
   fun r => ClaimRequest_decode_encode r claim h6,
   fun r => UpdateTokenWeightRequest_decode_encode r weight h7,
   UpdateTokenThresholdRequest_decode_encode threshold h8,
   GrantRequest_decode_encode grant h9,
   fun r => AddVoterRequest_decode_encode r add h10,
   fun r => RemoveVoterRequest_decode_encode r remove h11⟩

/-- C1 at sample values; in particular a Lock request of amount `2^256 - 1` round-trips. -/
theorem C1_fixed_width_round_trip_witness :
    (∀ r : ReplaceByFeeRequest,
      r.Decode (ReplaceByFeeRequest.Encode ⟨7, 2 ^ 64 - 1⟩) = .ok ⟨7, 2 ^ 64 - 1⟩) ∧
    (∃ enc, LockRequest.Encode ⟨sampleAddress, sampleAddress, 2 ^ 256 - 1⟩ = some enc ∧
      ∀ r : LockRequest, r.Decode enc = .ok ⟨sampleAddress, sampleAddress, 2 ^ 256 - 1⟩) :=
  have h := C1_fixed_width_round_trip ⟨7, 2 ^ 64 - 1⟩ ⟨0⟩ ⟨sampleAddress, samplePubkey⟩
    ⟨sampleAddress, sampleAddress, 2 ^ 256 - 1⟩ ⟨1, sampleAddress, sampleAddress, sampleAddress, 5⟩
    ⟨2, sampleAddress, sampleAddress⟩ ⟨sampleAddress, 3⟩ ⟨sampleAddress, 0⟩ ⟨10⟩
    ⟨sampleAddress, sampleHash⟩ ⟨sampleAddress⟩
    (by decide) (by decide) (by decide) (by norm_num [LockRequest.Valid, sampleAddress])
    (by norm_num [UnlockRequest.Valid, sampleAddress]) (by decide) (by decide)
    (by norm_num [UpdateTokenThresholdRequest.Valid, sampleAddress])
    (by norm_num [GrantRequest.Valid]) (by decide) (by decide)
  ⟨h.1, h.2.2.2.1⟩

/-- C2: for id, amount and max tx price below `2^64` and an address of at most 90 bytes
(the empty one included), Decode of the Withdrawal encoding succeeds on any receiver and yields
the same Id, Amount, TxPrice and Address; the encoding has `26 + len(address)` bytes. -/
theorem C2_withdrawal_round_trip (v : WithdrawalRequest)
    (hid : v.Id < 2 ^ 64) (hamount : v.Amount < 2 ^ 64) (hprice : v.TxPrice < 2 ^ 64)
    (haddr : v.Address.length ≤ 90) :
    (∀ r : WithdrawalRequest, ∃ w, r.Decode v.Encode = .ok w ∧
      w.Id = v.Id ∧ w.Amount = v.Amount ∧ w.TxPrice = v.TxPrice ∧ w.Address = v.Address) ∧
    v.Encode.length = 26 + v.Address.length :=
  ⟨fun r => ⟨v, WithdrawalRequest_decode_encode r v ⟨hid, hamount, hprice, haddr⟩,
      rfl, rfl, rfl, rfl⟩,
   WithdrawalRequest_encode_length v⟩

/-- C2 at the empty address: the encoding has 26 bytes and decodes back. -/
theorem C2_withdrawal_round_trip_witness :
    (∀ r : WithdrawalRequest, ∃ w, r.Decode (WithdrawalRequest.Encode ⟨1, 2, 3, []⟩) = .ok w ∧
      w.Id = 1 ∧ w.Amount = 2 ∧ w.TxPrice = 3 ∧ w.Address = []) ∧
    (WithdrawalRequest.Encode ⟨1, 2, 3, []⟩).length = 26 + 0 :=
  C2_withdrawal_round_trip ⟨1, 2, 3, []⟩ (by decide) (by decide) (by decide) (by decide)

/-- C3, as stated, fails: the fee amount `2^256` is non-negative, and Encode of
`NewGasRequest(0, 2^256)` panics (FillBytes on a 32-byte buffer that is too small). -/
theorem C3_gas_encode_not_total :
    (0 : Nat) < 2 ^ 64 ∧ (0 : Int) ≤ 2 ^ 256 ∧ (NewGasRequest 0 (2 ^ 256)).Encode = none := by
  refine ⟨by norm_num, by norm_num, ?_⟩
  simp [GasRequest.Encode, NewGasRequest, FillBytes]

/-- C3, amended: for every block height below `2^64` and every fee amount in `[0, 2^256)`,
Encode of `NewGasRequest(height, amount)` succeeds with 41 bytes, and Decode of the result
yields the same height and the same amount. -/
theorem C3_gas_round_trip (height : Nat) (amount : Int)
    (hheight : height < 2 ^ 64) (hnonneg : 0 ≤ amount) (hfit : amount < 2 ^ 256) :
    ∃ enc, (NewGasRequest height amount).Encode = some enc ∧ enc.length = 41 ∧
      ∀ r : GasRequest, ∃ w, r.Decode enc = .ok w ∧ w.Height = height ∧ w.Amount = amount := by
  obtain ⟨enc, h1, h2, h3⟩ :=
    GasRequest_decode_encode (NewGasRequest height amount) ⟨hheight, hnonneg, hfit⟩
  exact ⟨enc, h1, h2, fun r => ⟨_, h3 r, rfl, rfl⟩⟩

/-- C3 amended, at height 100 and the largest amount `2^256 - 1`. -/
theorem C3_gas_round_trip_witness :
    ∃ enc, (NewGasRequest 100 (2 ^ 256 - 1)).Encode = some enc ∧ enc.length = 41 ∧
      ∀ r : GasRequest, ∃ w, r.Decode enc = .ok w ∧ w.Height = 100 ∧ w.Amount = 2 ^ 256 - 1 :=
  C3_gas_round_trip 100 (2 ^ 256 - 1) (by norm_num) (by norm_num) (by norm_num)


/-! ## Rejection by length and by type tag -/

section Reject

variable {α : Type}

theorem Res.isErr_iff (r : Res α) : r.isErr = true ↔ ∃ e, r = .err e := by
  cases r <;> simp [Res.isErr]

theorem GasRequest_decode_length (r : GasRequest) (b : Bytes) (h : b.length ≠ 41) :
    (r.Decode b).isErr = true := by
  simp [GasRequest.Decode, h, Res.isErr]

theorem GasRequest_decode_tag (r : GasRequest) (b : Bytes)
    (h : b.head? ≠ some GasRequestType) : (r.Decode b).isErr = true := by
  cases b with
  | nil => simp [GasRequest.Decode, Res.isErr]
  | cons t l =>
    have ht : t ≠ GasRequestType := by simpa using h
    by_cases hl : l.length + 1 = 41 <;>
      simp [GasRequest.Decode, GasRequest.RequestType, hl, ht, Res.isErr]

theorem ReplaceByFeeRequest_decode_length (r : ReplaceByFeeRequest) (b : Bytes) (h : b.length ≠ 17) :
    (r.Decode b).isErr = true := by
  simp [ReplaceByFeeRequest.Decode, h, Res.isErr]

theorem ReplaceByFeeRequest_decode_tag (r : ReplaceByFeeRequest) (b : Bytes)
    (h : b.head? ≠ some ReplaceByFeeRequestType) : (r.Decode b).isErr = true := by
  cases b with
  | nil => simp [ReplaceByFeeRequest.Decode, Res.isErr]
  | cons t l =>
    have ht : t ≠ ReplaceByFeeRequestType := by simpa using h
    by_cases hl : l.length + 1 = 17 <;>
      simp [ReplaceByFeeRequest.Decode, ReplaceByFeeRequest.RequestType, hl, ht, Res.isErr]

theorem Cancel1Request_decode_length (r : Cancel1Request) (b : Bytes) (h : b.length ≠ 9) :
    (r.Decode b).isErr = true := by
  simp [Cancel1Request.Decode, h, Res.isErr]

theorem Cancel1Request_decode_tag (r : Cancel1Request) (b : Bytes)
    (h : b.head? ≠ some Cancel1RequestType) : (r.Decode b).isErr = true := by
  cases b with
  | nil => simp [Cancel1Request.Decode, Res.isErr]
  | cons t l =>
    have ht : t ≠ Cancel1RequestType := by simpa using h
    by_cases hl : l.length + 1 = 9 <;>
      simp [Cancel1Request.Decode, Cancel1Request.RequestType, hl, ht, Res.isErr]

theorem CreateRequest_decode_length (r : CreateRequest) (b : Bytes) (h : b.length ≠ 85) :
    (r.Decode b).isErr = true := by
  simp [CreateRequest.Decode, h, Res.isErr]

theorem CreateRequest_decode_tag (r : CreateRequest) (b : Bytes)
    (h : b.head? ≠ some CreateRequestType) : (r.Decode b).isErr = true := by
  cases b with
  | nil => simp [CreateRequest.Decode, Res.isErr]
  | cons t l =>
    have ht : t ≠ CreateRequestType := by simpa using h
    by_cases hl : l.length + 1 = 85 <;>
      simp [CreateRequest.Decode, CreateRequest.RequestType, hl, ht, Res.isErr]

theorem LockRequest_decode_length (r : LockRequest) (b : Bytes) (h : b.length ≠ 73) :
    (r.Decode b).isErr = true := by
  simp [LockRequest.Decode, h, Res.isErr]

theorem LockRequest_decode_tag (r : LockRequest) (b : Bytes)
    (h : b.head? ≠ some LockRequestType) : (r.Decode b).isErr = true := by
  cases b with
  | nil => simp [LockRequest.Decode, Res.isErr]
  | cons t l =>
    have ht : t ≠ LockRequestType := by simpa using h
    by_cases hl : l.length + 1 = 73 <;>
      simp [LockRequest.Decode, LockRequest.RequestType, hl, ht, Res.isErr]

theorem UnlockRequest_decode_length (r : UnlockRequest) (b : Bytes) (h : b.length ≠ 101) :
    (r.Decode b).isErr = true := by
  simp [UnlockRequest.Decode, h, Res.isErr]

theorem UnlockRequest_decode_tag (r : UnlockRequest) (b : Bytes)
    (h : b.head? ≠ some UnlockRequestType) : (r.Decode b).isErr = true := by
  cases b with
  | nil => simp [UnlockRequest.Decode, Res.isErr]
  | cons t l =>
    have ht : t ≠ UnlockRequestType := by simpa using h
    by_cases hl : l.length + 1 = 101 <;>
      simp [UnlockRequest.Decode, UnlockRequest.RequestType, hl, ht, Res.isErr]

theorem ClaimRequest_decode_length (r : ClaimRequest) (b : Bytes) (h : b.length ≠ 49) :
    (r.Decode b).isErr = true := by
  simp [ClaimRequest.Decode, h, Res.isErr]

theorem ClaimRequest_decode_tag (r : ClaimRequest) (b : Bytes)
    (h : b.head? ≠ some ClaimRequestType) : (r.Decode b).isErr = true := by
  cases b with
  | nil => simp [ClaimRequest.Decode, Res.isErr]
  | cons t l =>
    have ht : t ≠ ClaimRequestType := by simpa using h
    by_cases hl : l.length + 1 = 49 <;>
      simp [ClaimRequest.Decode, ClaimRequest.RequestType, hl, ht, Res.isErr]

theorem UpdateTokenWeightRequest_decode_length (r : UpdateTokenWeightRequest) (b : Bytes) (h : b.length ≠ 29) :
    (r.Decode b).isErr = true := by
  simp [UpdateTokenWeightRequest.Decode, h, Res.isErr]

theorem UpdateTokenWeightRequest_decode_tag (r : UpdateTokenWeightRequest) (b : Bytes)
    (h : b.head? ≠ some UpdateTokenWeightRequestType) : (r.Decode b).isErr = true := by
  cases b with
  | nil => simp [UpdateTokenWeightRequest.Decode, Res.isErr]
  | cons t l =>
    have ht : t ≠ UpdateTokenWeightRequestType := by simpa using h
    by_cases hl : l.length + 1 = 29 <;>
      simp [UpdateTokenWeightRequest.Decode, UpdateTokenWeightRequest.RequestType, hl, ht, Res.isErr]

theorem UpdateTokenThresholdRequest_decode_length (r : UpdateTokenThresholdRequest) (b : Bytes) (h : b.length ≠ 53) :
    (r.Decode b).isErr = true := by
  simp [UpdateTokenThresholdRequest.Decode, h, Res.isErr]

theorem UpdateTokenThresholdRequest_decode_tag (r : UpdateTokenThresholdRequest) (b : Bytes)
    (h : b.head? ≠ some UpdateTokenThresholdRequestType) : (r.Decode b).isErr = true := by
  cases b with
  | nil => simp [UpdateTokenThresholdRequest.Decode, Res.isErr]
  | cons t l =>
    have ht : t ≠ UpdateTokenThresholdRequestType := by simpa using h
    by_cases hl : l.length + 1 = 53 <;>
      simp [UpdateTokenThresholdRequest.Decode, UpdateTokenThresholdRequest.RequestType, hl, ht, Res.isErr]

theorem GrantRequest_decode_length (r : GrantRequest) (b : Bytes) (h : b.length ≠ 33) :
    (r.Decode b).isErr = true := by
  simp [GrantRequest.Decode, h, Res.isErr]

theorem GrantRequest_decode_tag (r : GrantRequest) (b : Bytes)
    (h : b.head? ≠ some GrantRequestType) : (r.Decode b).isErr = true := by
  cases b with
  | nil => simp [GrantRequest.Decode, Res.isErr]
  | cons t l =>
    have ht : t ≠ GrantRequestType := by simpa using h
    by_cases hl : l.length + 1 = 33 <;>
      simp [GrantRequest.Decode, GrantRequest.RequestType, hl, ht, Res.isErr]

theorem AddVoterRequest_decode_length (r : AddVoterRequest) (b : Bytes) (h : b.length ≠ 53) :
    (r.Decode b).isErr = true := by
  simp [AddVoterRequest.Decode, h, Res.isErr]

theorem AddVoterRequest_decode_tag (r : AddVoterRequest) (b : Bytes)
    (h : b.head? ≠ some AddVoterRequestType) : (r.Decode b).isErr = true := by
  cases b with
  | nil => simp [AddVoterRequest.Decode, Res.isErr]
  | cons t l =>
    have ht : t ≠ AddVoterRequestType := by simpa using h
    by_cases hl : l.length + 1 = 53 <;>
      simp [AddVoterRequest.Decode, AddVoterRequest.RequestType, hl, ht, Res.isErr]

theorem RemoveVoterRequest_decode_length (r : RemoveVoterRequest) (b : Bytes) (h : b.length ≠ 21) :
    (r.Decode b).isErr = true := by
  simp [RemoveVoterRequest.Decode, h, Res.isErr]

theorem RemoveVoterRequest_decode_tag (r : RemoveVoterRequest) (b : Bytes)
    (h : b.head? ≠ some RemoveVoterRequestType) : (r.Decode b).isErr = true := by
  cases b with
  | nil => simp [RemoveVoterRequest.Decode, Res.isErr]
  | cons t l =>
    have ht : t ≠ RemoveVoterRequestType := by simpa using h
    by_cases hl : l.length + 1 = 21 <;>
      simp [RemoveVoterRequest.Decode, RemoveVoterRequest.RequestType, hl, ht, Res.isErr]

theorem WithdrawalRequest_decode_tag (r : WithdrawalRequest) (b : Bytes)
    (h : b.head? ≠ some WithdrawalRequestType) : (r.Decode b).isErr = true := by
  cases b with
  | nil => simp [WithdrawalRequest.Decode, Res.isErr]
  | cons t l =>
    have ht : t ≠ WithdrawalRequestType := by simpa using h
    by_cases hl : l.length + 1 < 26 <;>
      simp [WithdrawalRequest.Decode, WithdrawalRequest.RequestType, hl, ht, Res.isErr]

end Reject


/-! ## DecodeUint64 on data of the expected length -/

section DecodeWords

theorem slice_eq_drop_take {α : Type} (b : List α) (lo n : Nat) (h : lo + n ≤ b.length) :
    slice b lo (lo + n) = .ok ((b.drop lo).take n) := by
  rw [slice_ok _ _ _ (by omega) h, List.drop_take]
  simp

theorem DecodeUint64_loop_ok (data : Bytes) (count i : Nat)
    (h : (i + count) * 8 ≤ data.length) :
    DecodeUint64.loop data count i =
      .ok ((List.range count).map fun j => fromLE ((data.drop ((i + j) * 8)).take 8)) := by
  induction count generalizing i with
  | zero => rfl
  | succ n ih =>
    have h1 := slice_eq_drop_take data (i * 8) 8 (by omega)
    have h2 : ((data.drop (i * 8)).take 8).length = 8 := by
      simp only [List.length_take, List.length_drop]; omega
    have h3 := ih (i + 1) (by omega)
    have h4 : List.take 8 (List.take 8 (List.drop (i * 8) data))
        = List.take 8 (List.drop (i * 8) data) := by simp
    simp only [DecodeUint64.loop, h1, Res.ok_bind, Uint64LE, h2, h3, lt_irrefl, if_false, h4,
      Res.pure_eq]
    rw [List.range_succ_eq_map]
    simp only [List.map_cons, List.map_map, Nat.add_zero]
    congr 2
    apply List.map_congr_left
    intro j _
    simp only [Function.comp, Nat.succ_eq_add_one]
    congr 3
    omega

theorem DecodeUint64_ok (data : Bytes) (n : Nat) (h : data.length = 8 * n) :
    DecodeUint64 data n =
      .ok ((List.range n).map fun j => fromLE ((data.drop (j * 8)).take 8)) := by
  have h1 := DecodeUint64_loop_ok data n 0 (by omega)
  have h2 : ¬ (((data.length / 8 : Nat) : Int) ≠ (n : Int) ∨ data.length % 8 ≠ 0) := by
    omega
  simp only [DecodeUint64, h2, if_false, Int.toNat_ofNat, h1, Nat.zero_add]

end DecodeWords


section WithdrawalLength

theorem DecodeUint64_three (data : Bytes) (h : data.length = 24) :
    ∃ a b c, DecodeUint64 data 3 = .ok [a, b, c] := by
  have h1 := DecodeUint64_ok data 3 (by omega)
  have h2 : List.range 3 = [0, 1, 2] := rfl
  rw [h2] at h1
  exact ⟨_, _, _, by simpa using h1⟩

theorem WithdrawalRequest_decode_length (r : WithdrawalRequest) (b : Bytes)
    (h : ∀ x : Byte, b[25]? = some x → b.length ≠ 26 + x.val) :
    (r.Decode b).isErr = true := by
  by_cases hl : b.length < 26
  · simp [WithdrawalRequest.Decode, hl, Res.isErr]
  · by_cases ht : b.head? = some WithdrawalRequestType
    · have h0 : index b 0 = .ok WithdrawalRequestType := by
        cases b with
        | nil => simp at ht
        | cons t l => simp at ht; simp [ht]
      have h1 := slice_ok b 1 25 (by omega) (by omega)
      have h2 : ((b.take 25).drop 1).length = 24 := by simp; omega
      obtain ⟨x1, x2, x3, h3⟩ := DecodeUint64_three _ h2
      have h4 := index_eq_ok b 25 (by omega)
      have h5 := sliceFrom_eq b 26 (by omega)
      have h6 : b[25]? = some (b.get ⟨25, by omega⟩) := by
        simp [List.getElem?_eq_getElem (show 25 < b.length by omega)]
      have h7 := h _ h6
      have h8 : ¬ (b.length - 26 = (b.get ⟨25, by omega⟩).val) := by omega
      simp only [List.drop_one] at h3
      simp only [List.get_eq_getElem] at h8
      simp [WithdrawalRequest.Decode, WithdrawalRequest.RequestType, hl, h0, h1, h3, h4, h5, h8,
        Res.isErr]
    · exact WithdrawalRequest_decode_tag r b ht

end WithdrawalLength


/-! ## Claims C4 and C5: rejection by type tag and by length -/

/-- C4: for each of the 13 variants, Decode returns an error on every byte string (of any
length, the empty one included) whose first byte is not the tag of the variant.  In particular
AddVoter.Decode rejects every UpdateTokenThreshold encoding and UpdateTokenThreshold.Decode
rejects every AddVoter encoding, although both are 53 bytes long. -/
theorem C4_type_tag_law (b : Bytes) :
    (b.head? ≠ some GasRequestType →
      ∀ r : GasRequest, ∃ e, r.Decode b = .err e) ∧
    (b.head? ≠ some WithdrawalRequestType →
      ∀ r : WithdrawalRequest, ∃ e, r.Decode b = .err e) ∧
    (b.head? ≠ some ReplaceByFeeRequestType →
      ∀ r : ReplaceByFeeRequest, ∃ e, r.Decode b = .err e) ∧
    (b.head? ≠ some Cancel1RequestType →
      ∀ r : Cancel1Request, ∃ e, r.Decode b = .err e) ∧
    (b.head? ≠ some CreateRequestType →
      ∀ r : CreateRequest, ∃ e, r.Decode b = .err e) ∧
    (b.head? ≠ some LockRequestType →
      ∀ r : LockRequest, ∃ e, r.Decode b = .err e) ∧
    (b.head? ≠ some UnlockRequestType →
      ∀ r : UnlockRequest, ∃ e, r.Decode b = .err e) ∧
    (b.head? ≠ some ClaimRequestType →
      ∀ r : ClaimRequest, ∃ e, r.Decode b = .err e) ∧
    (b.head? ≠ some UpdateTokenWeightRequestType →
      ∀ r : UpdateTokenWeightRequest, ∃ e, r.Decode b = .err e) ∧
    (b.head? ≠ some UpdateTokenThresholdRequestType →
      ∀ r : UpdateTokenThresholdRequest, ∃ e, r.Decode b = .err e) ∧
    (b.head? ≠ some GrantRequestType →
      ∀ r : GrantRequest, ∃ e, r.Decode b = .err e) ∧
    (b.head? ≠ some AddVoterRequestType →
      ∀ r : AddVoterRequest, ∃ e, r.Decode b = .err e) ∧
    (b.head? ≠ some RemoveVoterRequestType →
      ∀ r : RemoveVoterRequest, ∃ e, r.Decode b = .err e) ∧
    (∀ (v : UpdateTokenThresholdRequest) (enc : Bytes), v.Valid → v.Encode = some enc →
      enc.length = 53 ∧ ∀ r : AddVoterRequest, ∃ e, r.Decode enc = .err e) ∧
    (∀ v : AddVoterRequest, v.Valid →
      v.Encode.length = 53 ∧ ∀ r : UpdateTokenThresholdRequest, ∃ e, r.Decode v.Encode = .err e) := by
  refine ⟨?_, ?_, ?_, ?_, ?_, ?_, ?_, ?_, ?_, ?_, ?_, ?_, ?_, ?_, ?_⟩
  · exact fun h r => (Res.isErr_iff _).1 (GasRequest_decode_tag r b h)
  · exact fun h r => (Res.isErr_iff _).1 (WithdrawalRequest_decode_tag r b h)
  · exact fun h r => (Res.isErr_iff _).1 (ReplaceByFeeRequest_decode_tag r b h)
  · exact fun h r => (Res.isErr_iff _).1 (Cancel1Request_decode_tag r b h)
  · exact fun h r => (Res.isErr_iff _).1 (CreateRequest_decode_tag r b h)
  · exact fun h r => (Res.isErr_iff _).1 (LockRequest_decode_tag r b h)
  · exact fun h r => (Res.isErr_iff _).1 (UnlockRequest_decode_tag r b h)
  · exact fun h r => (Res.isErr_iff _).1 (ClaimRequest_decode_tag r b h)
  · exact fun h r => (Res.isErr_iff _).1 (UpdateTokenWeightRequest_decode_tag r b h)
  · exact fun h r => (Res.isErr_iff _).1 (UpdateTokenThresholdRequest_decode_tag r b h)
  · exact fun h r => (Res.isErr_iff _).1 (GrantRequest_decode_tag r b h)
  · exact fun h r => (Res.isErr_iff _).1 (AddVoterRequest_decode_tag r b h)
  · exact fun h r => (Res.isErr_iff _).1 (RemoveVoterRequest_decode_tag r b h)
  · intro v enc hv henc
    simp only [UpdateTokenThresholdRequest.Encode, UpdateTokenThresholdRequest.RequestType,
      FillBytes] at henc
    split_ifs at henc with hfit
    · simp only [Option.bind_eq_bind, Option.some_bind, Option.pure_def, Option.some.injEq,
        List.nil_append] at henc
      subst henc
      refine ⟨by simp [hv.1], fun r => (Res.isErr_iff _).1 ?_⟩
      exact AddVoterRequest_decode_tag r _ (by simp; decide)
    · simp at henc
  · intro v hv
    refine ⟨by simp [AddVoterRequest.Encode, hv.1, hv.2], fun r => (Res.isErr_iff _).1 ?_⟩
    exact UpdateTokenThresholdRequest_decode_tag r _
      (by simp [AddVoterRequest.Encode, AddVoterRequest.RequestType]; decide)

/-- C4 at the well-formed ReplaceByFee encoding of (1, 2), given to Cancel.Decode. -/
theorem C4_type_tag_law_witness :
    ∃ e, Cancel1Request.Decode ⟨0⟩ (ReplaceByFeeRequest.Encode ⟨1, 2⟩) = .err e :=
  (C4_type_tag_law (ReplaceByFeeRequest.Encode ⟨1, 2⟩)).2.2.2.1 (by decide) ⟨0⟩


/-- C5: for every byte string, Decode of a variant returns an error unless the length is the
width of the variant: GasAccrual 41, ReplaceByFee 17, Cancel 9, CreateValidator 85, Lock 73,
Unlock 101, Claim 49, UpdateTokenWeight 29, UpdateTokenThreshold 53, Grant 33, AddVoter 53,
RemoveVoter 21, and for Withdrawal 26 plus the value of the length byte `b[25]` (an input
shorter than 26 bytes, which has no length byte, is rejected too). -/
theorem C5_fixed_width_law (b : Bytes) :
    (b.length ≠ 41 → ∀ r : GasRequest, ∃ e, r.Decode b = .err e) ∧
    (b.length ≠ 17 → ∀ r : ReplaceByFeeRequest, ∃ e, r.Decode b = .err e) ∧
    (b.length ≠ 9 → ∀ r : Cancel1Request, ∃ e, r.Decode b = .err e) ∧
    (b.length ≠ 85 → ∀ r : CreateRequest, ∃ e, r.Decode b = .err e) ∧
    (b.length ≠ 73 → ∀ r : LockRequest, ∃ e, r.Decode b = .err e) ∧
    (b.length ≠ 101 → ∀ r : UnlockRequest, ∃ e, r.Decode b = .err e) ∧
    (b.length ≠ 49 → ∀ r : ClaimRequest, ∃ e, r.Decode b = .err e) ∧
    (b.length ≠ 29 → ∀ r : UpdateTokenWeightRequest, ∃ e, r.Decode b = .err e) ∧
    (b.length ≠ 53 → ∀ r : UpdateTokenThresholdRequest, ∃ e, r.Decode b = .err e) ∧
    (b.length ≠ 33 → ∀ r : GrantRequest, ∃ e, r.Decode b = .err e) ∧
    (b.length ≠ 53 → ∀ r : AddVoterRequest, ∃ e, r.Decode b = .err e) ∧
    (b.length ≠ 21 → ∀ r : RemoveVoterRequest, ∃ e, r.Decode b = .err e) ∧
    ((∀ x : Byte, b[25]? = some x → b.length ≠ 26 + x.val) →
      ∀ r : WithdrawalRequest, ∃ e, r.Decode b = .err e) := by
  refine ⟨?_, ?_, ?_, ?_, ?_, ?_, ?_, ?_, ?_, ?_, ?_, ?_, ?_⟩
  · exact fun h r => (Res.isErr_iff _).1 (GasRequest_decode_length r b h)
  · exact fun h r => (Res.isErr_iff _).1 (ReplaceByFeeRequest_decode_length r b h)
  · exact fun h r => (Res.isErr_iff _).1 (Cancel1Request_decode_length r b h)
  · exact fun h r => (Res.isErr_iff _).1 (CreateRequest_decode_length r b h)
  · exact fun h r => (Res.isErr_iff _).1 (LockRequest_decode_length r b h)
  · exact fun h r => (Res.isErr_iff _).1 (UnlockRequest_decode_length r b h)
  · exact fun h r => (Res.isErr_iff _).1 (ClaimRequest_decode_length r b h)
  · exact fun h r => (Res.isErr_iff _).1 (UpdateTokenWeightRequest_decode_length r b h)
  · exact fun h r => (Res.isErr_iff _).1 (UpdateTokenThresholdRequest_decode_length r b h)
  · exact fun h r => (Res.isErr_iff _).1 (GrantRequest_decode_length r b h)
  · exact fun h r => (Res.isErr_iff _).1 (AddVoterRequest_decode_length r b h)
  · exact fun h r => (Res.isErr_iff _).1 (RemoveVoterRequest_decode_length r b h)
  · exact fun h r => (Res.isErr_iff _).1 (WithdrawalRequest_decode_length r b h)

/-- C5 at a Cancel encoding with one byte cut off (8 bytes) and with one byte added (10). -/
theorem C5_fixed_width_law_witness :
    (∃ e, Cancel1Request.Decode ⟨0⟩ ((Cancel1Request.Encode ⟨5⟩).take 8) = .err e) ∧
    (∃ e, Cancel1Request.Decode ⟨0⟩ (Cancel1Request.Encode ⟨5⟩ ++ [0]) = .err e) :=
  ⟨(C5_fixed_width_law ((Cancel1Request.Encode ⟨5⟩).take 8)).2.2.1 (by decide) ⟨0⟩,
   (C5_fixed_width_law (Cancel1Request.Encode ⟨5⟩ ++ [0])).2.2.1 (by decide) ⟨0⟩⟩


/-! ## The loop of ProcessGoatRequests, log by log -/

section Pipeline

theorem topic0_of_length (topics : List Bytes) (h : 0 < topics.length) :
    ∃ t, topics[0]? = some t := by
  cases topics with
  | nil => simp at h
  | cons t l => exact ⟨t, by simp⟩

theorem loop_cons (log : Log) (rest : List Log) (requests : List Bytes) :
    ProcessGoatRequests.loop (log :: rest) requests =
      match logOutcome log with
      | .panic => none
      | .err e => some ([], some e)
      | .ok none => ProcessGoatRequests.loop rest requests
      | .ok (some enc) => ProcessGoatRequests.loop rest (requests ++ [enc]) := by
  rw [ProcessGoatRequests.loop]
  unfold logOutcome dispatch
  by_cases hb : log.Address = BridgeContract
  · simp only [hb, if_true]
    by_cases h2 : log.Topics.length < 2
    · have h2' : ¬ 2 ≤ log.Topics.length := by omega
      simp only [h2, h2', if_true, if_false]
    · have h2' : 2 ≤ log.Topics.length := by omega
      obtain ⟨t, ht⟩ := topic0_of_length log.Topics (by omega)
      simp only [h2, h2', ht, if_true, if_false, Option.some.injEq]
      split_ifs
      · simp only [Event.unpack]
        cases UnpackIntoWithdrawRequest log.Topics log.Data <;> simp [Res.wrap, Request.Encode]
      · simp only [Event.unpack]
        cases UnpackIntoReplaceByFeeRequest log.Topics log.Data <;>
          simp [Res.wrap, Request.Encode]
      · simp only [Event.unpack]
        cases UnpackIntoCancel1Request log.Topics log.Data <;> simp [Res.wrap, Request.Encode]
      · rfl
  · simp only [hb, if_false]
    by_cases hl : log.Address = LockingContract
    · simp only [hl, if_true]
      by_cases h1 : log.Topics.length = 1
      · obtain ⟨t, ht⟩ := topic0_of_length log.Topics (by omega)
        simp only [h1, ht, ne_eq, not_true_eq_false, if_true, if_false, Option.some.injEq]
        split_ifs
        · simp only [Event.unpack]
          cases UnpackIntoCreateRequest log.Data <;> simp [Res.wrap, Request.Encode]
        · simp only [Event.unpack]
          cases UnpackIntoLockRequest log.Data with
          | ok req => cases henc : req.Encode <;> simp [Res.wrap, Request.Encode, henc]
          | err e => simp [Res.wrap]
          | panic => simp [Res.wrap]
        · simp only [Event.unpack]
          cases UnpackIntoUnlockRequest log.Data with
          | ok req => cases henc : req.Encode <;> simp [Res.wrap, Request.Encode, henc]
          | err e => simp [Res.wrap]
          | panic => simp [Res.wrap]
        · simp only [Event.unpack]
          cases UnpackIntoClaimRequest log.Data <;> simp [Res.wrap, Request.Encode]
        · simp only [Event.unpack]
          cases UnpackIntoGrantRequest log.Data with
          | ok req => cases henc : req.Encode <;> simp [Res.wrap, Request.Encode, henc]
          | err e => simp [Res.wrap]
          | panic => simp [Res.wrap]
        · simp only [Event.unpack]
          cases UnpackIntoUpdateTokenWeightRequest log.Data <;> simp [Res.wrap, Request.Encode]
        · simp only [Event.unpack]
          cases UnpackIntoUpdateTokenThresholdRequest log.Data with
          | ok req => cases henc : req.Encode <;> simp [Res.wrap, Request.Encode, henc]
          | err e => simp [Res.wrap]
          | panic => simp [Res.wrap]
        · rfl
      · simp only [h1, ne_eq, not_false_eq_true, if_true, if_false]
    · simp only [hl, if_false]
      by_cases hr : log.Address = RelayerContract
      · simp only [hr, if_true]
        by_cases h2 : log.Topics.length = 2
        · obtain ⟨t, ht⟩ := topic0_of_length log.Topics (by omega)
          simp only [h2, ht, ne_eq, not_true_eq_false, if_true, if_false, Option.some.injEq]
          split_ifs
          · simp only [Event.unpack]
            cases UnpackIntoAddVoterRequest log.Topics log.Data <;>
              simp [Res.wrap, Request.Encode]
          · simp only [Event.unpack]
            cases UnpackIntoRemoveVoterRequest log.Topics log.Data <;>
              simp [Res.wrap, Request.Encode]
          · rfl
        · simp only [h2, ne_eq, not_false_eq_true, if_true, if_false]
      · simp only [hr, if_false]

end Pipeline


section PipelineFacts

theorem loop_eq_collect (logs : List Log) (requests : List Bytes) :
    ProcessGoatRequests.loop logs requests =
      match collect logs with
      | .panic => none
      | .err e => some ([], some e)
      | .ok encs => some (requests ++ encs, none) := by
  induction logs generalizing requests with
  | nil => simp [ProcessGoatRequests.loop, collect]
  | cons log rest ih =>
    rw [loop_cons, collect]
    cases hlog : logOutcome log with
    | panic => rfl
    | err e => rfl
    | ok o =>
      cases o with
      | none => simp only [ih]
      | some enc =>
        simp only [ih]
        cases collect rest <;> simp

theorem ProcessGoatRequests_eq (height : Nat) (reward : Int) (logs : List Log) :
    ProcessGoatRequests height reward logs =
      match (NewGasRequest height reward).Encode with
      | none => none
      | some gas =>
        match collect logs with
        | .panic => none
        | .err e => some ([], some e)
        | .ok encs => some (gas :: encs, none) := by
  unfold ProcessGoatRequests
  cases (NewGasRequest height reward).Encode with
  | none => rfl
  | some gas => simp only [loop_eq_collect, List.singleton_append]

theorem NewGasRequest_encode (height : Nat) (reward : Int) :
    (NewGasRequest height reward).Encode =
      if reward.natAbs < 256 ^ 32 then
        some (GasRequestType :: (toLE 8 height ++ toBE 32 reward.natAbs))
      else none := by
  simp only [GasRequest.Encode, NewGasRequest, GasRequest.RequestType, FillBytes, EncodeUint64,
    PutUint64]
  split_ifs <;> simp

theorem logOutcome_of_dispatch_none (log : Log) (h : dispatch log = none) :
    logOutcome log = .ok none := by
  simp [logOutcome, h]

theorem logOutcome_ok_none (log : Log) (h : logOutcome log = .ok none) :
    dispatch log = none := by
  unfold logOutcome at h
  cases hd : dispatch log with
  | none => rfl
  | some ev =>
    rw [hd] at h
    simp only at h
    cases hu : ev.unpack log with
    | panic => rw [hu] at h; simp at h
    | err e => rw [hu] at h; simp at h
    | ok req =>
      rw [hu] at h
      simp only at h
      cases he : req.Encode with
      | none => rw [he] at h; simp at h
      | some enc => rw [he] at h; simp at h

theorem logOutcome_ok_some (log : Log) (enc : Bytes) (h : logOutcome log = .ok (some enc)) :
    ∃ ev req, dispatch log = some ev ∧ ev.unpack log = .ok req ∧ req.Encode = some enc := by
  unfold logOutcome at h
  cases hd : dispatch log with
  | none => rw [hd] at h; simp at h
  | some ev =>
    rw [hd] at h
    simp only at h
    cases hu : ev.unpack log with
    | panic => rw [hu] at h; simp at h
    | err e => rw [hu] at h; simp at h
    | ok req =>
      rw [hu] at h
      simp only at h
      cases he : req.Encode with
      | none => rw [he] at h; simp at h
      | some enc' =>
        rw [he] at h
        simp only [Res.ok.injEq, Option.some.injEq] at h
        exact ⟨ev, req, rfl, hu, by rw [← h, he]⟩

theorem logOutcome_err (log : Log) (ev : Event) (e : Error) (hd : dispatch log = some ev)
    (hu : ev.unpack log = .err e) : logOutcome log = .err e := by
  simp [logOutcome, hd, hu]

theorem collect_ok (logs : List Log) (encs : List Bytes) (h : collect logs = .ok encs) :
    List.Forall₂
      (fun log enc => ∃ ev req, dispatch log = some ev ∧ ev.unpack log = .ok req ∧
        req.Encode = some enc)
      (logs.filter fun log => (dispatch log).isSome) encs := by
  induction logs generalizing encs with
  | nil =>
    simp only [collect, Res.ok.injEq] at h
    subst h
    simp
  | cons log rest ih =>
    rw [collect] at h
    cases hlog : logOutcome log with
    | panic => rw [hlog] at h; simp at h
    | err e => rw [hlog] at h; simp at h
    | ok o =>
      rw [hlog] at h
      cases o with
      | none =>
        simp only at h
        have hd := logOutcome_ok_none log hlog
        simp only [List.filter_cons, hd, Option.isSome_none, Bool.false_eq_true, if_false]
        exact ih encs h
      | some enc =>
        simp only at h
        obtain ⟨ev, req, hd, hu, he⟩ := logOutcome_ok_some log enc hlog
        cases hrest : collect rest with
        | panic => rw [hrest] at h; simp at h
        | err e => rw [hrest] at h; simp at h
        | ok encs' =>
          rw [hrest] at h
          simp only [Res.ok.injEq] at h
          subst h
          simp only [List.filter_cons, hd, Option.isSome_some, if_true]
          exact List.Forall₂.cons ⟨ev, req, hd, hu, he⟩ (ih encs' hrest)

end PipelineFacts


/-! ## Requests unpacked from a log can be encoded -/

section UnpackedEncode

theorem SetBytes_natAbs_lt (b : Bytes) (h : b.length = 32) :
    (SetBytes b).natAbs < 256 ^ 32 := by
  have := fromBE_lt b
  rw [h] at this
  simpa [SetBytes] using this

theorem FillBytes_SetBytes (b : Bytes) (h : b.length = 32) :
    ∃ enc, FillBytes (SetBytes b) 32 = some enc := by
  exact ⟨toBE 32 (SetBytes b).natAbs, by simp only [FillBytes, if_pos (SetBytes_natAbs_lt b h)]⟩

theorem UnpackIntoLockRequest_encode (data : Bytes) (req : LockRequest)
    (h : UnpackIntoLockRequest data = .ok req) : ∃ enc, req.Encode = some enc := by
  by_cases hl : data.length = 96
  · have h1 := slice_ok data 0 32 (by omega) (by omega)
    have h2 := slice_ok data 32 64 (by omega) (by omega)
    have h3 := sliceFrom_eq data 64 (by omega)
    simp only [UnpackIntoLockRequest, hl, ne_eq, not_true_eq_false, if_false, h1, h2, h3,
      Res.ok_bind, Res.pure_eq, Res.ok.injEq] at h
    subst h
    obtain ⟨enc, he⟩ := FillBytes_SetBytes (data.drop 64) (by simp; omega)
    exact ⟨_, by simp [LockRequest.Encode, he]; rfl⟩
  · simp [UnpackIntoLockRequest, hl] at h

theorem UnpackIntoUnlockRequest_encode (data : Bytes) (req : UnlockRequest)
    (h : UnpackIntoUnlockRequest data = .ok req) : ∃ enc, req.Encode = some enc := by
  by_cases hl : data.length = 160
  · have h1 := slice_ok data 0 32 (by omega) (by omega)
    have h2 := slice_ok data 32 64 (by omega) (by omega)
    have h3 := slice_ok data 64 96 (by omega) (by omega)
    have h4 := slice_ok data 96 128 (by omega) (by omega)
    have h5 := slice_ok data 128 160 (by omega) (by omega)
    simp only [UnpackIntoUnlockRequest, hl, ne_eq, not_true_eq_false, if_false, h1, h2, h3, h4,
      h5, Res.ok_bind, Res.pure_eq, Res.ok.injEq] at h
    subst h
    obtain ⟨enc, he⟩ := FillBytes_SetBytes ((data.take 160).drop 128) (by simp; omega)
    exact ⟨_, by simp [UnlockRequest.Encode, he]; rfl⟩
  · simp [UnpackIntoUnlockRequest, hl] at h

theorem UnpackIntoGrantRequest_encode (data : Bytes) (req : GrantRequest)
    (h : UnpackIntoGrantRequest data = .ok req) : ∃ enc, req.Encode = some enc := by
  by_cases hl : data.length = 32
  · simp only [UnpackIntoGrantRequest, hl, ne_eq, not_true_eq_false, if_false, Res.pure_eq,
      Res.ok.injEq] at h
    subst h
    obtain ⟨enc, he⟩ := FillBytes_SetBytes data hl
    exact ⟨_, by simp [GrantRequest.Encode, he]; rfl⟩
  · simp [UnpackIntoGrantRequest, hl] at h

theorem UnpackIntoUpdateTokenThresholdRequest_encode (data : Bytes)
    (req : UpdateTokenThresholdRequest)
    (h : UnpackIntoUpdateTokenThresholdRequest data = .ok req) :
    ∃ enc, req.Encode = some enc := by
  by_cases hl : data.length = 64
  · have h1 := slice_ok data 0 32 (by omega) (by omega)
    have h2 := slice_ok data 32 64 (by omega) (by omega)
    simp only [UnpackIntoUpdateTokenThresholdRequest, hl, ne_eq, not_true_eq_false, if_false,
      h1, h2, Res.ok_bind, Res.pure_eq, Res.ok.injEq] at h
    subst h
    obtain ⟨enc, he⟩ := FillBytes_SetBytes ((data.take 64).drop 32) (by simp; omega)
    exact ⟨_, by simp [UpdateTokenThresholdRequest.Encode, he]; rfl⟩
  · simp [UnpackIntoUpdateTokenThresholdRequest, hl] at h

theorem Res.wrap_ok {α : Type} (f : α → Request) (r : Res α) (req : Request)
    (h : r.wrap f = .ok req) : ∃ a, r = .ok a ∧ req = f a := by
  cases r with
  | ok a => exact ⟨a, rfl, by simpa [Res.wrap] using h.symm⟩
  | err e => simp [Res.wrap] at h
  | panic => simp [Res.wrap] at h

theorem unpack_encode (ev : Event) (log : Log) (req : Request)
    (h : ev.unpack log = .ok req) : ∃ enc, req.Encode = some enc := by
  cases ev <;> simp only [Event.unpack] at h <;> obtain ⟨a, ha, rfl⟩ := Res.wrap_ok _ _ _ h
  case Lock => exact UnpackIntoLockRequest_encode _ _ ha
  case Unlock => exact UnpackIntoUnlockRequest_encode _ _ ha
  case Grant => exact UnpackIntoGrantRequest_encode _ _ ha
  case UpdateTokenThreshold => exact UnpackIntoUpdateTokenThresholdRequest_encode _ _ ha
  all_goals exact ⟨_, rfl⟩

theorem logOutcome_of_unpack_ok (log : Log) (ev : Event) (req : Request)
    (hd : dispatch log = some ev) (hu : ev.unpack log = .ok req) :
    ∃ enc, logOutcome log = .ok (some enc) := by
  obtain ⟨enc, he⟩ := unpack_encode ev log req hu
  exact ⟨enc, by simp [logOutcome, hd, hu, he]⟩

end UnpackedEncode

/-! ## Claims C6 – C10: the extraction pipeline -/

/-- C6, as stated, fails: the three sample logs come from three different recognized
(address, topic) pairs and each is unpacked by its decoder, yet with the reward `2^256`
ProcessGoatRequests returns nothing: it panics while encoding the GasAccrual request, so the
result is not the list of the GasAccrual encoding and the three encodings. -/
theorem C6_no_list_for_large_reward :
    dispatch sampleRemoveVoterLog = some .RemoveVoter ∧
    dispatch sampleCancelLog = some .Cancel1 ∧
    dispatch sampleGrantLog = some .Grant ∧
    Event.unpack .RemoveVoter sampleRemoveVoterLog = .ok (.removeVoter ⟨sampleAddress⟩) ∧
    Event.unpack .Cancel1 sampleCancelLog = .ok (.cancel1 ⟨9⟩) ∧
    Event.unpack .Grant sampleGrantLog = .ok (.grant ⟨1000⟩) ∧
    ProcessGoatRequests 5 (2 ^ 256) [sampleRemoveVoterLog, sampleCancelLog, sampleGrantLog]
      = none := by
  refine ⟨by decide, by decide, by decide, by decide, by decide, by decide, ?_⟩
  simp [ProcessGoatRequests, GasRequest.Encode, NewGasRequest, FillBytes]

/-- C6, amended: whenever ProcessGoatRequests returns a list, the list is the GasAccrual encoding
followed by exactly one element per dispatched log (a log that selects an event decoder), each
element being Encode() of the request unpacked from that log, in the order of the logs in the
input.  For three dispatched logs A, B, C with the unpacked requests A', B', C', in any mix of
contracts and events, and a reward that fits in 32 bytes (`|reward| < 2^256`), the result is the
GasAccrual encoding followed by the encodings of A', B', C' in this order; for any reward, a list
that is returned is that list. -/
theorem C6_emission_order (height : Nat) (reward : Int) :
    (∀ logs out, ProcessGoatRequests height reward logs = some (out, none) →
      ∃ gas encs, (NewGasRequest height reward).Encode = some gas ∧ out = gas :: encs ∧
        List.Forall₂
          (fun log enc => ∃ ev req, dispatch log = some ev ∧ ev.unpack log = .ok req ∧
            req.Encode = some enc)
          (logs.filter fun log => (dispatch log).isSome) encs) ∧
    (∀ (A B C : Log) (evA evB evC : Event) (reqA reqB reqC : Request),
      dispatch A = some evA → evA.unpack A = .ok reqA →
      dispatch B = some evB → evB.unpack B = .ok reqB →
      dispatch C = some evC → evC.unpack C = .ok reqC →
      ∃ encA encB encC, reqA.Encode = some encA ∧ reqB.Encode = some encB ∧
        reqC.Encode = some encC ∧
        (∀ out, ProcessGoatRequests height reward [A, B, C] = some (out, none) →
          ∃ gas, (NewGasRequest height reward).Encode = some gas ∧
            out = [gas, encA, encB, encC]) ∧
        (reward.natAbs < 2 ^ 256 →
          ∃ gas, (NewGasRequest height reward).Encode = some gas ∧
            ProcessGoatRequests height reward [A, B, C] =
              some ([gas, encA, encB, encC], none))) := by
  constructor
  · intro logs out h
    rw [ProcessGoatRequests_eq] at h
    cases hgas : (NewGasRequest height reward).Encode with
    | none => rw [hgas] at h; simp at h
    | some gas =>
      rw [hgas] at h
      simp only at h
      cases hc : collect logs with
      | panic => rw [hc] at h; simp at h
      | err e => rw [hc] at h; simp at h
      | ok encs =>
        rw [hc] at h
        simp only [Option.some.injEq, Prod.mk.injEq, and_true] at h
        exact ⟨gas, encs, rfl, h.symm, collect_ok logs encs hc⟩
  · intro A B C evA evB evC reqA reqB reqC hdA huA hdB huB hdC huC
    obtain ⟨encA, heA⟩ := unpack_encode evA A reqA huA
    obtain ⟨encB, heB⟩ := unpack_encode evB B reqB huB
    obtain ⟨encC, heC⟩ := unpack_encode evC C reqC huC
    have hA : logOutcome A = .ok (some encA) := by simp [logOutcome, hdA, huA, heA]
    have hB : logOutcome B = .ok (some encB) := by simp [logOutcome, hdB, huB, heB]
    have hC : logOutcome C = .ok (some encC) := by simp [logOutcome, hdC, huC, heC]
    have hc : collect [A, B, C] = .ok [encA, encB, encC] := by simp [collect, hA, hB, hC]
    have hpow : (2 : Nat) ^ 256 = 256 ^ 32 := by norm_num
    refine ⟨encA, encB, encC, heA, heB, heC, fun out h => ?_, fun hfit => ?_⟩
    · rw [ProcessGoatRequests_eq, hc] at h
      cases hgas : (NewGasRequest height reward).Encode with
      | none => rw [hgas] at h; simp at h
      | some gas =>
        rw [hgas] at h
        simp only [Option.some.injEq, Prod.mk.injEq, and_true] at h
        exact ⟨gas, rfl, h.symm⟩
    · refine ⟨GasRequestType :: (toLE 8 height ++ toBE 32 reward.natAbs), ?_, ?_⟩
      · rw [NewGasRequest_encode, if_pos (hpow ▸ hfit)]
      · rw [ProcessGoatRequests_eq, hc, NewGasRequest_encode, if_pos (hpow ▸ hfit)]

/-- C6 on three logs of three different (address, topic) pairs, given in the order relayer,
bridge, locking: the result is the GasAccrual encoding followed by the RemoveVoter, the Cancel
and the Grant encoding, in this order. -/
theorem C6_emission_order_witness :
    ProcessGoatRequests 5 7 [sampleRemoveVoterLog, sampleCancelLog, sampleGrantLog] =
      some ([GasRequestType :: (toLE 8 5 ++ toBE 32 7),
             RemoveVoterRequest.Encode ⟨sampleAddress⟩,
             Cancel1Request.Encode ⟨9⟩,
             GrantRequestType :: toBE 32 1000], none) ∧
    ∃ gas encs, (NewGasRequest 5 7).Encode = some gas ∧
      [GasRequestType :: (toLE 8 5 ++ toBE 32 7),
        RemoveVoterRequest.Encode ⟨sampleAddress⟩,
        Cancel1Request.Encode ⟨9⟩,
        GrantRequestType :: toBE 32 1000] = gas :: encs ∧
      List.Forall₂
        (fun log enc => ∃ ev req, dispatch log = some ev ∧ ev.unpack log = .ok req ∧
          req.Encode = some enc)
        ([sampleRemoveVoterLog, sampleCancelLog, sampleGrantLog].filter
          fun log => (dispatch log).isSome) encs :=
  have h : ProcessGoatRequests 5 7 [sampleRemoveVoterLog, sampleCancelLog, sampleGrantLog] =
      some ([GasRequestType :: (toLE 8 5 ++ toBE 32 7),
             RemoveVoterRequest.Encode ⟨sampleAddress⟩,
             Cancel1Request.Encode ⟨9⟩,
             GrantRequestType :: toBE 32 1000], none) := by decide
  ⟨h, (C6_emission_order 5 7).1 _ _ h⟩

/-- C7, as stated, fails: for the empty log list and the reward `2^256` ProcessGoatRequests
returns nothing (it panics while encoding the GasAccrual request), not the one-element list;
the GasAccrual request of this reward has no encoding. -/
theorem C7_no_list_for_large_reward :
    ProcessGoatRequests 5 (2 ^ 256) [] = none ∧ (NewGasRequest 5 (2 ^ 256)).Encode = none := by
  constructor <;> simp [ProcessGoatRequests, GasRequest.Encode, NewGasRequest, FillBytes]

/-- C7, amended: if ProcessGoatRequests returns a list, the list is non-empty and its first
element is `NewGasRequest(height, reward).Encode()`: 41 bytes, the tag 0x60, the height as 8
little-endian bytes and the (absolute value of the) reward as 32 big-endian bytes.  For an empty
log list and a reward that fits in 32 bytes (`|reward| < 2^256`) the result is exactly that
one-element list; for any reward, whatever is returned for the empty log list is that list
without an error. -/
theorem C7_synthetic_first_request (height : Nat) (reward : Int) (logs : List Log) :
    (∀ out, ProcessGoatRequests height reward logs = some (out, none) →
      ∃ gas tail, out = gas :: tail ∧ (NewGasRequest height reward).Encode = some gas ∧
        gas = (0x60 : Byte) :: (toLE 8 height ++ toBE 32 reward.natAbs) ∧ gas.length = 41) ∧
    (∀ res, ProcessGoatRequests height reward [] = some res →
      res = ([(0x60 : Byte) :: (toLE 8 height ++ toBE 32 reward.natAbs)], none)) ∧
    (reward.natAbs < 2 ^ 256 →
      ProcessGoatRequests height reward [] =
        some ([(0x60 : Byte) :: (toLE 8 height ++ toBE 32 reward.natAbs)], none)) := by
  have hpow : (2 : Nat) ^ 256 = 256 ^ 32 := by norm_num
  refine ⟨fun out h => ?_, fun res h => ?_, fun hfit => ?_⟩
  · rw [ProcessGoatRequests_eq, NewGasRequest_encode] at h
    split_ifs at h with hfit
    · simp only at h
      cases hc : collect logs with
      | panic => rw [hc] at h; simp at h
      | err e => rw [hc] at h; simp at h
      | ok encs =>
        rw [hc] at h
        simp only [Option.some.injEq, Prod.mk.injEq, and_true] at h
        refine ⟨_, encs, h.symm, ?_, rfl, by simp⟩
        rw [NewGasRequest_encode, if_pos hfit]
  · rw [ProcessGoatRequests_eq, NewGasRequest_encode] at h
    split_ifs at h with hfit
    · simp only [collect, Option.some.injEq] at h
      rw [← h]
      rfl
  · rw [ProcessGoatRequests_eq, NewGasRequest_encode, if_pos (hpow ▸ hfit)]
    rfl

/-- C7 at height 5 and reward 7 with no logs. -/
theorem C7_synthetic_first_request_witness :
    ProcessGoatRequests 5 7 [] =
      some ([(0x60 : Byte) :: (toLE 8 5 ++ toBE 32 (7 : Int).natAbs)], none) :=
  (C7_synthetic_first_request 5 7 []).2.2 (by decide)




/-! ## The first failing log, and logs that are skipped -/

section Abort

theorem collect_append_err (pre post : List Log) (log : Log) (e : Error)
    (hpre : ∀ l ∈ pre, ∃ o, logOutcome l = .ok o) (hlog : logOutcome log = .err e) :
    collect (pre ++ log :: post) = .err e := by
  induction pre with
  | nil => simp [collect, hlog]
  | cons l pre ih =>
    obtain ⟨o, ho⟩ := hpre l (List.mem_cons_self _ _)
    have ih' := ih fun x hx => hpre x (List.mem_cons_of_mem _ hx)
    cases o with
    | none => simp [collect, ho, ih']
    | some enc => simp [collect, ho, ih']

theorem collect_append_not_ok (pre post : List Log) (log : Log) (e : Error)
    (hlog : logOutcome log = .err e) (encs : List Bytes) :
    collect (pre ++ log :: post) ≠ .ok encs := by
  induction pre generalizing encs with
  | nil => simp [collect, hlog]
  | cons l pre ih =>
    simp only [List.cons_append, collect]
    cases hl : logOutcome l with
    | panic => simp
    | err e' => simp
    | ok o =>
      cases o with
      | none => exact ih encs
      | some enc =>
        simp only
        cases hc : collect (pre ++ log :: post) with
        | panic => simp
        | err e' => simp
        | ok encs' => exact absurd hc (ih encs')

theorem collect_append_some_err (pre post : List Log) (log : Log) (e : Error)
    (hpre : ∀ l ∈ pre, logOutcome l ≠ .panic) (hlog : logOutcome log = .err e) :
    ∃ e', collect (pre ++ log :: post) = .err e' := by
  induction pre with
  | nil => exact ⟨e, by simp [collect, hlog]⟩
  | cons l pre ih =>
    obtain ⟨e', ih'⟩ := ih fun x hx => hpre x (List.mem_cons_of_mem _ hx)
    have hl := hpre l (List.mem_cons_self _ _)
    simp only [List.cons_append, collect]
    cases ho : logOutcome l with
    | panic => exact absurd ho hl
    | err e2 => exact ⟨e2, rfl⟩
    | ok o =>
      cases o with
      | none => exact ⟨e', ih'⟩
      | some enc => exact ⟨e', by simp [ih']⟩

theorem collect_skip (pre post : List Log) (log : Log) (hlog : logOutcome log = .ok none) :
    collect (pre ++ log :: post) = collect (pre ++ post) := by
  induction pre with
  | nil => simp [collect, hlog]
  | cons l pre ih => rw [List.cons_append, List.cons_append, collect, collect, ih]

theorem dispatch_of_unknownEvent (log : Log) (h : unknownEvent log) : dispatch log = none := by
  unfold dispatch
  rcases h with ⟨h1, h2, h3⟩ | ⟨h1, h2⟩ | ⟨h1, h2⟩ | ⟨h1, h2⟩
  · simp [h1, h2, h3]
  · simp only [h1, if_true]
    split_ifs <;> simp_all
  · have hb : ¬ LockingContract = BridgeContract := by decide
    simp only [h1, hb, if_true, if_false]
    split_ifs <;> simp_all
  · have hb : ¬ RelayerContract = BridgeContract := by decide
    have hl : ¬ RelayerContract = LockingContract := by decide
    simp only [h1, hb, hl, if_true, if_false]
    split_ifs <;> simp_all

end Abort


section AbortFacts

theorem logOutcome_ne_panic (log : Log)
    (h : ∀ ev, dispatch log = some ev → ev.unpack log ≠ .panic) : logOutcome log ≠ .panic := by
  unfold logOutcome
  cases hd : dispatch log with
  | none => simp
  | some ev =>
    simp only
    cases hu : ev.unpack log with
    | panic => exact absurd hu (h ev hd)
    | err e => simp
    | ok req =>
      obtain ⟨enc, he⟩ := unpack_encode ev log req hu
      simp [he]

theorem ProcessGoatRequests_of_collect_err (height : Nat) (reward : Int) (logs : List Log)
    (e : Error) (hfit : reward.natAbs < 2 ^ 256) (h : collect logs = .err e) :
    ProcessGoatRequests height reward logs = some ([], some e) := by
  have hpow : (2 : Nat) ^ 256 = 256 ^ 32 := by norm_num
  rw [ProcessGoatRequests_eq, NewGasRequest_encode, if_pos (hpow ▸ hfit), h]

end AbortFacts

/-- C8, as stated, fails: the log `malformedCancelLog` is dispatched to the Cancel1 decoder,
which returns an error, yet with the reward `2^256` ProcessGoatRequests returns no error: it
panics while encoding the GasAccrual request, before it reads the logs. -/
theorem C8_abort_fails_when_gas_encode_panics :
    dispatch malformedCancelLog = some .Cancel1 ∧
    Event.unpack .Cancel1 malformedCancelLog =
      .err "invalid Cancel1 event data length, expect 0 got 1" ∧
    ProcessGoatRequests 0 (2 ^ 256) [malformedCancelLog] = none := by
  refine ⟨by decide, by decide, ?_⟩
  simp [ProcessGoatRequests, GasRequest.Encode, NewGasRequest, FillBytes]

/-- C8, amended: when the reward fits in 32 bytes, every dispatched log before `log` decodes
successfully and the event decoder of the dispatched log `log` returns the error `e`, then
ProcessGoatRequests returns `e` together with the nil list, whatever the number of logs
decoded before and whatever follows. -/
theorem C8_abort_without_partial_output (height : Nat) (reward : Int)
    (pre post : List Log) (log : Log) (ev : Event) (e : Error)
    (hfit : reward.natAbs < 2 ^ 256)
    (hpre : ∀ l ∈ pre, ∀ ev', dispatch l = some ev' → ∃ req, ev'.unpack l = .ok req)
    (hdispatch : dispatch log = some ev) (herr : ev.unpack log = .err e) :
    ProcessGoatRequests height reward (pre ++ log :: post) = some ([], some e) := by
  apply ProcessGoatRequests_of_collect_err height reward _ e hfit
  apply collect_append_err pre post log e _ (logOutcome_err log ev e hdispatch herr)
  intro l hl
  cases hd : dispatch l with
  | none => exact ⟨none, logOutcome_of_dispatch_none l hd⟩
  | some ev' =>
    obtain ⟨req, hreq⟩ := hpre l hl ev' hd
    obtain ⟨enc, henc⟩ := logOutcome_of_unpack_ok l ev' req hd hreq
    exact ⟨some enc, henc⟩

/-- C8 amended, on a RemoveVoter log that decodes, a Cancel1 log with one byte of data and a
Grant log: the result is the error of the Cancel1 decoder and the nil list. -/
theorem C8_abort_without_partial_output_witness :
    ProcessGoatRequests 5 7 ([sampleRemoveVoterLog] ++ malformedCancelLog :: [sampleGrantLog]) =
      some ([], some "invalid Cancel1 event data length, expect 0 got 1") :=
  C8_abort_without_partial_output 5 7 [sampleRemoveVoterLog] [sampleGrantLog] malformedCancelLog
    .Cancel1 "invalid Cancel1 event data length, expect 0 got 1" (by decide)
    (by
      intro l hl ev' hd
      rw [List.mem_singleton] at hl
      subst hl
      have h : dispatch sampleRemoveVoterLog = some .RemoveVoter := by decide
      rw [h] at hd
      cases hd
      exact ⟨.removeVoter ⟨sampleAddress⟩, by decide⟩)
    (by decide) (by decide)


section MalformedWithdraw

theorem withdraw_outcome_err (log : Log) (haddr : log.Address = BridgeContract)
    (htopic : log.Topics[0]? = some WithdrawEventTopic) (hcount : 2 ≤ log.Topics.length)
    (hne : log.Topics.length ≠ 3) :
    logOutcome log = .err ("invalid Withdraw event topics length: expect 3 got "
      ++ toString log.Topics.length) := by
  have hd : dispatch log = some .Withdraw := by
    simp [dispatch, haddr, hcount, htopic]
  apply logOutcome_err log .Withdraw _ hd
  simp [Event.unpack, UnpackIntoWithdrawRequest, hne, Res.wrap]

end MalformedWithdraw

/-- C9, as stated, fails: the bridge log `oneTopicWithdrawLog` has the Withdraw signature as
topic0 and one topic, not three, and ProcessGoatRequests skips it: the result is the list of the
GasAccrual request alone, without an error. -/
theorem C9_one_topic_withdraw_is_skipped :
    oneTopicWithdrawLog.Address = BridgeContract ∧
    oneTopicWithdrawLog.Topics[0]? = some WithdrawEventTopic ∧
    oneTopicWithdrawLog.Topics.length ≠ 3 ∧
    ProcessGoatRequests 5 7 [oneTopicWithdrawLog] =
      some ([(0x60 : Byte) :: (toLE 8 5 ++ toBE 32 7)], none) := by
  refine ⟨by decide, by decide, by decide, by decide⟩

/-- C9, amended: for every log list containing a bridge log whose topic0 is the Withdraw
signature and whose number of topics is at least 2 and not 3, ProcessGoatRequests never returns
an output list (the log is never skipped); when the reward fits in 32 bytes and no decoder of an
earlier log panics, it returns an error together with the nil list.  Every bridge log with fewer
than 2 topics, whatever its topic0, is skipped: it selects no decoder, and the result of
ProcessGoatRequests is the same with the log, at any position of any list, as without it. -/
theorem C9_malformed_withdraw_halts (height : Nat) (reward : Int) (pre post : List Log)
    (log : Log) (haddr : log.Address = BridgeContract)
    (htopic : log.Topics[0]? = some WithdrawEventTopic) (hcount : 2 ≤ log.Topics.length)
    (hne : log.Topics.length ≠ 3) :
    (∀ out, ProcessGoatRequests height reward (pre ++ log :: post) ≠ some (out, none)) ∧
    (reward.natAbs < 2 ^ 256 →
      (∀ l ∈ pre, ∀ ev, dispatch l = some ev → ev.unpack l ≠ .panic) →
      ∃ e, ProcessGoatRequests height reward (pre ++ log :: post) = some ([], some e)) ∧
    (∀ short : Log, short.Address = BridgeContract → short.Topics.length < 2 →
      dispatch short = none ∧
      ∀ before after : List Log,
        ProcessGoatRequests height reward (before ++ short :: after) =
          ProcessGoatRequests height reward (before ++ after)) := by
  have hlog := withdraw_outcome_err log haddr htopic hcount hne
  refine ⟨?_, ?_, fun short hsaddr hshort => ?_⟩
  rotate_left 2
  · have hd : dispatch short = none := by
      have h2 : ¬ 2 ≤ short.Topics.length := by omega
      simp [dispatch, hsaddr, h2]
    refine ⟨hd, fun before after => ?_⟩
    rw [ProcessGoatRequests_eq, ProcessGoatRequests_eq,
      collect_skip before after short (logOutcome_of_dispatch_none short hd)]
  · intro out h
    rw [ProcessGoatRequests_eq] at h
    cases hgas : (NewGasRequest height reward).Encode with
    | none => rw [hgas] at h; simp at h
    | some gas =>
      rw [hgas] at h
      simp only at h
      cases hc : collect (pre ++ log :: post) with
      | panic => rw [hc] at h; simp at h
      | err e => rw [hc] at h; simp at h
      | ok encs => exact collect_append_not_ok pre post log _ hlog encs hc
  · intro hfit hpre
    obtain ⟨e, he⟩ := collect_append_some_err pre post log _
      (fun l hl => logOutcome_ne_panic l (hpre l hl)) hlog
    exact ⟨e, ProcessGoatRequests_of_collect_err height reward _ e hfit he⟩

/-- C9 amended, on a Withdraw log with two topics between two logs that decode: no list is
returned, and the call returns an error with the nil list; the Withdraw log with one topic,
placed between the same two logs, changes nothing. -/
theorem C9_malformed_withdraw_halts_witness :
    (∀ out, ProcessGoatRequests 5 7 ([sampleCancelLog] ++ twoTopicWithdrawLog :: [sampleGrantLog])
      ≠ some (out, none)) ∧
    (∃ e, ProcessGoatRequests 5 7 ([sampleCancelLog] ++ twoTopicWithdrawLog :: [sampleGrantLog])
      = some ([], some e)) ∧
    ProcessGoatRequests 5 7 ([sampleCancelLog] ++ oneTopicWithdrawLog :: [sampleGrantLog]) =
      ProcessGoatRequests 5 7 ([sampleCancelLog] ++ [sampleGrantLog]) :=
  have h := C9_malformed_withdraw_halts 5 7 [sampleCancelLog] [sampleGrantLog]
    twoTopicWithdrawLog (by decide) (by decide) (by decide) (by decide)
  ⟨h.1, h.2.1 (by decide) (by
    intro l hl ev hd
    rw [List.mem_singleton] at hl
    subst hl
    have hc : dispatch sampleCancelLog = some .Cancel1 := by decide
    rw [hc] at hd
    cases hd
    decide),
   (h.2.2 oneTopicWithdrawLog (by decide) (by decide)).2 [sampleCancelLog] [sampleGrantLog]⟩

/-- C10: a log whose address is none of the bridge, locking and relayer contracts, or whose
address is one of them while its topic0 is not an event signature of that contract (a log with
no topics included), selects no decoder and contributes nothing: inserting it at any position of
the log list, or removing it, leaves the result of ProcessGoatRequests (the list, the error or
the panic) unchanged; alone in a block it yields the GasAccrual request only. -/
theorem C10_unknown_events_skipped (log : Log) (hunknown : unknownEvent log)
    (height : Nat) (reward : Int) (pre post : List Log) :
    ProcessGoatRequests height reward (pre ++ log :: post) =
      ProcessGoatRequests height reward (pre ++ post) ∧
    dispatch log = none ∧
    ProcessGoatRequests height reward [log] = ProcessGoatRequests height reward [] ∧
    (reward.natAbs < 2 ^ 256 → ProcessGoatRequests height reward [log] =
      some ([(0x60 : Byte) :: (toLE 8 height ++ toBE 32 reward.natAbs)], none)) := by
  have hd := dispatch_of_unknownEvent log hunknown
  have ho := logOutcome_of_dispatch_none log hd
  have hskip : ∀ pre post : List Log, ProcessGoatRequests height reward (pre ++ log :: post) =
      ProcessGoatRequests height reward (pre ++ post) := by
    intro pre post
    rw [ProcessGoatRequests_eq, ProcessGoatRequests_eq, collect_skip pre post log ho]
  have hpow : (2 : Nat) ^ 256 = 256 ^ 32 := by norm_num
  refine ⟨hskip pre post, hd, hskip [] [], fun hfit => ?_⟩
  have h1 : ProcessGoatRequests height reward [log] = ProcessGoatRequests height reward [] :=
    hskip [] []
  rw [h1, ProcessGoatRequests_eq, NewGasRequest_encode, if_pos (hpow ▸ hfit)]
  rfl

/-- C10 on a log of a foreign contract that carries the Withdraw signature, placed between two
logs that decode. -/
theorem C10_unknown_events_skipped_witness :
    ProcessGoatRequests 5 7 ([sampleCancelLog] ++ foreignLog :: [sampleGrantLog]) =
      ProcessGoatRequests 5 7 ([sampleCancelLog] ++ [sampleGrantLog]) :=
  (C10_unknown_events_skipped foreignLog (Or.inl ⟨by decide, by decide, by decide⟩)
    5 7 [sampleCancelLog] [sampleGrantLog]).1


/-! ## Claims C11 and C12: the gas fee split -/

section FeeSplit

theorem BitLen_eq_zero (x : Int) : BitLen x = 0 ↔ x = 0 := by
  unfold BitLen
  split_ifs with h <;> simp [h]

theorem fee_tax (fee : Nat) :
    Int.ediv ((fee : Int) * gfBasePoint) gfMaxBasePoint = ((fee * 200 / 10000 : Nat) : Int) := by
  simp only [gfBasePoint, gfMaxBasePoint]
  norm_cast

theorem fee_tax_le (fee : Nat) : fee * 200 / 10000 ≤ fee := by omega

theorem ProcessGoatGasFee_eq {S : Type} (AddBalance : S → Bytes → Nat → BalanceChangeReason → S)
    (statedb : S) (fee : Nat) :
    ProcessGoatGasFee AddBalance statedb fee =
      (let s1 := if fee * 200 / 10000 ≠ 0 then
          AddBalance statedb GoatFoundationContract ((fee * 200 / 10000) % 2 ^ 256)
            .BalanceIncreaseRewardTransactionFee
        else statedb
       if fee - fee * 200 / 10000 ≠ 0 then
          AddBalance s1 LockingContract ((fee - fee * 200 / 10000) % 2 ^ 256)
            .BalanceIncreaseRewardTransactionFee
        else s1,
       ((fee - fee * 200 / 10000 : Nat) : Int)) := by
  have hle := fee_tax_le fee
  have hsub : (fee : Int) - ((fee * 200 / 10000 : Nat) : Int)
      = ((fee - fee * 200 / 10000 : Nat) : Int) := by omega
  have hfrom : ∀ n : Nat, (FromBig (n : Int)).1 = n % 2 ^ 256 := by
    intro n
    have h : (n : Int) % 2 ^ 256 = ((n % 2 ^ 256 : Nat) : Int) := by norm_cast
    simp only [FromBig, h, Int.toNat_ofNat]
  unfold ProcessGoatGasFee
  by_cases h0 : fee = 0
  · subst h0
    simp [BitLen_eq_zero]
  · have h0' : ¬ ((fee : Int) = 0) := by omega
    simp only [BitLen_eq_zero, h0', if_false, fee_tax, hsub, hfrom, ne_eq, Nat.cast_eq_zero]

end FeeSplit

/-- C11: for every non-negative fee (a natural number, read as a big integer), whatever the
state and its balance mutator, ProcessGoatGasFee returns `fee - floor(fee * 200 / 10000)`
(`/` on natural numbers is the floor of the quotient); the tax plus the returned remainder is
the fee; the result is 0 for fee 0, 9800 for fee 10000 (tax 200) and 1 for fee 1 (tax 0). -/
theorem C11_fee_split_value {S : Type}
    (AddBalance : S → Bytes → Nat → BalanceChangeReason → S) (statedb : S) (fee : Nat) :
    (ProcessGoatGasFee AddBalance statedb fee).2 = (fee : Int) - ((fee * 200 / 10000 : Nat) : Int) ∧
    ((fee * 200 / 10000 : Nat) : Int) + (ProcessGoatGasFee AddBalance statedb fee).2 = fee ∧
    (ProcessGoatGasFee AddBalance statedb (0 : Nat)).2 = 0 ∧
    (ProcessGoatGasFee AddBalance statedb (10000 : Nat)).2 = 9800 ∧
    (10000 * 200 / 10000 : Nat) = 200 ∧
    (ProcessGoatGasFee AddBalance statedb (1 : Nat)).2 = 1 ∧
    (1 * 200 / 10000 : Nat) = 0 := by
  have hle := fee_tax_le fee
  refine ⟨?_, ?_, ?_, ?_, by norm_num, ?_, by norm_num⟩
  · rw [ProcessGoatGasFee_eq]
    simp only
    omega
  · rw [ProcessGoatGasFee_eq]
    simp only
    omega
  · rw [ProcessGoatGasFee_eq]
    simp
  · rw [ProcessGoatGasFee_eq]
    norm_num
  · rw [ProcessGoatGasFee_eq]
    norm_num

/-- C12, as stated, fails: for the fee `2^257` the remainder `fee - tax` is not below `2^256`,
and the amount credited to the locking account is the remainder less `2^256` (the low 256 bits
that `uint256.FromBig` keeps), not the remainder. -/
theorem C12_credit_differs_for_large_fee :
    (ProcessGoatGasFee recordCredit [] ((2 ^ 257 : Nat) : Int)).1 =
      [⟨GoatFoundationContract, 2 ^ 257 * 200 / 10000, .BalanceIncreaseRewardTransactionFee⟩,
       ⟨LockingContract, 2 ^ 257 - 2 ^ 257 * 200 / 10000 - 2 ^ 256,
        .BalanceIncreaseRewardTransactionFee⟩] ∧
    (2 ^ 257 - 2 ^ 257 * 200 / 10000 - 2 ^ 256 : Nat) ≠ 2 ^ 257 - 2 ^ 257 * 200 / 10000 := by
  constructor
  · rw [ProcessGoatGasFee_eq]
    norm_num [recordCredit]
  · norm_num

/-- C12, amended: on the state seen as the sequence of credit calls, for every fee whose
remainder `fee - tax` is below `2^256` (every fee below `2^256` in particular), with
`tax = floor(fee * 200 / 10000)`: no credit is issued for fee 0; otherwise the calls are the
credit of `tax` to the foundation account, issued if and only if `tax ≠ 0`, followed by the
credit of the remainder to the locking account, issued if and only if it is not 0, and no other
call; the amounts credited add up to the fee, and the remainder is the value returned. -/
theorem C12_fee_split_credits (calls : List Credit) (fee : Nat)
    (hfit : fee - fee * 200 / 10000 < 2 ^ 256) :
    (ProcessGoatGasFee recordCredit calls fee).1 =
      calls ++
      (if fee * 200 / 10000 ≠ 0 then
        [⟨GoatFoundationContract, fee * 200 / 10000, .BalanceIncreaseRewardTransactionFee⟩]
       else []) ++
      (if fee - fee * 200 / 10000 ≠ 0 then
        [⟨LockingContract, fee - fee * 200 / 10000, .BalanceIncreaseRewardTransactionFee⟩]
       else []) ∧
    (fee = 0 → (ProcessGoatGasFee recordCredit calls fee).1 = calls) ∧
    (((ProcessGoatGasFee recordCredit calls fee).1.drop calls.length).map Credit.amount).sum
      = fee ∧
    (ProcessGoatGasFee recordCredit calls fee).2 = ((fee - fee * 200 / 10000 : Nat) : Int) := by
  have hle := fee_tax_le fee
  have htax : fee * 200 / 10000 < 2 ^ 256 := by omega
  have h1 : fee * 200 / 10000 % 2 ^ 256 = fee * 200 / 10000 := Nat.mod_eq_of_lt htax
  have h2 : (fee - fee * 200 / 10000) % 2 ^ 256 = fee - fee * 200 / 10000 :=
    Nat.mod_eq_of_lt hfit
  have hcalls : (ProcessGoatGasFee recordCredit calls fee).1 =
      calls ++
      (if fee * 200 / 10000 ≠ 0 then
        [⟨GoatFoundationContract, fee * 200 / 10000, .BalanceIncreaseRewardTransactionFee⟩]
       else []) ++
      (if fee - fee * 200 / 10000 ≠ 0 then
        [⟨LockingContract, fee - fee * 200 / 10000, .BalanceIncreaseRewardTransactionFee⟩]
       else []) := by
    rw [ProcessGoatGasFee_eq]
    simp only [h1, h2, recordCredit]
    split_ifs <;> simp
  refine ⟨hcalls, ?_, ?_, ?_⟩
  · intro h0
    subst h0
    rw [hcalls]
    simp
  · rw [hcalls, List.append_assoc, List.drop_left]
    split_ifs with ht hr <;> simp <;> omega
  · rw [ProcessGoatGasFee_eq]

/-- C12 amended at fee 10000, from the empty sequence of calls: 200 to the foundation account,
then 9800 to the locking account. -/
theorem C12_fee_split_credits_witness :
    (ProcessGoatGasFee recordCredit [] ((10000 : Nat) : Int)).1 =
      [⟨GoatFoundationContract, 200, .BalanceIncreaseRewardTransactionFee⟩,
       ⟨LockingContract, 9800, .BalanceIncreaseRewardTransactionFee⟩] := by
  have h := (C12_fee_split_credits [] 10000 (by norm_num)).1
  simpa using h


/-! ## UnpackIntoWithdrawRequest, check by check -/

section WithdrawEvent

theorem IsUint64_SetBytes (b : Bytes) : IsUint64 (SetBytes b) = decide (fromBE b < 2 ^ 64) := by
  simp only [IsUint64, SetBytes, Int.ofNat_eq_coe]
  congr 1
  apply propext
  constructor
  · intro h; exact_mod_cast h.2
  · intro h; exact ⟨by positivity, by exact_mod_cast h⟩

theorem index_of_getElem? {α : Type} (l : List α) (i : Nat) (a : α) (h : l[i]? = some a) :
    index l i = .ok a := by
  simp [index, h]

theorem UnpackIntoWithdrawRequest_eq (topics : List Bytes) (data t1 : Bytes)
    (ht : topics.length = 3) (h1 : topics[1]? = some t1) (hd : 192 ≤ data.length)
    (hm : data.length % 32 = 0) :
    UnpackIntoWithdrawRequest topics data =
      if ¬ IsUint64 (SetBytes t1) = true then Res.err "withdrawal id is too large"
      else if ¬ IsUint64 ((SetBytes ((data.take 32).drop 0)).ediv satoshi) = true then
        Res.err ("withdrawal amount is too large: "
          ++ toString ((SetBytes ((data.take 32).drop 0)).ediv satoshi))
      else if BitLen ((SetBytes ((data.take 32).drop 0)).emod satoshi) ≠ 0 then
        Res.err ("withdrawal amount has dust: "
          ++ toString ((SetBytes ((data.take 32).drop 0)).emod satoshi))
      else if ¬ IsUint64 (SetBytes ((data.take 96).drop 64)) = true then
        Res.err ("max tx price is too large: " ++ toString (SetBytes ((data.take 96).drop 64)))
      else if SetBytes ((data.take 128).drop 96) ≠ withdrawalReqAddrLoc then
        Res.err ("address location in the withdraw event should be 128 but goat "
          ++ toString (SetBytes ((data.take 128).drop 96)))
      else if Int64 (SetBytes ((data.take 160).drop 128)) > 90 then
        Res.err "address length too large"
      else if ((data.drop 160).length : Int) < Int64 (SetBytes ((data.take 160).drop 128)) then
        Res.err "address slice is out of range"
      else
        (sliceInt data 160 (160 + Int64 (SetBytes ((data.take 160).drop 128)))).bind
          fun address => Res.ok
            { Id := Uint64 (SetBytes t1)
              Amount := Uint64 ((SetBytes ((data.take 32).drop 0)).ediv satoshi)
              TxPrice := Uint64 (SetBytes ((data.take 96).drop 64))
              Address := address } := by
  have hi := index_of_getElem? topics 1 t1 h1
  have s0 := slice_ok data 0 32 (by omega) (by omega)
  have s2 := slice_ok data 64 96 (by omega) (by omega)
  have s3 := slice_ok data 96 128 (by omega) (by omega)
  have s4 := slice_ok data 128 160 (by omega) (by omega)
  have s5 := sliceFrom_eq data 160 (by omega)
  have hshape : ¬ (data.length < 192 ∨ data.length % 32 ≠ 0) := by omega
  unfold UnpackIntoWithdrawRequest
  rw [if_neg (by omega : ¬ topics.length ≠ 3)]
  simp only []
  rw [if_neg hshape]
  rw [hi, Res.ok_bind, s0, Res.ok_bind, s2, Res.ok_bind, s3, Res.ok_bind, s4, Res.ok_bind, s5, Res.ok_bind]
  rfl

end WithdrawEvent

section WithdrawEventCases

theorem SetBytes_ediv (b : Bytes) :
    (SetBytes b).ediv satoshi = ((fromBE b / 10 ^ 10 : Nat) : Int) := by
  simp only [SetBytes, satoshi, Int.ofNat_eq_coe]
  norm_cast

theorem SetBytes_emod (b : Bytes) :
    (SetBytes b).emod satoshi = ((fromBE b % 10 ^ 10 : Nat) : Int) := by
  simp only [SetBytes, satoshi, Int.ofNat_eq_coe]
  norm_cast

theorem IsUint64_natCast (n : Nat) : IsUint64 (n : Int) = decide (n < 2 ^ 64) := by
  simp only [IsUint64]
  congr 1
  apply propext
  constructor
  · intro h; exact_mod_cast h.2
  · intro h; exact ⟨by positivity, by exact_mod_cast h⟩

theorem BitLen_natCast (n : Nat) : BitLen (n : Int) = 0 ↔ n = 0 := by
  rw [BitLen_eq_zero]
  exact_mod_cast Iff.rfl

theorem Uint64_natCast (n : Nat) : Uint64 (n : Int) = n % 2 ^ 64 := by
  simp [Uint64]

theorem Uint64_SetBytes (b : Bytes) : Uint64 (SetBytes b) = fromBE b % 2 ^ 64 := by
  simp [Uint64, SetBytes]

theorem SetBytes_eq_iff (b : Bytes) (n : Nat) : SetBytes b = (n : Int) ↔ fromBE b = n := by
  simp only [SetBytes, Int.ofNat_eq_coe]
  exact_mod_cast Iff.rfl

theorem Int64_natCast_of_lt (n : Nat) (h : n < 2 ^ 63) : Int64 (n : Int) = n := by
  have h1 : (n : Int) % 2 ^ 64 = n := by
    apply Int.emod_eq_of_lt
    · positivity
    · have : (n : Int) < 2 ^ 63 := by exact_mod_cast h
      linarith [show (2 : Int) ^ 63 < 2 ^ 64 by norm_num]
  have h2 : (n : Int) < 2 ^ 63 := by exact_mod_cast h
  simp only [Int64, h1, h2, if_true]

theorem word_zero (data : Bytes) : word data 0 = fromBE ((data.take 32).drop 0) := rfl

theorem word_two (data : Bytes) : word data 2 = fromBE ((data.take 96).drop 64) := rfl

theorem word_three (data : Bytes) : word data 3 = fromBE ((data.take 128).drop 96) := rfl

theorem word_four (data : Bytes) : word data 4 = fromBE ((data.take 160).drop 128) := rfl

/-- The checks of UnpackIntoWithdrawRequest on the words of the event, once the shape of topics
and data is accepted. -/
theorem UnpackIntoWithdrawRequest_fields (topics : List Bytes) (data t1 : Bytes)
    (ht : topics.length = 3) (h1 : topics[1]? = some t1) (hd : 192 ≤ data.length)
    (hm : data.length % 32 = 0) :
    ((¬ fromBE t1 < 2 ^ 64 ∨ ¬ word data 0 / 10 ^ 10 < 2 ^ 64 ∨ word data 0 % 10 ^ 10 ≠ 0 ∨
        ¬ word data 2 < 2 ^ 64 ∨ word data 3 ≠ 128) →
      (UnpackIntoWithdrawRequest topics data).isErr = true) ∧
    (fromBE t1 < 2 ^ 64 → word data 0 / 10 ^ 10 < 2 ^ 64 → word data 0 % 10 ^ 10 = 0 →
      word data 2 < 2 ^ 64 → word data 3 = 128 →
      UnpackIntoWithdrawRequest topics data =
        if Int64 (word data 4 : Int) > 90 then Res.err "address length too large"
        else if ((data.length - 160 : Nat) : Int) < Int64 (word data 4 : Int) then
          Res.err "address slice is out of range"
        else
          (sliceInt data 160 (160 + Int64 (word data 4 : Int))).bind fun address =>
            Res.ok
              { Id := fromBE t1
                Amount := word data 0 / 10 ^ 10
                TxPrice := word data 2
                Address := address }) := by
  have hloc : ∀ b : Bytes, SetBytes b ≠ withdrawalReqAddrLoc ↔ fromBE b ≠ 128 := by
    intro b
    have := SetBytes_eq_iff b 128
    simp only [withdrawalReqAddrLoc]
    exact not_congr (by exact_mod_cast this)
  have hset : ∀ b : Bytes, SetBytes b = (fromBE b : Int) := fun b => rfl
  rw [UnpackIntoWithdrawRequest_eq topics data t1 ht h1 hd hm]
  simp only [word_zero, word_two, word_three, word_four, IsUint64_SetBytes, SetBytes_ediv,
    SetBytes_emod, IsUint64_natCast, ne_eq, BitLen_natCast, hloc, Uint64_SetBytes,
    Uint64_natCast, decide_eq_true_eq, List.length_drop]
  simp only [hset]
  constructor
  · intro h
    split_ifs <;> first | (exfalso; omega) | rfl
  · intro h1 h2 h3 h4 h5
    rw [if_neg (not_not.mpr h1), if_neg (not_not.mpr h2), if_neg (not_not.mpr h3),
      if_neg (not_not.mpr h4), if_neg (not_not.mpr h5), Nat.mod_eq_of_lt h1,
      Nat.mod_eq_of_lt h2, Nat.mod_eq_of_lt h4]

end WithdrawEventCases


/-! ## Claims C13 – C15: the Withdraw event decoder -/

section WithdrawClaims

theorem getElem?_one_of_length (topics : List Bytes) (h : topics.length = 3) :
    topics[1]? = some (topics.getD 1 []) := by
  match topics, h with
  | [_, b, _], _ => rfl

theorem withdraw_err_of_topics (topics : List Bytes) (data : Bytes) (h : topics.length ≠ 3) :
    (UnpackIntoWithdrawRequest topics data).isErr = true := by
  unfold UnpackIntoWithdrawRequest
  rw [if_pos h]
  rfl

theorem withdraw_err_of_data (topics : List Bytes) (data : Bytes)
    (h : data.length < 192 ∨ data.length % 32 ≠ 0) :
    (UnpackIntoWithdrawRequest topics data).isErr = true := by
  by_cases ht : topics.length ≠ 3
  · exact withdraw_err_of_topics topics data ht
  · unfold UnpackIntoWithdrawRequest
    rw [if_neg ht]
    simp only []
    rw [if_pos h]
    rfl

/-- Every violated check of a field gives an error, whatever the rest of the event. -/
theorem withdraw_err_of_field (topics : List Bytes) (data : Bytes)
    (h : ¬ topicValue topics 1 < 2 ^ 64 ∨ ¬ word data 0 / 10 ^ 10 < 2 ^ 64 ∨
      word data 0 % 10 ^ 10 ≠ 0 ∨ ¬ word data 2 < 2 ^ 64 ∨ word data 3 ≠ 128) :
    (UnpackIntoWithdrawRequest topics data).isErr = true := by
  by_cases ht : topics.length = 3
  · by_cases hd : data.length < 192 ∨ data.length % 32 ≠ 0
    · exact withdraw_err_of_data topics data hd
    · exact (UnpackIntoWithdrawRequest_fields topics data _ ht
        (getElem?_one_of_length topics ht) (by omega) (by omega)).1 h
  · exact withdraw_err_of_topics topics data ht

/-- A successful call passed every check, and its result is read off the words of the event. -/
theorem withdraw_ok (topics : List Bytes) (data : Bytes) (req : WithdrawalRequest)
    (h : UnpackIntoWithdrawRequest topics data = .ok req) :
    topics.length = 3 ∧ 192 ≤ data.length ∧ data.length % 32 = 0 ∧
    topicValue topics 1 < 2 ^ 64 ∧ word data 0 / 10 ^ 10 < 2 ^ 64 ∧ word data 0 % 10 ^ 10 = 0 ∧
    word data 2 < 2 ^ 64 ∧ word data 3 = 128 ∧
    req.Id = topicValue topics 1 ∧ req.Amount = word data 0 / 10 ^ 10 ∧
    req.TxPrice = word data 2 ∧
    Int64 (word data 4 : Int) ≤ 90 ∧
    sliceInt data 160 (160 + Int64 (word data 4 : Int)) = .ok req.Address := by
  have hne : (UnpackIntoWithdrawRequest topics data).isErr ≠ true := by rw [h]; simp [Res.isErr]
  have ht : topics.length = 3 := by
    by_contra hc
    exact hne (withdraw_err_of_topics topics data hc)
  have hd : ¬ (data.length < 192 ∨ data.length % 32 ≠ 0) := fun hc =>
    hne (withdraw_err_of_data topics data hc)
  have hf : ¬ (¬ topicValue topics 1 < 2 ^ 64 ∨ ¬ word data 0 / 10 ^ 10 < 2 ^ 64 ∨
      word data 0 % 10 ^ 10 ≠ 0 ∨ ¬ word data 2 < 2 ^ 64 ∨ word data 3 ≠ 128) := fun hc =>
    hne (withdraw_err_of_field topics data hc)
  have h1 : topicValue topics 1 < 2 ^ 64 := by
    by_contra hc; exact hf (Or.inl hc)
  have h2 : word data 0 / 10 ^ 10 < 2 ^ 64 := by
    by_contra hc; exact hf (Or.inr (Or.inl hc))
  have h3 : word data 0 % 10 ^ 10 = 0 := by
    by_contra hc; exact hf (Or.inr (Or.inr (Or.inl hc)))
  have h4 : word data 2 < 2 ^ 64 := by
    by_contra hc; exact hf (Or.inr (Or.inr (Or.inr (Or.inl hc))))
  have h5 : word data 3 = 128 := by
    by_contra hc; exact hf (Or.inr (Or.inr (Or.inr (Or.inr hc))))
  have htail := (UnpackIntoWithdrawRequest_fields topics data _ ht
    (getElem?_one_of_length topics ht) (by omega) (by omega)).2 h1 h2 h3 h4 h5
  rw [htail] at h
  split_ifs at h with c1 c2
  cases hs : sliceInt data 160 (160 + Int64 (word data 4 : Int)) with
  | panic => rw [hs] at h; simp [Res.bind] at h
  | err e => rw [hs] at h; simp [Res.bind] at h
  | ok address =>
    rw [hs] at h
    simp only [Res.bind, Res.ok.injEq] at h
    subst h
    exact ⟨ht, by omega, by omega, h1, h2, h3, h4, h5, rfl, rfl, rfl, by omega, rfl⟩

theorem withdraw_address_ok (data : Bytes) (w : Nat) (h6 : w ≤ 90)
    (h7 : w ≤ data.length - 160) (hd : 192 ≤ data.length) :
    ¬ (Int64 (w : Int) > 90) ∧ ¬ (((data.length - 160 : Nat) : Int) < Int64 (w : Int)) ∧
    sliceInt data 160 (160 + Int64 (w : Int)) = .ok ((data.take (160 + w)).drop 160) := by
  have hL : Int64 (w : Int) = (w : Int) :=
    Int64_natCast_of_lt _ (lt_of_le_of_lt h6 (by norm_num))
  rw [hL]
  refine ⟨by omega, by omega, ?_⟩
  have hb : (0 : Int) ≤ 160 ∧ (160 : Int) ≤ 160 + (w : Int) ∧
      160 + (w : Int) ≤ (data.length : Int) := by omega
  have hn : (160 + (w : Int)).toNat = 160 + w := by omega
  unfold sliceInt
  rw [if_pos hb, hn]
  rfl

/-- A well-formed event whose amount passes the two checks is unpacked. -/
theorem withdraw_ok_of_shape (topics : List Bytes) (data : Bytes)
    (hshape : withdrawEventShape topics data) (hdust : word data 0 % 10 ^ 10 = 0)
    (hfit : word data 0 / 10 ^ 10 < 2 ^ 64) :
    UnpackIntoWithdrawRequest topics data = .ok
      { Id := topicValue topics 1
        Amount := word data 0 / 10 ^ 10
        TxPrice := word data 2
        Address := (data.take (160 + word data 4)).drop 160 } := by
  obtain ⟨ht, h1, hd, hm, h4, h5, h6, h7⟩ := hshape
  have htail := (UnpackIntoWithdrawRequest_fields topics data _ ht
    (getElem?_one_of_length topics ht) hd hm).2 h1 hfit hdust h4 h5
  obtain ⟨c1, c2, hs⟩ := withdraw_address_ok data (word data 4) h6 h7 hd
  rw [htail, if_neg c1, if_neg c2, hs]
  rfl

end WithdrawClaims


/-- C13: with `a` the big-endian value of `data[0:32]`, UnpackIntoWithdrawRequest returns an
error when `a mod 10^10 ≠ 0` and when `a / 10^10 ≥ 2^64` (on every event, well formed or not),
and on an event that is otherwise well formed (3 topics, id and price below `2^64`, valid data
shape) it succeeds otherwise, with `Amount = a / 10^10`. -/
theorem C13_withdraw_dust_and_range (topics : List Bytes) (data : Bytes) :
    (word data 0 % 10 ^ 10 ≠ 0 → ∃ e, UnpackIntoWithdrawRequest topics data = .err e) ∧
    (2 ^ 64 ≤ word data 0 / 10 ^ 10 → ∃ e, UnpackIntoWithdrawRequest topics data = .err e) ∧
    (withdrawEventShape topics data → word data 0 % 10 ^ 10 = 0 →
      word data 0 / 10 ^ 10 < 2 ^ 64 →
      ∃ req, UnpackIntoWithdrawRequest topics data = .ok req ∧
        req.Amount = word data 0 / 10 ^ 10) := by
  refine ⟨fun h => ?_, fun h => ?_, fun hshape hdust hfit => ?_⟩
  · exact (Res.isErr_iff _).1
      (withdraw_err_of_field topics data (Or.inr (Or.inr (Or.inl h))))
  · exact (Res.isErr_iff _).1
      (withdraw_err_of_field topics data (Or.inr (Or.inl (not_lt.mpr h))))
  · exact ⟨_, withdraw_ok_of_shape topics data hshape hdust hfit, rfl⟩

set_option maxRecDepth 100000 in
/-- C13 on a sample event: the amount `12345 * 10^10 + 1` is rejected, the amount
`12345 * 10^10` is unpacked as 12345. -/
theorem C13_withdraw_dust_and_range_witness :
    (∃ e, UnpackIntoWithdrawRequest sampleWithdrawTopics
      (sampleWithdrawData (12345 * 10 ^ 10 + 1) 4) = .err e) ∧
    (∃ req, UnpackIntoWithdrawRequest sampleWithdrawTopics
      (sampleWithdrawData (12345 * 10 ^ 10) 4) = .ok req ∧ req.Amount = 12345) :=
  ⟨(C13_withdraw_dust_and_range sampleWithdrawTopics
      (sampleWithdrawData (12345 * 10 ^ 10 + 1) 4)).1 (by decide),
   (C13_withdraw_dust_and_range sampleWithdrawTopics
      (sampleWithdrawData (12345 * 10 ^ 10) 4)).2.2 (by decide) (by decide) (by decide)⟩

/-- C14: UnpackIntoWithdrawRequest returns an error whenever the topic count is not 3, or
`len(data) < 192`, or `len(data)` is not a multiple of 32, or the value of `data[96:128]` is not
128, or the id (topic 1) or the max tx price (`data[64:96]`) is not below `2^64`; on success Id
is the value of topic 1 and TxPrice the value of `data[64:96]`. -/
theorem C14_withdraw_shape (topics : List Bytes) (data : Bytes) :
    (topics.length ≠ 3 → ∃ e, UnpackIntoWithdrawRequest topics data = .err e) ∧
    (data.length < 192 → ∃ e, UnpackIntoWithdrawRequest topics data = .err e) ∧
    (data.length % 32 ≠ 0 → ∃ e, UnpackIntoWithdrawRequest topics data = .err e) ∧
    (word data 3 ≠ 128 → ∃ e, UnpackIntoWithdrawRequest topics data = .err e) ∧
    (2 ^ 64 ≤ topicValue topics 1 → ∃ e, UnpackIntoWithdrawRequest topics data = .err e) ∧
    (2 ^ 64 ≤ word data 2 → ∃ e, UnpackIntoWithdrawRequest topics data = .err e) ∧
    (∀ req, UnpackIntoWithdrawRequest topics data = .ok req →
      req.Id = topicValue topics 1 ∧ req.TxPrice = word data 2) := by
  refine ⟨fun h => ?_, fun h => ?_, fun h => ?_, fun h => ?_, fun h => ?_, fun h => ?_,
    fun req h => ?_⟩
  · exact (Res.isErr_iff _).1 (withdraw_err_of_topics topics data h)
  · exact (Res.isErr_iff _).1 (withdraw_err_of_data topics data (Or.inl h))
  · exact (Res.isErr_iff _).1 (withdraw_err_of_data topics data (Or.inr h))
  · exact (Res.isErr_iff _).1
      (withdraw_err_of_field topics data (Or.inr (Or.inr (Or.inr (Or.inr h)))))
  · exact (Res.isErr_iff _).1 (withdraw_err_of_field topics data (Or.inl (not_lt.mpr h)))
  · exact (Res.isErr_iff _).1
      (withdraw_err_of_field topics data (Or.inr (Or.inr (Or.inr (Or.inl (not_lt.mpr h))))))
  · obtain ⟨_, _, _, _, _, _, _, _, hid, _, hprice, _⟩ := withdraw_ok topics data req h
    exact ⟨hid, hprice⟩

set_option maxRecDepth 100000 in
/-- C14 on sample events: two topics are rejected, and the sample event with three topics is
unpacked with Id 1 and TxPrice 7. -/
theorem C14_withdraw_shape_witness :
    (∃ e, UnpackIntoWithdrawRequest [WithdrawEventTopic, toBE 32 1]
      (sampleWithdrawData (12345 * 10 ^ 10) 4) = .err e) ∧
    ((⟨1, 12345, 7, [1, 2, 3, 4]⟩ : WithdrawalRequest).Id = topicValue sampleWithdrawTopics 1 ∧
     (⟨1, 12345, 7, [1, 2, 3, 4]⟩ : WithdrawalRequest).TxPrice
      = word (sampleWithdrawData (12345 * 10 ^ 10) 4) 2) :=
  ⟨(C14_withdraw_shape [WithdrawEventTopic, toBE 32 1]
      (sampleWithdrawData (12345 * 10 ^ 10) 4)).1 (by decide),
   (C14_withdraw_shape sampleWithdrawTopics
      (sampleWithdrawData (12345 * 10 ^ 10) 4)).2.2.2.2.2.2 _ (by decide)⟩

set_option maxRecDepth 100000 in
/-- C15, the code at the failing inputs: with the address length word `2^63` (more than 90) the
call panics on the slice `data[160 : 160 + addrLenInt64]`, and with the address length word
`2^64` it succeeds with the empty address; in both cases the claim requires an error. -/
theorem C15_withdraw_address_length_wraps :
    word (sampleWithdrawData (12345 * 10 ^ 10) (2 ^ 63)) 4 = 2 ^ 63 ∧
    UnpackIntoWithdrawRequest sampleWithdrawTopics
      (sampleWithdrawData (12345 * 10 ^ 10) (2 ^ 63)) = .panic ∧
    word (sampleWithdrawData (12345 * 10 ^ 10) (2 ^ 64)) 4 = 2 ^ 64 ∧
    UnpackIntoWithdrawRequest sampleWithdrawTopics
      (sampleWithdrawData (12345 * 10 ^ 10) (2 ^ 64)) = .ok ⟨1, 12345, 7, []⟩ := by
  refine ⟨by decide, by decide, by decide, by decide⟩


/-! ## The loop of DecodeRequests, entry by entry -/

section BulkDecode

theorem DecodeRequests_loop_cons (input : Bytes) (rest : List Bytes) (d : DecodeResult) :
    DecodeRequests.loop (input :: rest) d.bridge d.relayer d.locking =
      if input.length ≤ 1 then
        some ⟨d.bridge, d.relayer, d.locking, some "typed request too short"⟩
      else
        match selectDecode input with
        | none =>
          some ⟨d.bridge, d.relayer, d.locking,
            some ("request type " ++ toString (input.getD 0 0).val ++ " not supported")⟩
        | some .panic => none
        | some (.err e) => some ⟨d.bridge, d.relayer, d.locking, some e⟩
        | some (.ok req) =>
          DecodeRequests.loop rest (d.push req).bridge (d.push req).relayer
            (d.push req).locking := by
  rw [DecodeRequests.loop]
  by_cases hl : input.length ≤ 1
  · rw [if_pos hl, if_pos hl]
  · rw [if_neg hl, if_neg hl]
    cases input with
    | nil => simp at hl
    | cons tag tl =>
      simp only [selectDecode, List.getElem?_cons_zero, List.getD_cons_zero]
      by_cases h0 : tag = GasRequestType
      · rw [if_pos h0, if_pos h0]
        cases GasRequest.new.Decode (tag :: tl) <;> rfl
      rw [if_neg h0, if_neg h0]
      by_cases h1 : tag = WithdrawalRequestType
      · rw [if_pos h1, if_pos h1]
        cases WithdrawalRequest.new.Decode (tag :: tl) <;> rfl
      rw [if_neg h1, if_neg h1]
      by_cases h2 : tag = ReplaceByFeeRequestType
      · rw [if_pos h2, if_pos h2]
        cases ReplaceByFeeRequest.new.Decode (tag :: tl) <;> rfl
      rw [if_neg h2, if_neg h2]
      by_cases h3 : tag = Cancel1RequestType
      · rw [if_pos h3, if_pos h3]
        cases Cancel1Request.new.Decode (tag :: tl) <;> rfl
      rw [if_neg h3, if_neg h3]
      by_cases h4 : tag = CreateRequestType
      · rw [if_pos h4, if_pos h4]
        cases CreateRequest.new.Decode (tag :: tl) <;> rfl
      rw [if_neg h4, if_neg h4]
      by_cases h5 : tag = LockRequestType
      · rw [if_pos h5, if_pos h5]
        cases LockRequest.new.Decode (tag :: tl) <;> rfl
      rw [if_neg h5, if_neg h5]
      by_cases h6 : tag = UnlockRequestType
      · rw [if_pos h6, if_pos h6]
        cases UnlockRequest.new.Decode (tag :: tl) <;> rfl
      rw [if_neg h6, if_neg h6]
      by_cases h7 : tag = ClaimRequestType
      · rw [if_pos h7, if_pos h7]
        cases ClaimRequest.new.Decode (tag :: tl) <;> rfl
      rw [if_neg h7, if_neg h7]
      by_cases h8 : tag = UpdateTokenWeightRequestType
      · rw [if_pos h8, if_pos h8]
        cases UpdateTokenWeightRequest.new.Decode (tag :: tl) <;> rfl
      rw [if_neg h8, if_neg h8]
      by_cases h9 : tag = UpdateTokenThresholdRequestType
      · rw [if_pos h9, if_pos h9]
        cases UpdateTokenThresholdRequest.new.Decode (tag :: tl) <;> rfl
      rw [if_neg h9, if_neg h9]
      by_cases h10 : tag = GrantRequestType
      · rw [if_pos h10, if_pos h10]
        cases GrantRequest.new.Decode (tag :: tl) <;> rfl
      rw [if_neg h10, if_neg h10]
      by_cases h11 : tag = AddVoterRequestType
      · rw [if_pos h11, if_pos h11]
        cases AddVoterRequest.new.Decode (tag :: tl) <;> rfl
      rw [if_neg h11, if_neg h11]
      by_cases h12 : tag = RemoveVoterRequestType
      · rw [if_pos h12, if_pos h12]
        cases RemoveVoterRequest.new.Decode (tag :: tl) <;> rfl
      rw [if_neg h12, if_neg h12]

end BulkDecode


/-! ## Decode accepts every input of the right length and tag -/

section DecodeTotal

theorem index_zero_of_head {α : Type} (b : List α) (a : α) (h : b.head? = some a) :
    index b 0 = .ok a := by
  cases b with
  | nil => simp at h
  | cons t l =>
    simp only [List.head?_cons, Option.some.injEq] at h
    subst h
    exact index_cons_zero _ _

theorem DecodeUint64_one (data : Bytes) (h : data.length = 8) :
    DecodeUint64 data 1 = .ok [fromLE (data.take 8)] := by
  have h1 := DecodeUint64_ok data 1 (by omega)
  have h2 : List.range 1 = [0] := rfl
  rw [h2] at h1
  simpa using h1

theorem DecodeUint64_two (data : Bytes) (h : data.length = 16) :
    DecodeUint64 data 2 = .ok [fromLE (data.take 8), fromLE ((data.drop 8).take 8)] := by
  have h1 := DecodeUint64_ok data 2 (by omega)
  have h2 : List.range 2 = [0, 1] := rfl
  rw [h2] at h1
  simpa using h1

theorem DecodeUint64_three_eq (data : Bytes) (h : data.length = 24) :
    DecodeUint64 data 3 = .ok [fromLE (data.take 8), fromLE ((data.drop 8).take 8),
      fromLE ((data.drop 16).take 8)] := by
  have h1 := DecodeUint64_ok data 3 (by omega)
  have h2 : List.range 3 = [0, 1, 2] := rfl
  rw [h2] at h1
  simpa using h1

theorem GasRequest_decode_ok (r : GasRequest) (b : Bytes) (hl : b.length = 41)
    (ht : b.head? = some GasRequestType) : ∃ v, r.Decode b = .ok v := by
  have h0 := index_zero_of_head b _ ht
  have s1 := slice_ok b 1 9 (by omega) (by omega)
  have s2 := sliceFrom_eq b 9 (by omega)
  have hd := DecodeUint64_one ((b.take 9).drop 1) (by simp; omega)
  simp only [GasRequest.Decode, GasRequest.RequestType, hl, h0, s1, s2, hd, ne_eq,
    not_true_eq_false, if_false, Res.ok_bind, Res.pure_eq, index_cons_zero]
  exact ⟨_, rfl⟩

theorem UnlockRequest_decode_ok (r : UnlockRequest) (b : Bytes) (hl : b.length = 101)
    (ht : b.head? = some UnlockRequestType) : ∃ v, r.Decode b = .ok v := by
  have h0 := index_zero_of_head b _ ht
  have s1 := slice_ok b 1 9 (by omega) (by omega)
  have hd := DecodeUint64_one ((b.take 9).drop 1) (by simp; omega)
  have s2 := sliceFrom_eq b 9 (by omega)
  have s3 := slice_ok (b.drop 9) 0 20 (by omega) (by simp; omega)
  have s4 := sliceFrom_eq (b.drop 9) 20 (by simp; omega)
  have s5 := slice_ok ((b.drop 9).drop 20) 0 20 (by omega) (by simp; omega)
  have s6 := sliceFrom_eq ((b.drop 9).drop 20) 20 (by simp; omega)
  have s7 := slice_ok (((b.drop 9).drop 20).drop 20) 0 20 (by omega) (by simp; omega)
  have s8 := sliceFrom_eq (((b.drop 9).drop 20).drop 20) 20 (by simp; omega)
  simp only [UnlockRequest.Decode, UnlockRequest.RequestType, hl, h0, s1, s2, s3, s4, s5, s6,
    s7, s8, hd, ne_eq, not_true_eq_false, if_false, Res.ok_bind, Res.pure_eq, index_cons_zero]
  exact ⟨_, rfl⟩

theorem ReplaceByFeeRequest_decode_ok (r : ReplaceByFeeRequest) (b : Bytes) (hl : b.length = 17)
    (ht : b.head? = some ReplaceByFeeRequestType) : ∃ v, r.Decode b = .ok v := by
  have h0 := index_zero_of_head b _ ht
  have s0 := sliceFrom_eq b 1 (by omega)
  have d0 := DecodeUint64_two (b.drop 1) (by simp; omega)
  simp only [ReplaceByFeeRequest.Decode, ReplaceByFeeRequest.RequestType, hl, h0, s0, d0, ne_eq,
    not_true_eq_false, if_false, Res.ok_bind, Res.pure_eq, index_cons_zero,
    index_cons_succ]
  exact ⟨_, rfl⟩

theorem Cancel1Request_decode_ok (r : Cancel1Request) (b : Bytes) (hl : b.length = 9)
    (ht : b.head? = some Cancel1RequestType) : ∃ v, r.Decode b = .ok v := by
  have h0 := index_zero_of_head b _ ht
  have s0 := sliceFrom_eq b 1 (by omega)
  have d0 := DecodeUint64_one (b.drop 1) (by simp; omega)
  simp only [Cancel1Request.Decode, Cancel1Request.RequestType, hl, h0, s0, d0, ne_eq,
    not_true_eq_false, if_false, Res.ok_bind, Res.pure_eq, index_cons_zero,
    index_cons_succ]
  exact ⟨_, rfl⟩

theorem CreateRequest_decode_ok (r : CreateRequest) (b : Bytes) (hl : b.length = 85)
    (ht : b.head? = some CreateRequestType) : ∃ v, r.Decode b = .ok v := by
  have h0 := index_zero_of_head b _ ht
  have s0 := slice_ok b 1 21 (by omega) (by omega)
  have s1 := sliceFrom_eq b 21 (by omega)
  have ha : ¬ (b.drop 21).length < 64 := by simp; omega
  simp only [CreateRequest.Decode, CreateRequest.RequestType, hl, h0, s0, s1, ha, ne_eq,
    not_true_eq_false, if_false, Res.ok_bind, Res.pure_eq, index_cons_zero,
    index_cons_succ, toArray]
  exact ⟨_, rfl⟩

theorem LockRequest_decode_ok (r : LockRequest) (b : Bytes) (hl : b.length = 73)
    (ht : b.head? = some LockRequestType) : ∃ v, r.Decode b = .ok v := by
  have h0 := index_zero_of_head b _ ht
  have s0 := slice_ok b 1 21 (by omega) (by omega)
  have s1 := sliceFrom_eq b 21 (by omega)
  have s2 := slice_ok (b.drop 21) 0 20 (by omega) (by simp; omega)
  have s3 := sliceFrom_eq (b.drop 21) 20 (by simp; omega)
  simp only [LockRequest.Decode, LockRequest.RequestType, hl, h0, s0, s1, s2, s3, ne_eq,
    not_true_eq_false, if_false, Res.ok_bind, Res.pure_eq, index_cons_zero,
    index_cons_succ]
  exact ⟨_, rfl⟩

theorem ClaimRequest_decode_ok (r : ClaimRequest) (b : Bytes) (hl : b.length = 49)
    (ht : b.head? = some ClaimRequestType) : ∃ v, r.Decode b = .ok v := by
  have h0 := index_zero_of_head b _ ht
  have s0 := slice_ok b 1 9 (by omega) (by omega)
  have s1 := sliceFrom_eq b 9 (by omega)
  have s2 := slice_ok (b.drop 9) 0 20 (by omega) (by simp; omega)
  have s3 := sliceFrom_eq (b.drop 9) 20 (by simp; omega)
  have d0 := DecodeUint64_one ((b.take 9).drop 1) (by simp; omega)
  simp only [ClaimRequest.Decode, ClaimRequest.RequestType, hl, h0, s0, s1, s2, s3, d0, ne_eq,
    not_true_eq_false, if_false, Res.ok_bind, Res.pure_eq, index_cons_zero,
    index_cons_succ]
  exact ⟨_, rfl⟩

theorem UpdateTokenWeightRequest_decode_ok (r : UpdateTokenWeightRequest) (b : Bytes) (hl : b.length = 29)
    (ht : b.head? = some UpdateTokenWeightRequestType) : ∃ v, r.Decode b = .ok v := by
  have h0 := index_zero_of_head b _ ht
  have s0 := slice_ok b 1 21 (by omega) (by omega)
  have s1 := sliceFrom_eq b 21 (by omega)
  have d0 := DecodeUint64_one (b.drop 21) (by simp; omega)
  simp only [UpdateTokenWeightRequest.Decode, UpdateTokenWeightRequest.RequestType, hl, h0, s0, s1, d0, ne_eq,
    not_true_eq_false, if_false, Res.ok_bind, Res.pure_eq, index_cons_zero,
    index_cons_succ]
  exact ⟨_, rfl⟩

theorem UpdateTokenThresholdRequest_decode_ok (r : UpdateTokenThresholdRequest) (b : Bytes) (hl : b.length = 53)
    (ht : b.head? = some UpdateTokenThresholdRequestType) : ∃ v, r.Decode b = .ok v := by
  have h0 := index_zero_of_head b _ ht
  have s0 := slice_ok b 1 21 (by omega) (by omega)
  have s1 := sliceFrom_eq b 21 (by omega)
  simp only [UpdateTokenThresholdRequest.Decode, UpdateTokenThresholdRequest.RequestType, hl, h0, s0, s1, ne_eq,
    not_true_eq_false, if_false, Res.ok_bind, Res.pure_eq, index_cons_zero,
    index_cons_succ]
  exact ⟨_, rfl⟩

theorem GrantRequest_decode_ok (r : GrantRequest) (b : Bytes) (hl : b.length = 33)
    (ht : b.head? = some GrantRequestType) : ∃ v, r.Decode b = .ok v := by
  have h0 := index_zero_of_head b _ ht
  have s0 := sliceFrom_eq b 1 (by omega)
  simp only [GrantRequest.Decode, GrantRequest.RequestType, hl, h0, s0, ne_eq,
    not_true_eq_false, if_false, Res.ok_bind, Res.pure_eq, index_cons_zero,
    index_cons_succ]
  exact ⟨_, rfl⟩

theorem AddVoterRequest_decode_ok (r : AddVoterRequest) (b : Bytes) (hl : b.length = 53)
    (ht : b.head? = some AddVoterRequestType) : ∃ v, r.Decode b = .ok v := by
  have h0 := index_zero_of_head b _ ht
  have s0 := slice_ok b 1 21 (by omega) (by omega)
  have s1 := sliceFrom_eq b 21 (by omega)
  simp only [AddVoterRequest.Decode, AddVoterRequest.RequestType, hl, h0, s0, s1, ne_eq,
    not_true_eq_false, if_false, Res.ok_bind, Res.pure_eq, index_cons_zero,
    index_cons_succ]
  exact ⟨_, rfl⟩

theorem RemoveVoterRequest_decode_ok (r : RemoveVoterRequest) (b : Bytes) (hl : b.length = 21)
    (ht : b.head? = some RemoveVoterRequestType) : ∃ v, r.Decode b = .ok v := by
  have h0 := index_zero_of_head b _ ht
  have s0 := sliceFrom_eq b 1 (by omega)
  simp only [RemoveVoterRequest.Decode, RemoveVoterRequest.RequestType, hl, h0, s0, ne_eq,
    not_true_eq_false, if_false, Res.ok_bind, Res.pure_eq, index_cons_zero,
    index_cons_succ]
  exact ⟨_, rfl⟩

end DecodeTotal


/-! ## Decode never panics -/

section DecodeNoPanic

theorem Res.ne_panic_of_isErr {α : Type} (r : Res α) (h : r.isErr = true) : r ≠ .panic := by
  cases r <;> simp [Res.isErr] at h ⊢

theorem GasRequest_decode_ne_panic (r : GasRequest) (b : Bytes) : r.Decode b ≠ .panic := by
  by_cases hl : b.length = 41
  · by_cases ht : b.head? = some GasRequestType
    · obtain ⟨v, hv⟩ := GasRequest_decode_ok r b hl ht
      rw [hv]; simp
    · exact Res.ne_panic_of_isErr _ (GasRequest_decode_tag r b ht)
  · exact Res.ne_panic_of_isErr _ (GasRequest_decode_length r b hl)

theorem ReplaceByFeeRequest_decode_ne_panic (r : ReplaceByFeeRequest) (b : Bytes) : r.Decode b ≠ .panic := by
  by_cases hl : b.length = 17
  · by_cases ht : b.head? = some ReplaceByFeeRequestType
    · obtain ⟨v, hv⟩ := ReplaceByFeeRequest_decode_ok r b hl ht
      rw [hv]; simp
    · exact Res.ne_panic_of_isErr _ (ReplaceByFeeRequest_decode_tag r b ht)
  · exact Res.ne_panic_of_isErr _ (ReplaceByFeeRequest_decode_length r b hl)

theorem Cancel1Request_decode_ne_panic (r : Cancel1Request) (b : Bytes) : r.Decode b ≠ .panic := by
  by_cases hl : b.length = 9
  · by_cases ht : b.head? = some Cancel1RequestType
    · obtain ⟨v, hv⟩ := Cancel1Request_decode_ok r b hl ht
      rw [hv]; simp
    · exact Res.ne_panic_of_isErr _ (Cancel1Request_decode_tag r b ht)
  · exact Res.ne_panic_of_isErr _ (Cancel1Request_decode_length r b hl)

theorem CreateRequest_decode_ne_panic (r : CreateRequest) (b : Bytes) : r.Decode b ≠ .panic := by
  by_cases hl : b.length = 85
  · by_cases ht : b.head? = some CreateRequestType
    · obtain ⟨v, hv⟩ := CreateRequest_decode_ok r b hl ht
      rw [hv]; simp
    · exact Res.ne_panic_of_isErr _ (CreateRequest_decode_tag r b ht)
  · exact Res.ne_panic_of_isErr _ (CreateRequest_decode_length r b hl)

theorem LockRequest_decode_ne_panic (r : LockRequest) (b : Bytes) : r.Decode b ≠ .panic := by
  by_cases hl : b.length = 73
  · by_cases ht : b.head? = some LockRequestType
    · obtain ⟨v, hv⟩ := LockRequest_decode_ok r b hl ht
      rw [hv]; simp
    · exact Res.ne_panic_of_isErr _ (LockRequest_decode_tag r b ht)
  · exact Res.ne_panic_of_isErr _ (LockRequest_decode_length r b hl)

theorem UnlockRequest_decode_ne_panic (r : UnlockRequest) (b : Bytes) : r.Decode b ≠ .panic := by
  by_cases hl : b.length = 101
  · by_cases ht : b.head? = some UnlockRequestType
    · obtain ⟨v, hv⟩ := UnlockRequest_decode_ok r b hl ht
      rw [hv]; simp
    · exact Res.ne_panic_of_isErr _ (UnlockRequest_decode_tag r b ht)
  · exact Res.ne_panic_of_isErr _ (UnlockRequest_decode_length r b hl)

theorem ClaimRequest_decode_ne_panic (r : ClaimRequest) (b : Bytes) : r.Decode b ≠ .panic := by
  by_cases hl : b.length = 49
  · by_cases ht : b.head? = some ClaimRequestType
    · obtain ⟨v, hv⟩ := ClaimRequest_decode_ok r b hl ht
      rw [hv]; simp
    · exact Res.ne_panic_of_isErr _ (ClaimRequest_decode_tag r b ht)
  · exact Res.ne_panic_of_isErr _ (ClaimRequest_decode_length r b hl)

theorem UpdateTokenWeightRequest_decode_ne_panic (r : UpdateTokenWeightRequest) (b : Bytes) : r.Decode b ≠ .panic := by
  by_cases hl : b.length = 29
  · by_cases ht : b.head? = some UpdateTokenWeightRequestType
    · obtain ⟨v, hv⟩ := UpdateTokenWeightRequest_decode_ok r b hl ht
      rw [hv]; simp
    · exact Res.ne_panic_of_isErr _ (UpdateTokenWeightRequest_decode_tag r b ht)
  · exact Res.ne_panic_of_isErr _ (UpdateTokenWeightRequest_decode_length r b hl)

theorem UpdateTokenThresholdRequest_decode_ne_panic (r : UpdateTokenThresholdRequest) (b : Bytes) : r.Decode b ≠ .panic := by
  by_cases hl : b.length = 53
  · by_cases ht : b.head? = some UpdateTokenThresholdRequestType
    · obtain ⟨v, hv⟩ := UpdateTokenThresholdRequest_decode_ok r b hl ht
      rw [hv]; simp
    · exact Res.ne_panic_of_isErr _ (UpdateTokenThresholdRequest_decode_tag r b ht)
  · exact Res.ne_panic_of_isErr _ (UpdateTokenThresholdRequest_decode_length r b hl)

theorem GrantRequest_decode_ne_panic (r : GrantRequest) (b : Bytes) : r.Decode b ≠ .panic := by
  by_cases hl : b.length = 33
  · by_cases ht : b.head? = some GrantRequestType
    · obtain ⟨v, hv⟩ := GrantRequest_decode_ok r b hl ht
      rw [hv]; simp
    · exact Res.ne_panic_of_isErr _ (GrantRequest_decode_tag r b ht)
  · exact Res.ne_panic_of_isErr _ (GrantRequest_decode_length r b hl)

theorem AddVoterRequest_decode_ne_panic (r : AddVoterRequest) (b : Bytes) : r.Decode b ≠ .panic := by
  by_cases hl : b.length = 53
  · by_cases ht : b.head? = some AddVoterRequestType
    · obtain ⟨v, hv⟩ := AddVoterRequest_decode_ok r b hl ht
      rw [hv]; simp
    · exact Res.ne_panic_of_isErr _ (AddVoterRequest_decode_tag r b ht)
  · exact Res.ne_panic_of_isErr _ (AddVoterRequest_decode_length r b hl)

theorem RemoveVoterRequest_decode_ne_panic (r : RemoveVoterRequest) (b : Bytes) : r.Decode b ≠ .panic := by
  by_cases hl : b.length = 21
  · by_cases ht : b.head? = some RemoveVoterRequestType
    · obtain ⟨v, hv⟩ := RemoveVoterRequest_decode_ok r b hl ht
      rw [hv]; simp
    · exact Res.ne_panic_of_isErr _ (RemoveVoterRequest_decode_tag r b ht)
  · exact Res.ne_panic_of_isErr _ (RemoveVoterRequest_decode_length r b hl)

theorem WithdrawalRequest_decode_cases (r : WithdrawalRequest) (b : Bytes)
    (hl : 26 ≤ b.length) (ht : b.head? = some WithdrawalRequestType) :
    r.Decode b =
      if b.length - 26 ≠ (b.getD 25 0).val then Res.err "invalid WithdrawalRequest length"
      else Res.ok
        { Id := fromLE (((b.take 25).drop 1).take 8)
          Amount := fromLE ((((b.take 25).drop 1).drop 8).take 8)
          TxPrice := fromLE ((((b.take 25).drop 1).drop 16).take 8)
          Address := b.drop 26 } := by
  have h0 := index_zero_of_head b _ ht
  have s1 := slice_ok b 1 25 (by omega) (by omega)
  have d1 := DecodeUint64_three_eq ((b.take 25).drop 1) (by simp; omega)
  have h25 : index b 25 = .ok (b.getD 25 0) := by
    have hlt : 25 < b.length := by omega
    simp [index, List.getD_eq_getElem?_getD, List.getElem?_eq_getElem hlt]
  have s2 := sliceFrom_eq b 26 (by omega)
  have hlen : ¬ b.length < 26 := by omega
  simp only [WithdrawalRequest.Decode, WithdrawalRequest.RequestType, hlen, h0, s1, s2, d1,
    h25, ne_eq, not_true_eq_false, if_false, Res.ok_bind, Res.pure_eq, index_cons_zero,
    index_cons_succ, List.length_drop]

theorem WithdrawalRequest_decode_ne_panic (r : WithdrawalRequest) (b : Bytes) :
    r.Decode b ≠ .panic := by
  by_cases hl : b.length < 26
  · have : (r.Decode b).isErr = true := by
      simp [WithdrawalRequest.Decode, hl, Res.isErr]
    exact Res.ne_panic_of_isErr _ this
  · by_cases ht : b.head? = some WithdrawalRequestType
    · rw [WithdrawalRequest_decode_cases r b (by omega) ht]
      split_ifs <;> simp
    · exact Res.ne_panic_of_isErr _ (WithdrawalRequest_decode_tag r b ht)

theorem selectDecode_ne_panic (input : Bytes) : selectDecode input ≠ some .panic := by
  unfold selectDecode
  cases input[0]? with
  | none => simp
  | some tag =>
    dsimp only
    by_cases h0 : tag = GasRequestType
    · rw [if_pos h0]
      have h := GasRequest_decode_ne_panic GasRequest.new input
      cases hd : GasRequest.new.Decode input with
      | panic => exact absurd hd h
      | err e => simp [Res.wrap]
      | ok v => simp [Res.wrap]
    rw [if_neg h0]
    by_cases h1 : tag = WithdrawalRequestType
    · rw [if_pos h1]
      have h := WithdrawalRequest_decode_ne_panic WithdrawalRequest.new input
      cases hd : WithdrawalRequest.new.Decode input with
      | panic => exact absurd hd h
      | err e => simp [Res.wrap]
      | ok v => simp [Res.wrap]
    rw [if_neg h1]
    by_cases h2 : tag = ReplaceByFeeRequestType
    · rw [if_pos h2]
      have h := ReplaceByFeeRequest_decode_ne_panic ReplaceByFeeRequest.new input
      cases hd : ReplaceByFeeRequest.new.Decode input with
      | panic => exact absurd hd h
      | err e => simp [Res.wrap]
      | ok v => simp [Res.wrap]
    rw [if_neg h2]
    by_cases h3 : tag = Cancel1RequestType
    · rw [if_pos h3]
      have h := Cancel1Request_decode_ne_panic Cancel1Request.new input
      cases hd : Cancel1Request.new.Decode input with
      | panic => exact absurd hd h
      | err e => simp [Res.wrap]
      | ok v => simp [Res.wrap]
    rw [if_neg h3]
    by_cases h4 : tag = CreateRequestType
    · rw [if_pos h4]
      have h := CreateRequest_decode_ne_panic CreateRequest.new input
      cases hd : CreateRequest.new.Decode input with
      | panic => exact absurd hd h
      | err e => simp [Res.wrap]
      | ok v => simp [Res.wrap]
    rw [if_neg h4]
    by_cases h5 : tag = LockRequestType
    · rw [if_pos h5]
      have h := LockRequest_decode_ne_panic LockRequest.new input
      cases hd : LockRequest.new.Decode input with
      | panic => exact absurd hd h
      | err e => simp [Res.wrap]
      | ok v => simp [Res.wrap]
    rw [if_neg h5]
    by_cases h6 : tag = UnlockRequestType
    · rw [if_pos h6]
      have h := UnlockRequest_decode_ne_panic UnlockRequest.new input
      cases hd : UnlockRequest.new.Decode input with
      | panic => exact absurd hd h
      | err e => simp [Res.wrap]
      | ok v => simp [Res.wrap]
    rw [if_neg h6]
    by_cases h7 : tag = ClaimRequestType
    · rw [if_pos h7]
      have h := ClaimRequest_decode_ne_panic ClaimRequest.new input
      cases hd : ClaimRequest.new.Decode input with
      | panic => exact absurd hd h
      | err e => simp [Res.wrap]
      | ok v => simp [Res.wrap]
    rw [if_neg h7]
    by_cases h8 : tag = UpdateTokenWeightRequestType
    · rw [if_pos h8]
      have h := UpdateTokenWeightRequest_decode_ne_panic UpdateTokenWeightRequest.new input
      cases hd : UpdateTokenWeightRequest.new.Decode input with
      | panic => exact absurd hd h
      | err e => simp [Res.wrap]
      | ok v => simp [Res.wrap]
    rw [if_neg h8]
    by_cases h9 : tag = UpdateTokenThresholdRequestType
    · rw [if_pos h9]
      have h := UpdateTokenThresholdRequest_decode_ne_panic UpdateTokenThresholdRequest.new input
      cases hd : UpdateTokenThresholdRequest.new.Decode input with
      | panic => exact absurd hd h
      | err e => simp [Res.wrap]
      | ok v => simp [Res.wrap]
    rw [if_neg h9]
    by_cases h10 : tag = GrantRequestType
    · rw [if_pos h10]
      have h := GrantRequest_decode_ne_panic GrantRequest.new input
      cases hd : GrantRequest.new.Decode input with
      | panic => exact absurd hd h
      | err e => simp [Res.wrap]
      | ok v => simp [Res.wrap]
    rw [if_neg h10]
    by_cases h11 : tag = AddVoterRequestType
    · rw [if_pos h11]
      have h := AddVoterRequest_decode_ne_panic AddVoterRequest.new input
      cases hd : AddVoterRequest.new.Decode input with
      | panic => exact absurd hd h
      | err e => simp [Res.wrap]
      | ok v => simp [Res.wrap]
    rw [if_neg h11]
    by_cases h12 : tag = RemoveVoterRequestType
    · rw [if_pos h12]
      have h := RemoveVoterRequest_decode_ne_panic RemoveVoterRequest.new input
      cases hd : RemoveVoterRequest.new.Decode input with
      | panic => exact absurd hd h
      | err e => simp [Res.wrap]
      | ok v => simp [Res.wrap]
    rw [if_neg h12]
    simp

end DecodeNoPanic


section ShortEntries

theorem WithdrawalRequest_decode_ne_short (r : WithdrawalRequest) (b : Bytes) (h : b.length ≤ 1) :
    (r.Decode b).isErr = true := by
  have hl : b.length < 26 := by omega
  simp [WithdrawalRequest.Decode, hl, Res.isErr]

theorem ReplaceByFeeRequest_decode_ne_short (r : ReplaceByFeeRequest) (b : Bytes) (h : b.length ≤ 1) :
    (r.Decode b).isErr = true :=
  ReplaceByFeeRequest_decode_length r b (by omega)

theorem Cancel1Request_decode_ne_short (r : Cancel1Request) (b : Bytes) (h : b.length ≤ 1) :
    (r.Decode b).isErr = true :=
  Cancel1Request_decode_length r b (by omega)

theorem CreateRequest_decode_ne_short (r : CreateRequest) (b : Bytes) (h : b.length ≤ 1) :
    (r.Decode b).isErr = true :=
  CreateRequest_decode_length r b (by omega)

theorem ClaimRequest_decode_ne_short (r : ClaimRequest) (b : Bytes) (h : b.length ≤ 1) :
    (r.Decode b).isErr = true :=
  ClaimRequest_decode_length r b (by omega)

theorem UpdateTokenWeightRequest_decode_ne_short (r : UpdateTokenWeightRequest) (b : Bytes) (h : b.length ≤ 1) :
    (r.Decode b).isErr = true :=
  UpdateTokenWeightRequest_decode_length r b (by omega)

theorem AddVoterRequest_decode_ne_short (r : AddVoterRequest) (b : Bytes) (h : b.length ≤ 1) :
    (r.Decode b).isErr = true :=
  AddVoterRequest_decode_length r b (by omega)

theorem RemoveVoterRequest_decode_ne_short (r : RemoveVoterRequest) (b : Bytes) (h : b.length ≤ 1) :
    (r.Decode b).isErr = true :=
  RemoveVoterRequest_decode_length r b (by omega)

end ShortEntries

/-! ## DecodeRequests on the encodings of valid requests -/

section BulkAccept

theorem GasRequest_select (v : GasRequest) (hv : v.Valid) (e : Bytes) (he : v.Encode = some e) :
    1 < e.length ∧ selectDecode e = some (.ok (.gas v)) := by
  obtain ⟨enc, henc, hdec⟩ := GasRequest_decode_encode v hv
  rw [he] at henc
  cases henc
  have hd := hdec.2 GasRequest.new
  simp only [GasRequest.Encode, GasRequest.RequestType, FillBytes] at he
  split_ifs at he with hfit
  swap
  · simp at he
  simp only [Option.bind_eq_bind, Option.some_bind, Option.pure_def, Option.some.injEq,
    List.nil_append, List.singleton_append, List.cons_append] at he
  subst he
  refine ⟨by simp, ?_⟩
  unfold selectDecode
  rw [List.getElem?_cons_zero]
  dsimp only
  rw [if_pos rfl, hd]
  rfl

theorem WithdrawalRequest_select (v : WithdrawalRequest) (hv : v.Valid) :
    1 < v.Encode.length ∧ selectDecode v.Encode = some (.ok (.withdrawal v)) := by
  have hd := WithdrawalRequest_decode_encode WithdrawalRequest.new v hv
  have he : v.Encode = WithdrawalRequestType :: v.Encode.tail := by
    simp [WithdrawalRequest.Encode, WithdrawalRequest.RequestType]
  have hlen : 1 < v.Encode.length := by
    by_contra hc
    have := WithdrawalRequest_decode_ne_short WithdrawalRequest.new v.Encode (by omega)
    rw [hd] at this
    simp [Res.isErr] at this
  refine ⟨hlen, ?_⟩
  unfold selectDecode
  rw [he, List.getElem?_cons_zero]
  dsimp only
  rw [if_neg (by decide), if_pos rfl, ← he, hd]
  rfl

theorem ReplaceByFeeRequest_select (v : ReplaceByFeeRequest) (hv : v.Valid) :
    1 < v.Encode.length ∧ selectDecode v.Encode = some (.ok (.replaceByFee v)) := by
  have hd := ReplaceByFeeRequest_decode_encode ReplaceByFeeRequest.new v hv
  have he : v.Encode = ReplaceByFeeRequestType :: v.Encode.tail := by
    simp [ReplaceByFeeRequest.Encode, ReplaceByFeeRequest.RequestType]
  have hlen : 1 < v.Encode.length := by
    by_contra hc
    have := ReplaceByFeeRequest_decode_ne_short ReplaceByFeeRequest.new v.Encode (by omega)
    rw [hd] at this
    simp [Res.isErr] at this
  refine ⟨hlen, ?_⟩
  unfold selectDecode
  rw [he, List.getElem?_cons_zero]
  dsimp only
  rw [if_neg (by decide), if_neg (by decide), if_pos rfl, ← he, hd]
  rfl

theorem Cancel1Request_select (v : Cancel1Request) (hv : v.Valid) :
    1 < v.Encode.length ∧ selectDecode v.Encode = some (.ok (.cancel1 v)) := by
  have hd := Cancel1Request_decode_encode Cancel1Request.new v hv
  have he : v.Encode = Cancel1RequestType :: v.Encode.tail := by
    simp [Cancel1Request.Encode, Cancel1Request.RequestType]
  have hlen : 1 < v.Encode.length := by
    by_contra hc
    have := Cancel1Request_decode_ne_short Cancel1Request.new v.Encode (by omega)
    rw [hd] at this
    simp [Res.isErr] at this
  refine ⟨hlen, ?_⟩
  unfold selectDecode
  rw [he, List.getElem?_cons_zero]
  dsimp only
  rw [if_neg (by decide), if_neg (by decide), if_neg (by decide), if_pos rfl, ← he, hd]
  rfl

theorem CreateRequest_select (v : CreateRequest) (hv : v.Valid) :
    1 < v.Encode.length ∧ selectDecode v.Encode = some (.ok (.create v)) := by
  have hd := CreateRequest_decode_encode CreateRequest.new v hv
  have he : v.Encode = CreateRequestType :: v.Encode.tail := by
    simp [CreateRequest.Encode, CreateRequest.RequestType]
  have hlen : 1 < v.Encode.length := by
    by_contra hc
    have := CreateRequest_decode_ne_short CreateRequest.new v.Encode (by omega)
    rw [hd] at this
    simp [Res.isErr] at this
  refine ⟨hlen, ?_⟩
  unfold selectDecode
  rw [he, List.getElem?_cons_zero]
  dsimp only
  rw [if_neg (by decide), if_neg (by decide), if_neg (by decide), if_neg (by decide), if_pos rfl, ← he, hd]
  rfl

theorem LockRequest_select (v : LockRequest) (hv : v.Valid) (e : Bytes) (he : v.Encode = some e) :
    1 < e.length ∧ selectDecode e = some (.ok (.lock v)) := by
  obtain ⟨enc, henc, hdec⟩ := LockRequest_decode_encode v hv
  rw [he] at henc
  cases henc
  have hd := hdec LockRequest.new
  simp only [LockRequest.Encode, LockRequest.RequestType, FillBytes] at he
  split_ifs at he with hfit
  swap
  · simp at he
  simp only [Option.bind_eq_bind, Option.some_bind, Option.pure_def, Option.some.injEq,
    List.nil_append, List.singleton_append, List.cons_append] at he
  subst he
  refine ⟨by simp, ?_⟩
  unfold selectDecode
  rw [List.getElem?_cons_zero]
  dsimp only
  rw [if_neg (by decide), if_neg (by decide), if_neg (by decide), if_neg (by decide), if_neg (by decide), if_pos rfl, hd]
  rfl

theorem UnlockRequest_select (v : UnlockRequest) (hv : v.Valid) (e : Bytes) (he : v.Encode = some e) :
    1 < e.length ∧ selectDecode e = some (.ok (.unlock v)) := by
  obtain ⟨enc, henc, hdec⟩ := UnlockRequest_decode_encode v hv
  rw [he] at henc
  cases henc
  have hd := hdec UnlockRequest.new
  simp only [UnlockRequest.Encode, UnlockRequest.RequestType, FillBytes] at he
  split_ifs at he with hfit
  swap
  · simp at he
  simp only [Option.bind_eq_bind, Option.some_bind, Option.pure_def, Option.some.injEq,
    List.nil_append, List.singleton_append, List.cons_append] at he
  subst he
  refine ⟨by simp, ?_⟩
  unfold selectDecode
  rw [List.getElem?_cons_zero]
  dsimp only
  rw [if_neg (by decide), if_neg (by decide), if_neg (by decide), if_neg (by decide), if_neg (by decide), if_neg (by decide), if_pos rfl, hd]
  rfl

theorem ClaimRequest_select (v : ClaimRequest) (hv : v.Valid) :
    1 < v.Encode.length ∧ selectDecode v.Encode = some (.ok (.claim v)) := by
  have hd := ClaimRequest_decode_encode ClaimRequest.new v hv
  have he : v.Encode = ClaimRequestType :: v.Encode.tail := by
    simp [ClaimRequest.Encode, ClaimRequest.RequestType]
  have hlen : 1 < v.Encode.length := by
    by_contra hc
    have := ClaimRequest_decode_ne_short ClaimRequest.new v.Encode (by omega)
    rw [hd] at this
    simp [Res.isErr] at this
  refine ⟨hlen, ?_⟩
  unfold selectDecode
  rw [he, List.getElem?_cons_zero]
  dsimp only
  rw [if_neg (by decide), if_neg (by decide), if_neg (by decide), if_neg (by decide), if_neg (by decide), if_neg (by decide), if_neg (by decide), if_pos rfl, ← he, hd]
  rfl

theorem UpdateTokenWeightRequest_select (v : UpdateTokenWeightRequest) (hv : v.Valid) :
    1 < v.Encode.length ∧ selectDecode v.Encode = some (.ok (.updateTokenWeight v)) := by
  have hd := UpdateTokenWeightRequest_decode_encode UpdateTokenWeightRequest.new v hv
  have he : v.Encode = UpdateTokenWeightRequestType :: v.Encode.tail := by
    simp [UpdateTokenWeightRequest.Encode, UpdateTokenWeightRequest.RequestType]
  have hlen : 1 < v.Encode.length := by
    by_contra hc
    have := UpdateTokenWeightRequest_decode_ne_short UpdateTokenWeightRequest.new v.Encode (by omega)
    rw [hd] at this
    simp [Res.isErr] at this
  refine ⟨hlen, ?_⟩
  unfold selectDecode
  rw [he, List.getElem?_cons_zero]
  dsimp only
  rw [if_neg (by decide), if_neg (by decide), if_neg (by decide), if_neg (by decide), if_neg (by decide), if_neg (by decide), if_neg (by decide), if_neg (by decide), if_pos rfl, ← he, hd]
  rfl

theorem UpdateTokenThresholdRequest_select (v : UpdateTokenThresholdRequest) (hv : v.Valid) (e : Bytes) (he : v.Encode = some e) :
    1 < e.length ∧ selectDecode e = some (.ok (.updateTokenThreshold v)) := by
  obtain ⟨enc, henc, hdec⟩ := UpdateTokenThresholdRequest_decode_encode v hv
  rw [he] at henc
  cases henc
  have hd := hdec UpdateTokenThresholdRequest.new
  simp only [UpdateTokenThresholdRequest.Encode, UpdateTokenThresholdRequest.RequestType, FillBytes] at he
  split_ifs at he with hfit
  swap
  · simp at he
  simp only [Option.bind_eq_bind, Option.some_bind, Option.pure_def, Option.some.injEq,
    List.nil_append, List.singleton_append, List.cons_append] at he
  subst he
  refine ⟨by simp, ?_⟩
  unfold selectDecode
  rw [List.getElem?_cons_zero]
  dsimp only
  rw [if_neg (by decide), if_neg (by decide), if_neg (by decide), if_neg (by decide), if_neg (by decide), if_neg (by decide), if_neg (by decide), if_neg (by decide), if_neg (by decide), if_pos rfl, hd]
  rfl

theorem GrantRequest_select (v : GrantRequest) (hv : v.Valid) (e : Bytes) (he : v.Encode = some e) :
    1 < e.length ∧ selectDecode e = some (.ok (.grant v)) := by
  obtain ⟨enc, henc, hdec⟩ := GrantRequest_decode_encode v hv
  rw [he] at henc
  cases henc
  have hd := hdec GrantRequest.new
  simp only [GrantRequest.Encode, GrantRequest.RequestType, FillBytes] at he
  split_ifs at he with hfit
  swap
  · simp at he
  simp only [Option.bind_eq_bind, Option.some_bind, Option.pure_def, Option.some.injEq,
    List.nil_append, List.singleton_append, List.cons_append] at he
  subst he
  refine ⟨by simp, ?_⟩
  unfold selectDecode
  rw [List.getElem?_cons_zero]
  dsimp only
  rw [if_neg (by decide), if_neg (by decide), if_neg (by decide), if_neg (by decide), if_neg (by decide), if_neg (by decide), if_neg (by decide), if_neg (by decide), if_neg (by decide), if_neg (by decide), if_pos rfl, hd]
  rfl

theorem AddVoterRequest_select (v : AddVoterRequest) (hv : v.Valid) :
    1 < v.Encode.length ∧ selectDecode v.Encode = some (.ok (.addVoter v)) := by
  have hd := AddVoterRequest_decode_encode AddVoterRequest.new v hv
  have he : v.Encode = AddVoterRequestType :: v.Encode.tail := by
    simp [AddVoterRequest.Encode, AddVoterRequest.RequestType]
  have hlen : 1 < v.Encode.length := by
    by_contra hc
    have := AddVoterRequest_decode_ne_short AddVoterRequest.new v.Encode (by omega)
    rw [hd] at this
    simp [Res.isErr] at this
  refine ⟨hlen, ?_⟩
  unfold selectDecode
  rw [he, List.getElem?_cons_zero]
  dsimp only
  rw [if_neg (by decide), if_neg (by decide), if_neg (by decide), if_neg (by decide), if_neg (by decide), if_neg (by decide), if_neg (by decide), if_neg (by decide), if_neg (by decide), if_neg (by decide), if_neg (by decide), if_pos rfl, ← he, hd]
  rfl

theorem RemoveVoterRequest_select (v : RemoveVoterRequest) (hv : v.Valid) :
    1 < v.Encode.length ∧ selectDecode v.Encode = some (.ok (.removeVoter v)) := by
  have hd := RemoveVoterRequest_decode_encode RemoveVoterRequest.new v hv
  have he : v.Encode = RemoveVoterRequestType :: v.Encode.tail := by
    simp [RemoveVoterRequest.Encode, RemoveVoterRequest.RequestType]
  have hlen : 1 < v.Encode.length := by
    by_contra hc
    have := RemoveVoterRequest_decode_ne_short RemoveVoterRequest.new v.Encode (by omega)
    rw [hd] at this
    simp [Res.isErr] at this
  refine ⟨hlen, ?_⟩
  unfold selectDecode
  rw [he, List.getElem?_cons_zero]
  dsimp only
  rw [if_neg (by decide), if_neg (by decide), if_neg (by decide), if_neg (by decide), if_neg (by decide), if_neg (by decide), if_neg (by decide), if_neg (by decide), if_neg (by decide), if_neg (by decide), if_neg (by decide), if_neg (by decide), if_pos rfl, ← he, hd]
  rfl

end BulkAccept


section BulkAcceptList

theorem Request_select (r : Request) (hv : r.Valid) (e : Bytes) (he : r.Encode = some e) :
    1 < e.length ∧ selectDecode e = some (.ok r) := by
  cases r with
  | gas v => exact GasRequest_select v hv e he
  | withdrawal v =>
    simp only [Request.Encode, Option.some.injEq] at he
    subst he
    exact WithdrawalRequest_select v hv
  | replaceByFee v =>
    simp only [Request.Encode, Option.some.injEq] at he
    subst he
    exact ReplaceByFeeRequest_select v hv
  | cancel1 v =>
    simp only [Request.Encode, Option.some.injEq] at he
    subst he
    exact Cancel1Request_select v hv
  | create v =>
    simp only [Request.Encode, Option.some.injEq] at he
    subst he
    exact CreateRequest_select v hv
  | lock v => exact LockRequest_select v hv e he
  | unlock v => exact UnlockRequest_select v hv e he
  | claim v =>
    simp only [Request.Encode, Option.some.injEq] at he
    subst he
    exact ClaimRequest_select v hv
  | updateTokenWeight v =>
    simp only [Request.Encode, Option.some.injEq] at he
    subst he
    exact UpdateTokenWeightRequest_select v hv
  | updateTokenThreshold v => exact UpdateTokenThresholdRequest_select v hv e he
  | grant v => exact GrantRequest_select v hv e he
  | addVoter v =>
    simp only [Request.Encode, Option.some.injEq] at he
    subst he
    exact AddVoterRequest_select v hv
  | removeVoter v =>
    simp only [Request.Encode, Option.some.injEq] at he
    subst he
    exact RemoveVoterRequest_select v hv

theorem Request_encode_of_valid (r : Request) (hv : r.Valid) : ∃ e, r.Encode = some e := by
  cases r with
  | gas v => obtain ⟨e, he, _⟩ := GasRequest_decode_encode v hv; exact ⟨e, he⟩
  | withdrawal v => exact ⟨_, rfl⟩
  | replaceByFee v => exact ⟨_, rfl⟩
  | cancel1 v => exact ⟨_, rfl⟩
  | create v => exact ⟨_, rfl⟩
  | lock v => obtain ⟨e, he, _⟩ := LockRequest_decode_encode v hv; exact ⟨e, he⟩
  | unlock v => obtain ⟨e, he, _⟩ := UnlockRequest_decode_encode v hv; exact ⟨e, he⟩
  | claim v => exact ⟨_, rfl⟩
  | updateTokenWeight v => exact ⟨_, rfl⟩
  | updateTokenThreshold v => obtain ⟨e, he, _⟩ := UpdateTokenThresholdRequest_decode_encode v hv; exact ⟨e, he⟩
  | grant v => obtain ⟨e, he, _⟩ := GrantRequest_decode_encode v hv; exact ⟨e, he⟩
  | addVoter v => exact ⟨_, rfl⟩
  | removeVoter v => exact ⟨_, rfl⟩

theorem DecodeRequests_loop_ok (rs : List Request) (encs : List Bytes)
    (h : List.Forall₂ (fun r e => r.Valid ∧ r.Encode = some e) rs encs) (d : DecodeResult) :
    DecodeRequests.loop encs d.bridge d.relayer d.locking =
      some ⟨(rs.foldl DecodeResult.push d).bridge, (rs.foldl DecodeResult.push d).relayer,
        (rs.foldl DecodeResult.push d).locking, none⟩ := by
  induction h generalizing d with
  | nil => rfl
  | cons hhead _ ih =>
    obtain ⟨hlen, hsel⟩ := Request_select _ hhead.1 _ hhead.2
    rw [DecodeRequests_loop_cons, if_neg (by omega), hsel]
    exact ih _

theorem foldl_push_collections (rs : List Request) (d : DecodeResult) :
    (rs.foldl DecodeResult.push d).bridge.Withdraws = d.bridge.Withdraws ++ rs.filterMap Request.withdrawal? ∧
    (rs.foldl DecodeResult.push d).bridge.ReplaceByFees = d.bridge.ReplaceByFees ++ rs.filterMap Request.replaceByFee? ∧
    (rs.foldl DecodeResult.push d).bridge.Cancel1s = d.bridge.Cancel1s ++ rs.filterMap Request.cancel1? ∧
    (rs.foldl DecodeResult.push d).locking.Gas = d.locking.Gas ++ rs.filterMap Request.gas? ∧
    (rs.foldl DecodeResult.push d).locking.Creates = d.locking.Creates ++ rs.filterMap Request.create? ∧
    (rs.foldl DecodeResult.push d).locking.Locks = d.locking.Locks ++ rs.filterMap Request.lock? ∧
    (rs.foldl DecodeResult.push d).locking.Unlocks = d.locking.Unlocks ++ rs.filterMap Request.unlock? ∧
    (rs.foldl DecodeResult.push d).locking.Claims = d.locking.Claims ++ rs.filterMap Request.claim? ∧
    (rs.foldl DecodeResult.push d).locking.Grants = d.locking.Grants ++ rs.filterMap Request.grant? ∧
    (rs.foldl DecodeResult.push d).locking.UpdateWeights = d.locking.UpdateWeights ++ rs.filterMap Request.updateTokenWeight? ∧
    (rs.foldl DecodeResult.push d).locking.UpdateThresholds = d.locking.UpdateThresholds ++ rs.filterMap Request.updateTokenThreshold? ∧
    (rs.foldl DecodeResult.push d).relayer.Adds = d.relayer.Adds ++ rs.filterMap Request.addVoter? ∧
    (rs.foldl DecodeResult.push d).relayer.Removes = d.relayer.Removes ++ rs.filterMap Request.removeVoter? := by
  induction rs generalizing d with
  | nil => simp
  | cons r rs ih =>
    rw [List.foldl_cons]
    have h := ih (d.push r)
    cases r <;> simpa [DecodeResult.push, List.filterMap_cons, Request.withdrawal?, Request.replaceByFee?, Request.cancel1?, Request.gas?, Request.create?, Request.lock?, Request.unlock?, Request.claim?, Request.grant?, Request.updateTokenWeight?, Request.updateTokenThreshold?, Request.addVoter?, Request.removeVoter?] using h

theorem filterMap_lengths (rs : List Request) :
    (rs.filterMap Request.withdrawal?).length +
    (rs.filterMap Request.replaceByFee?).length +
    (rs.filterMap Request.cancel1?).length +
    (rs.filterMap Request.gas?).length +
    (rs.filterMap Request.create?).length +
    (rs.filterMap Request.lock?).length +
    (rs.filterMap Request.unlock?).length +
    (rs.filterMap Request.claim?).length +
    (rs.filterMap Request.grant?).length +
    (rs.filterMap Request.updateTokenWeight?).length +
    (rs.filterMap Request.updateTokenThreshold?).length +
    (rs.filterMap Request.addVoter?).length +
    (rs.filterMap Request.removeVoter?).length = rs.length := by
  induction rs with
  | nil => rfl
  | cons r rs ih =>
    cases r <;> simp [List.filterMap_cons, Request.withdrawal?, Request.replaceByFee?, Request.cancel1?, Request.gas?, Request.create?, Request.lock?, Request.unlock?, Request.claim?, Request.grant?, Request.updateTokenWeight?, Request.updateTokenThreshold?, Request.addVoter?, Request.removeVoter?] <;> omega

end BulkAcceptList


/-! ## Claims C16 and C17: the bulk decoder -/

/-- C16: for every list `rs` of valid requests, in any mix of the 13 variants, every request has
an encoding, DecodeRequests of the list of the encodings succeeds, and each of the 13 collections
is the sublist of `rs` of the requests of its variant, in the order of the input; the sizes of
the collections add up to `len(rs)`. -/
theorem C16_bulk_decode_grouping (rs : List Request) (hvalid : ∀ r ∈ rs, r.Valid) :
    ∃ encs d, List.Forall₂ (fun r e => r.Encode = some e) rs encs ∧
      DecodeRequests encs = some d ∧ d.err = none ∧
      d.bridge.Withdraws = rs.filterMap Request.withdrawal? ∧
      d.bridge.ReplaceByFees = rs.filterMap Request.replaceByFee? ∧
      d.bridge.Cancel1s = rs.filterMap Request.cancel1? ∧
      d.locking.Gas = rs.filterMap Request.gas? ∧
      d.locking.Creates = rs.filterMap Request.create? ∧
      d.locking.Locks = rs.filterMap Request.lock? ∧
      d.locking.Unlocks = rs.filterMap Request.unlock? ∧
      d.locking.Claims = rs.filterMap Request.claim? ∧
      d.locking.Grants = rs.filterMap Request.grant? ∧
      d.locking.UpdateWeights = rs.filterMap Request.updateTokenWeight? ∧
      d.locking.UpdateThresholds = rs.filterMap Request.updateTokenThreshold? ∧
      d.relayer.Adds = rs.filterMap Request.addVoter? ∧
      d.relayer.Removes = rs.filterMap Request.removeVoter? ∧
      d.size = rs.length := by
  have henc : ∃ encs, List.Forall₂ (fun r e => r.Valid ∧ r.Encode = some e) rs encs := by
    induction rs with
    | nil => exact ⟨[], List.Forall₂.nil⟩
    | cons r rs ih =>
      obtain ⟨encs, h⟩ := ih fun x hx => hvalid x (List.mem_cons_of_mem _ hx)
      obtain ⟨e, he⟩ := Request_encode_of_valid r (hvalid r (List.mem_cons_self _ _))
      exact ⟨e :: encs, List.Forall₂.cons ⟨hvalid r (List.mem_cons_self _ _), he⟩ h⟩
  obtain ⟨encs, h⟩ := henc
  have hloop := DecodeRequests_loop_ok rs encs h
    ⟨⟨[], [], []⟩, ⟨[], []⟩, ⟨[], [], [], [], [], [], [], []⟩, none⟩
  have hf := foldl_push_collections rs
    ⟨⟨[], [], []⟩, ⟨[], []⟩, ⟨[], [], [], [], [], [], [], []⟩, none⟩
  simp only [List.nil_append] at hf
  obtain ⟨f1, f2, f3, f4, f5, f6, f7, f8, f9, f10, f11, f12, f13⟩ := hf
  refine ⟨encs, _, h.imp fun _ _ hh => hh.2, hloop, rfl, f1, f2, f3, f4, f5, f6, f7, f8, f9,
    f10, f11, f12, f13, ?_⟩
  simp only [DecodeResult.size, f1, f2, f3, f4, f5, f6, f7, f8, f9, f10, f11, f12, f13]
  exact filterMap_lengths rs

/-- C16 on a GasAccrual, a Withdrawal, an AddVoter and a Lock request: the four requests land
in four singleton collections and the other nine collections are empty. -/
theorem C16_bulk_decode_grouping_witness :
    ∃ encs d,
      List.Forall₂ (fun (r : Request) e => r.Encode = some e)
        [.gas ⟨5, 7⟩, .withdrawal ⟨1, 2, 3, [1, 2]⟩, .addVoter ⟨sampleAddress, sampleHash⟩,
          .lock ⟨sampleAddress, sampleAddress, 1000⟩] encs ∧
      DecodeRequests encs = some d ∧ d.err = none ∧
      d.bridge.Withdraws = [⟨1, 2, 3, [1, 2]⟩] ∧ d.bridge.ReplaceByFees = [] ∧
      d.bridge.Cancel1s = [] ∧ d.locking.Gas = [⟨5, 7⟩] ∧ d.locking.Creates = [] ∧
      d.locking.Locks = [⟨sampleAddress, sampleAddress, 1000⟩] ∧ d.locking.Unlocks = [] ∧
      d.locking.Claims = [] ∧ d.locking.Grants = [] ∧ d.locking.UpdateWeights = [] ∧
      d.locking.UpdateThresholds = [] ∧
      d.relayer.Adds = [⟨sampleAddress, sampleHash⟩] ∧ d.relayer.Removes = [] ∧
      d.size = 4 :=
  C16_bulk_decode_grouping
    [.gas ⟨5, 7⟩, .withdrawal ⟨1, 2, 3, [1, 2]⟩, .addVoter ⟨sampleAddress, sampleHash⟩,
      .lock ⟨sampleAddress, sampleAddress, 1000⟩]
    (by
      intro r hr
      simp only [List.mem_cons, List.mem_singleton, List.not_mem_nil, or_false] at hr
      rcases hr with rfl | rfl | rfl | rfl
      · norm_num [Request.Valid, GasRequest.Valid]
      · decide
      · decide
      · norm_num [Request.Valid, LockRequest.Valid, sampleAddress])


/-! ## DecodeRequests on a list with a rejected entry -/

section BulkReject

theorem DecodeRequests_loop_err (reqs : List Bytes) (d : DecodeResult)
    (h : ∃ input ∈ reqs, input.length ≤ 1 ∨ selectDecode input = none ∨
      ∃ e, selectDecode input = some (.err e)) :
    ∃ d' e, DecodeRequests.loop reqs d.bridge d.relayer d.locking = some d' ∧
      d'.err = some e := by
  induction reqs generalizing d with
  | nil =>
    obtain ⟨input, hin, _⟩ := h
    simp at hin
  | cons input rest ih =>
    rw [DecodeRequests_loop_cons]
    by_cases hl : input.length ≤ 1
    · rw [if_pos hl]
      exact ⟨_, _, rfl, rfl⟩
    · rw [if_neg hl]
      cases hs : selectDecode input with
      | none => exact ⟨_, _, rfl, rfl⟩
      | some res =>
        cases res with
        | panic => exact absurd hs (selectDecode_ne_panic input)
        | err e => exact ⟨_, _, rfl, rfl⟩
        | ok req =>
          apply ih (d.push req)
          obtain ⟨x, hx, hbad⟩ := h
          rcases List.mem_cons.1 hx with rfl | hx'
          · rcases hbad with h1 | h2 | ⟨e, h3⟩
            · exact absurd h1 hl
            · rw [hs] at h2; simp at h2
            · rw [hs] at h3; simp at h3
          · exact ⟨x, hx', hbad⟩

theorem DecodeRequests_loop_total (reqs : List Bytes) (d : DecodeResult) :
    ∃ d', DecodeRequests.loop reqs d.bridge d.relayer d.locking = some d' := by
  induction reqs generalizing d with
  | nil => exact ⟨_, rfl⟩
  | cons input rest ih =>
    rw [DecodeRequests_loop_cons]
    by_cases hl : input.length ≤ 1
    · rw [if_pos hl]
      exact ⟨_, rfl⟩
    · rw [if_neg hl]
      cases hs : selectDecode input with
      | none => exact ⟨_, rfl⟩
      | some res =>
        cases res with
        | panic => exact absurd hs (selectDecode_ne_panic input)
        | err e => exact ⟨_, rfl⟩
        | ok req => exact ih (d.push req)

theorem selectDecode_of_unknown_tag (input : Bytes) (tag : Byte) (h0 : input[0]? = some tag)
    (h : tag.val < 0x60 ∨ 0x6C < tag.val) : selectDecode input = none := by
  have hne : ∀ t : Byte, 0x60 ≤ t.val → t.val ≤ 0x6C → tag ≠ t := by
    intro t h1 h2 heq
    subst heq
    omega
  unfold selectDecode
  rw [h0]
  dsimp only
  rw [if_neg (hne _ (by decide) (by decide)), if_neg (hne _ (by decide) (by decide)),
    if_neg (hne _ (by decide) (by decide)), if_neg (hne _ (by decide) (by decide)),
    if_neg (hne _ (by decide) (by decide)), if_neg (hne _ (by decide) (by decide)),
    if_neg (hne _ (by decide) (by decide)), if_neg (hne _ (by decide) (by decide)),
    if_neg (hne _ (by decide) (by decide)), if_neg (hne _ (by decide) (by decide)),
    if_neg (hne _ (by decide) (by decide)), if_neg (hne _ (by decide) (by decide)),
    if_neg (hne _ (by decide) (by decide))]

end BulkReject

/-- C17: the 13 type tags are the consecutive values 0x60 … 0x6C, in the order GasAccrual,
Withdrawal, ReplaceByFee, Cancel, CreateValidator, Lock, Unlock, Claim, UpdateTokenWeight,
UpdateTokenThreshold, Grant, AddVoter, RemoveVoter; DecodeRequests returns an error (and does not
panic) for every list with an entry whose first byte is outside 0x60 … 0x6C, and for every list
with an entry that the Decode selected by its first byte rejects. -/
theorem C17_bulk_decode_rejects (reqs : List Bytes) :
    ([GasRequestType, WithdrawalRequestType, ReplaceByFeeRequestType, Cancel1RequestType,
      CreateRequestType, LockRequestType, UnlockRequestType, ClaimRequestType,
      UpdateTokenWeightRequestType, UpdateTokenThresholdRequestType, GrantRequestType,
      AddVoterRequestType, RemoveVoterRequestType].map Fin.val =
      [0x60, 0x61, 0x62, 0x63, 0x64, 0x65, 0x66, 0x67, 0x68, 0x69, 0x6A, 0x6B, 0x6C]) ∧
    ((∃ input ∈ reqs, ∃ tag : Byte, input[0]? = some tag ∧ (tag.val < 0x60 ∨ 0x6C < tag.val)) →
      ∃ d e, DecodeRequests reqs = some d ∧ d.err = some e) ∧
    ((∃ input ∈ reqs, ∃ e, selectDecode input = some (.err e)) →
      ∃ d e, DecodeRequests reqs = some d ∧ d.err = some e) := by
  refine ⟨by decide, fun h => ?_, fun h => ?_⟩
  · obtain ⟨input, hin, tag, h0, htag⟩ := h
    exact DecodeRequests_loop_err reqs ⟨⟨[], [], []⟩, ⟨[], []⟩, ⟨[], [], [], [], [], [], [], []⟩, none⟩
      ⟨input, hin, Or.inr (Or.inl (selectDecode_of_unknown_tag input tag h0 htag))⟩
  · obtain ⟨input, hin, e, he⟩ := h
    exact DecodeRequests_loop_err reqs ⟨⟨[], [], []⟩, ⟨[], []⟩, ⟨[], [], [], [], [], [], [], []⟩, none⟩
      ⟨input, hin, Or.inr (Or.inr ⟨e, he⟩)⟩

/-- C17 on a list of a well-formed Cancel encoding followed by an entry with the tag 0x6D. -/
theorem C17_bulk_decode_rejects_witness :
    ∃ d e, DecodeRequests [Cancel1Request.Encode ⟨5⟩, [0x6D, 0, 0]] = some d ∧ d.err = some e :=
  (C17_bulk_decode_rejects [Cancel1Request.Encode ⟨5⟩, [0x6D, 0, 0]]).2.1
    ⟨[0x6D, 0, 0], by simp, 0x6D, rfl, Or.inr (by decide)⟩


/-! ## Claims C18 – C20: the other event decoders -/

section TopicDecoders

theorem index_one_of_length_two (topics : List Bytes) (h : topics.length = 2) :
    index topics 1 = .ok (topics.getD 1 []) := by
  match topics, h with
  | [_, b], _ => rfl

theorem topic_one_length (topics : List Bytes) (h : topics.length = 2)
    (htyped : ∀ t ∈ topics, t.length = 32) : (topics.getD 1 []).length = 32 := by
  match topics, h with
  | [a, b], _ => exact htyped b (by simp)

theorem BytesToAddress_of_hash (t : Bytes) (h : t.length = 32) :
    BytesToAddress t = t.drop 12 := by
  simp [BytesToAddress, h]

theorem UnpackIntoReplaceByFeeRequest_ok_iff (topics : List Bytes) (data : Bytes)
    (req : ReplaceByFeeRequest) :
    UnpackIntoReplaceByFeeRequest topics data = .ok req ↔
      topics.length = 2 ∧ data.length = 32 ∧ topicValue topics 1 < 2 ^ 64 ∧
      fromBE data < 2 ^ 64 ∧ req = ⟨topicValue topics 1, fromBE data⟩ := by
  by_cases ht : topics.length = 2
  · by_cases hd : data.length = 32
    · have hi := index_one_of_length_two topics ht
      simp only [UnpackIntoReplaceByFeeRequest, ht, hd, hi, ne_eq, not_true_eq_false, if_false,
        Res.ok_bind, Res.pure_eq, IsUint64_SetBytes, Uint64_SetBytes, decide_eq_true_eq,
        true_and, topicValue]
      by_cases h1 : fromBE (topics.getD 1 []) < 2 ^ 64
      · by_cases h2 : fromBE data < 2 ^ 64
        · simp only [h1, h2, not_true_eq_false, if_false, true_and, Res.ok.injEq,
            Nat.mod_eq_of_lt h1, Nat.mod_eq_of_lt h2]
          exact eq_comm
        · simp only [h1, h2, not_true_eq_false, not_false_eq_true, if_true, if_false,
            false_and, and_false, reduceCtorEq]
      · simp only [h1, not_false_eq_true, if_true, false_and, reduceCtorEq]
    · simp [UnpackIntoReplaceByFeeRequest, ht, hd]
  · simp [UnpackIntoReplaceByFeeRequest, ht]

theorem UnpackIntoCancel1Request_ok_iff (topics : List Bytes) (data : Bytes)
    (req : Cancel1Request) :
    UnpackIntoCancel1Request topics data = .ok req ↔
      topics.length = 2 ∧ data.length = 0 ∧ topicValue topics 1 < 2 ^ 64 ∧
      req = ⟨topicValue topics 1⟩ := by
  by_cases ht : topics.length = 2
  · by_cases hd : data.length = 0
    · have hi := index_one_of_length_two topics ht
      simp only [UnpackIntoCancel1Request, ht, hd, hi, ne_eq, not_true_eq_false, if_false,
        Res.ok_bind, Res.pure_eq, IsUint64_SetBytes, Uint64_SetBytes, decide_eq_true_eq,
        true_and, topicValue]
      by_cases h1 : fromBE (topics.getD 1 []) < 2 ^ 64
      · simp only [h1, not_true_eq_false, if_false, true_and, Res.ok.injEq,
          Nat.mod_eq_of_lt h1]
        exact eq_comm
      · simp only [h1, not_false_eq_true, if_true, false_and, reduceCtorEq]
    · simp [UnpackIntoCancel1Request, ht, hd]
  · simp [UnpackIntoCancel1Request, ht]

theorem UnpackIntoAddVoterRequest_ok_iff (topics : List Bytes) (data : Bytes)
    (req : AddVoterRequest) (htyped : ∀ t ∈ topics, t.length = 32) :
    UnpackIntoAddVoterRequest topics data = .ok req ↔
      topics.length = 2 ∧ data.length = 32 ∧
      req = ⟨(topics.getD 1 []).drop 12, data⟩ := by
  by_cases ht : topics.length = 2
  · by_cases hd : data.length = 32
    · have hi := index_one_of_length_two topics ht
      have htopic := topic_one_length topics ht htyped
      simp only [UnpackIntoAddVoterRequest, ht, hd, hi, ne_eq, not_true_eq_false, if_false,
        Res.ok_bind, Res.pure_eq, true_and, BytesToAddress_of_hash _ htopic,
        BytesToHash_of_length _ hd, Res.ok.injEq]
      exact eq_comm
    · simp [UnpackIntoAddVoterRequest, ht, hd]
  · simp [UnpackIntoAddVoterRequest, ht]

theorem UnpackIntoRemoveVoterRequest_ok_iff (topics : List Bytes) (data : Bytes)
    (req : RemoveVoterRequest) (htyped : ∀ t ∈ topics, t.length = 32) :
    UnpackIntoRemoveVoterRequest topics data = .ok req ↔
      topics.length = 2 ∧ data.length = 0 ∧ req = ⟨(topics.getD 1 []).drop 12⟩ := by
  by_cases ht : topics.length = 2
  · by_cases hd : data.length = 0
    · have hi := index_one_of_length_two topics ht
      have htopic := topic_one_length topics ht htyped
      simp only [UnpackIntoRemoveVoterRequest, ht, hd, hi, ne_eq, not_true_eq_false, if_false,
        Res.ok_bind, Res.pure_eq, true_and, BytesToAddress_of_hash _ htopic, Res.ok.injEq]
      exact eq_comm
    · simp [UnpackIntoRemoveVoterRequest, ht, hd]
  · simp [UnpackIntoRemoveVoterRequest, ht]

end TopicDecoders

/-- C18: on topics that are 32-byte hashes, UnpackIntoReplaceByFeeRequest succeeds if and only if
there are exactly 2 topics, `len(data) = 32` and topic 1 and data are below `2^64` as big-endian
integers, and then Id and TxPrice are these values; UnpackIntoCancel1Request succeeds iff there
are exactly 2 topics, no data and topic 1 is below `2^64`; UnpackIntoAddVoterRequest succeeds iff
there are exactly 2 topics and 32 bytes of data, with Voter the last 20 bytes of topic 1 and
Pubkey the data; UnpackIntoRemoveVoterRequest succeeds iff there are exactly 2 topics and no
data, with Voter the last 20 bytes of topic 1. -/
theorem C18_topic_decoders (topics : List Bytes) (data : Bytes)
    (htyped : ∀ t ∈ topics, t.length = 32) :
    (∀ req, UnpackIntoReplaceByFeeRequest topics data = .ok req ↔
      topics.length = 2 ∧ data.length = 32 ∧ topicValue topics 1 < 2 ^ 64 ∧
      fromBE data < 2 ^ 64 ∧ req = ⟨topicValue topics 1, fromBE data⟩) ∧
    (∀ req, UnpackIntoCancel1Request topics data = .ok req ↔
      topics.length = 2 ∧ data.length = 0 ∧ topicValue topics 1 < 2 ^ 64 ∧
      req = ⟨topicValue topics 1⟩) ∧
    (∀ req, UnpackIntoAddVoterRequest topics data = .ok req ↔
      topics.length = 2 ∧ data.length = 32 ∧ req = ⟨(topics.getD 1 []).drop 12, data⟩) ∧
    (∀ req, UnpackIntoRemoveVoterRequest topics data = .ok req ↔
      topics.length = 2 ∧ data.length = 0 ∧ req = ⟨(topics.getD 1 []).drop 12⟩) :=
  ⟨fun req => UnpackIntoReplaceByFeeRequest_ok_iff topics data req,
   fun req => UnpackIntoCancel1Request_ok_iff topics data req,
   fun req => UnpackIntoAddVoterRequest_ok_iff topics data req htyped,
   fun req => UnpackIntoRemoveVoterRequest_ok_iff topics data req htyped⟩

/-- C18 on the sample RemoveVoter event: two topics and no data are unpacked, with the voter
read from the last 20 bytes of topic 1. -/
theorem C18_topic_decoders_witness :
    UnpackIntoRemoveVoterRequest sampleRemoveVoterLog.Topics sampleRemoveVoterLog.Data
      = .ok ⟨sampleAddress⟩ :=
  ((C18_topic_decoders sampleRemoveVoterLog.Topics sampleRemoveVoterLog.Data
      (by decide)).2.2.2 ⟨sampleAddress⟩).2 ⟨rfl, rfl, by decide⟩


section LockingDecoders

theorem UnpackIntoCreateRequest_ok (data : Bytes) (h : data.length = 128) :
    ∃ req, UnpackIntoCreateRequest data = .ok req := by
  have s0 := slice_ok data 0 32 (by omega) (by omega)
  have s1 := sliceFrom_eq data 64 (by omega)
  have ha : ¬ (data.drop 64).length < 64 := by simp; omega
  simp only [UnpackIntoCreateRequest, h, s0, s1, ha, toArray, ne_eq, not_true_eq_false, if_false, Res.ok_bind,
    Res.pure_eq]
  exact ⟨_, rfl⟩

theorem UnpackIntoCreateRequest_err (data : Bytes) (h : data.length ≠ 128) :
    (UnpackIntoCreateRequest data).isErr = true := by
  simp [UnpackIntoCreateRequest, h, Res.isErr]

theorem UnpackIntoCreateRequest_ne_panic (data : Bytes) : UnpackIntoCreateRequest data ≠ .panic := by
  by_cases h : data.length = 128
  · obtain ⟨req, hreq⟩ := UnpackIntoCreateRequest_ok data h
    rw [hreq]; simp
  · exact Res.ne_panic_of_isErr _ (UnpackIntoCreateRequest_err data h)

theorem UnpackIntoLockRequest_ok (data : Bytes) (h : data.length = 96) :
    ∃ req, UnpackIntoLockRequest data = .ok req := by
  have s0 := slice_ok data 0 32 (by omega) (by omega)
  have s1 := slice_ok data 32 64 (by omega) (by omega)
  have s2 := sliceFrom_eq data 64 (by omega)
  simp only [UnpackIntoLockRequest, h, s0, s1, s2, ne_eq, not_true_eq_false, if_false, Res.ok_bind,
    Res.pure_eq]
  exact ⟨_, rfl⟩

theorem UnpackIntoLockRequest_err (data : Bytes) (h : data.length ≠ 96) :
    (UnpackIntoLockRequest data).isErr = true := by
  simp [UnpackIntoLockRequest, h, Res.isErr]

theorem UnpackIntoLockRequest_ne_panic (data : Bytes) : UnpackIntoLockRequest data ≠ .panic := by
  by_cases h : data.length = 96
  · obtain ⟨req, hreq⟩ := UnpackIntoLockRequest_ok data h
    rw [hreq]; simp
  · exact Res.ne_panic_of_isErr _ (UnpackIntoLockRequest_err data h)

theorem UnpackIntoUnlockRequest_ok (data : Bytes) (h : data.length = 160) :
    ∃ req, UnpackIntoUnlockRequest data = .ok req := by
  have s0 := slice_ok data 0 32 (by omega) (by omega)
  have s1 := slice_ok data 32 64 (by omega) (by omega)
  have s2 := slice_ok data 64 96 (by omega) (by omega)
  have s3 := slice_ok data 96 128 (by omega) (by omega)
  have s4 := slice_ok data 128 160 (by omega) (by omega)
  simp only [UnpackIntoUnlockRequest, h, s0, s1, s2, s3, s4, ne_eq, not_true_eq_false, if_false, Res.ok_bind,
    Res.pure_eq]
  exact ⟨_, rfl⟩

theorem UnpackIntoUnlockRequest_err (data : Bytes) (h : data.length ≠ 160) :
    (UnpackIntoUnlockRequest data).isErr = true := by
  simp [UnpackIntoUnlockRequest, h, Res.isErr]

theorem UnpackIntoUnlockRequest_ne_panic (data : Bytes) : UnpackIntoUnlockRequest data ≠ .panic := by
  by_cases h : data.length = 160
  · obtain ⟨req, hreq⟩ := UnpackIntoUnlockRequest_ok data h
    rw [hreq]; simp
  · exact Res.ne_panic_of_isErr _ (UnpackIntoUnlockRequest_err data h)

theorem UnpackIntoClaimRequest_ok (data : Bytes) (h : data.length = 96) :
    ∃ req, UnpackIntoClaimRequest data = .ok req := by
  have s0 := slice_ok data 0 32 (by omega) (by omega)
  have s1 := slice_ok data 32 64 (by omega) (by omega)
  have s2 := slice_ok data 64 96 (by omega) (by omega)
  simp only [UnpackIntoClaimRequest, h, s0, s1, s2, ne_eq, not_true_eq_false, if_false, Res.ok_bind,
    Res.pure_eq]
  exact ⟨_, rfl⟩

theorem UnpackIntoClaimRequest_err (data : Bytes) (h : data.length ≠ 96) :
    (UnpackIntoClaimRequest data).isErr = true := by
  simp [UnpackIntoClaimRequest, h, Res.isErr]

theorem UnpackIntoClaimRequest_ne_panic (data : Bytes) : UnpackIntoClaimRequest data ≠ .panic := by
  by_cases h : data.length = 96
  · obtain ⟨req, hreq⟩ := UnpackIntoClaimRequest_ok data h
    rw [hreq]; simp
  · exact Res.ne_panic_of_isErr _ (UnpackIntoClaimRequest_err data h)

theorem UnpackIntoGrantRequest_ok (data : Bytes) (h : data.length = 32) :
    ∃ req, UnpackIntoGrantRequest data = .ok req := by
  simp only [UnpackIntoGrantRequest, h, ne_eq, not_true_eq_false, if_false, Res.ok_bind,
    Res.pure_eq]
  exact ⟨_, rfl⟩

theorem UnpackIntoGrantRequest_err (data : Bytes) (h : data.length ≠ 32) :
    (UnpackIntoGrantRequest data).isErr = true := by
  simp [UnpackIntoGrantRequest, h, Res.isErr]

theorem UnpackIntoGrantRequest_ne_panic (data : Bytes) : UnpackIntoGrantRequest data ≠ .panic := by
  by_cases h : data.length = 32
  · obtain ⟨req, hreq⟩ := UnpackIntoGrantRequest_ok data h
    rw [hreq]; simp
  · exact Res.ne_panic_of_isErr _ (UnpackIntoGrantRequest_err data h)

theorem UnpackIntoUpdateTokenWeightRequest_ok (data : Bytes) (h : data.length = 64) :
    ∃ req, UnpackIntoUpdateTokenWeightRequest data = .ok req := by
  have s0 := slice_ok data 0 32 (by omega) (by omega)
  have s1 := slice_ok data 32 64 (by omega) (by omega)
  simp only [UnpackIntoUpdateTokenWeightRequest, h, s0, s1, ne_eq, not_true_eq_false, if_false, Res.ok_bind,
    Res.pure_eq]
  exact ⟨_, rfl⟩

theorem UnpackIntoUpdateTokenWeightRequest_err (data : Bytes) (h : data.length ≠ 64) :
    (UnpackIntoUpdateTokenWeightRequest data).isErr = true := by
  simp [UnpackIntoUpdateTokenWeightRequest, h, Res.isErr]

theorem UnpackIntoUpdateTokenWeightRequest_ne_panic (data : Bytes) : UnpackIntoUpdateTokenWeightRequest data ≠ .panic := by
  by_cases h : data.length = 64
  · obtain ⟨req, hreq⟩ := UnpackIntoUpdateTokenWeightRequest_ok data h
    rw [hreq]; simp
  · exact Res.ne_panic_of_isErr _ (UnpackIntoUpdateTokenWeightRequest_err data h)

theorem UnpackIntoUpdateTokenThresholdRequest_ok (data : Bytes) (h : data.length = 64) :
    ∃ req, UnpackIntoUpdateTokenThresholdRequest data = .ok req := by
  have s0 := slice_ok data 0 32 (by omega) (by omega)
  have s1 := slice_ok data 32 64 (by omega) (by omega)
  simp only [UnpackIntoUpdateTokenThresholdRequest, h, s0, s1, ne_eq, not_true_eq_false, if_false, Res.ok_bind,
    Res.pure_eq]
  exact ⟨_, rfl⟩

theorem UnpackIntoUpdateTokenThresholdRequest_err (data : Bytes) (h : data.length ≠ 64) :
    (UnpackIntoUpdateTokenThresholdRequest data).isErr = true := by
  simp [UnpackIntoUpdateTokenThresholdRequest, h, Res.isErr]

theorem UnpackIntoUpdateTokenThresholdRequest_ne_panic (data : Bytes) : UnpackIntoUpdateTokenThresholdRequest data ≠ .panic := by
  by_cases h : data.length = 64
  · obtain ⟨req, hreq⟩ := UnpackIntoUpdateTokenThresholdRequest_ok data h
    rw [hreq]; simp
  · exact Res.ne_panic_of_isErr _ (UnpackIntoUpdateTokenThresholdRequest_err data h)

end LockingDecoders

/-- C19: UnpackIntoCreateRequest, UnpackIntoLockRequest, UnpackIntoUnlockRequest,
UnpackIntoClaimRequest, UnpackIntoGrantRequest, UnpackIntoUpdateTokenWeightRequest and
UnpackIntoUpdateTokenThresholdRequest return an error for every data whose length is not 128, 96,
160, 96, 32, 64 and 64 bytes respectively, and none of them panics on any data: data of the
right length is unpacked. -/
theorem C19_locking_data_lengths (data : Bytes) :
    ((data.length ≠ 128 → ∃ e, UnpackIntoCreateRequest data = .err e) ∧
      (data.length = 128 → ∃ req, UnpackIntoCreateRequest data = .ok req) ∧
      UnpackIntoCreateRequest data ≠ .panic) ∧
    ((data.length ≠ 96 → ∃ e, UnpackIntoLockRequest data = .err e) ∧
      (data.length = 96 → ∃ req, UnpackIntoLockRequest data = .ok req) ∧
      UnpackIntoLockRequest data ≠ .panic) ∧
    ((data.length ≠ 160 → ∃ e, UnpackIntoUnlockRequest data = .err e) ∧
      (data.length = 160 → ∃ req, UnpackIntoUnlockRequest data = .ok req) ∧
      UnpackIntoUnlockRequest data ≠ .panic) ∧
    ((data.length ≠ 96 → ∃ e, UnpackIntoClaimRequest data = .err e) ∧
      (data.length = 96 → ∃ req, UnpackIntoClaimRequest data = .ok req) ∧
      UnpackIntoClaimRequest data ≠ .panic) ∧
    ((data.length ≠ 32 → ∃ e, UnpackIntoGrantRequest data = .err e) ∧
      (data.length = 32 → ∃ req, UnpackIntoGrantRequest data = .ok req) ∧
      UnpackIntoGrantRequest data ≠ .panic) ∧
    ((data.length ≠ 64 → ∃ e, UnpackIntoUpdateTokenWeightRequest data = .err e) ∧
      (data.length = 64 → ∃ req, UnpackIntoUpdateTokenWeightRequest data = .ok req) ∧
      UnpackIntoUpdateTokenWeightRequest data ≠ .panic) ∧
    ((data.length ≠ 64 → ∃ e, UnpackIntoUpdateTokenThresholdRequest data = .err e) ∧
      (data.length = 64 → ∃ req, UnpackIntoUpdateTokenThresholdRequest data = .ok req) ∧
      UnpackIntoUpdateTokenThresholdRequest data ≠ .panic) :=
  ⟨⟨fun h => (Res.isErr_iff _).1 (UnpackIntoCreateRequest_err data h),
      UnpackIntoCreateRequest_ok data, UnpackIntoCreateRequest_ne_panic data⟩,
   ⟨fun h => (Res.isErr_iff _).1 (UnpackIntoLockRequest_err data h),
      UnpackIntoLockRequest_ok data, UnpackIntoLockRequest_ne_panic data⟩,
   ⟨fun h => (Res.isErr_iff _).1 (UnpackIntoUnlockRequest_err data h),
      UnpackIntoUnlockRequest_ok data, UnpackIntoUnlockRequest_ne_panic data⟩,
   ⟨fun h => (Res.isErr_iff _).1 (UnpackIntoClaimRequest_err data h),
      UnpackIntoClaimRequest_ok data, UnpackIntoClaimRequest_ne_panic data⟩,
   ⟨fun h => (Res.isErr_iff _).1 (UnpackIntoGrantRequest_err data h),
      UnpackIntoGrantRequest_ok data, UnpackIntoGrantRequest_ne_panic data⟩,
   ⟨fun h => (Res.isErr_iff _).1 (UnpackIntoUpdateTokenWeightRequest_err data h),
      UnpackIntoUpdateTokenWeightRequest_ok data, UnpackIntoUpdateTokenWeightRequest_ne_panic data⟩,
   ⟨fun h => (Res.isErr_iff _).1 (UnpackIntoUpdateTokenThresholdRequest_err data h),
      UnpackIntoUpdateTokenThresholdRequest_ok data, UnpackIntoUpdateTokenThresholdRequest_ne_panic data⟩⟩

/-- C19 on 95 and on 96 bytes of Lock event data. -/
theorem C19_locking_data_lengths_witness :
    (∃ e, UnpackIntoLockRequest (List.replicate 95 0) = .err e) ∧
    (∃ req, UnpackIntoLockRequest (List.replicate 96 0) = .ok req) :=
  ⟨(C19_locking_data_lengths (List.replicate 95 0)).2.1.1 (by decide),
   (C19_locking_data_lengths (List.replicate 96 0)).2.1.2.1 (by decide)⟩


/-! ## Claim C20: id and weight words above 64 bits in the locking event decoders -/

theorem UnpackIntoUnlockRequest_id (data : Bytes) (h : data.length = 160) :
    ∃ req, UnpackIntoUnlockRequest data = .ok req ∧ req.Id = word data 0 % 2 ^ 64 := by
  have s0 := slice_ok data 0 32 (by omega) (by omega)
  have s1 := slice_ok data 32 64 (by omega) (by omega)
  have s2 := slice_ok data 64 96 (by omega) (by omega)
  have s3 := slice_ok data 96 128 (by omega) (by omega)
  have s4 := slice_ok data 128 160 (by omega) (by omega)
  simp only [UnpackIntoUnlockRequest, h, s0, s1, s2, s3, s4, ne_eq, not_true_eq_false, if_false,
    Res.ok_bind, Res.pure_eq]
  refine ⟨_, rfl, ?_⟩
  simp [Uint64_SetBytes, word]

theorem UnpackIntoClaimRequest_id (data : Bytes) (h : data.length = 96) :
    ∃ req, UnpackIntoClaimRequest data = .ok req ∧ req.Id = word data 0 % 2 ^ 64 := by
  have s0 := slice_ok data 0 32 (by omega) (by omega)
  have s1 := slice_ok data 32 64 (by omega) (by omega)
  have s2 := slice_ok data 64 96 (by omega) (by omega)
  simp only [UnpackIntoClaimRequest, h, s0, s1, s2, ne_eq, not_true_eq_false, if_false,
    Res.ok_bind, Res.pure_eq]
  refine ⟨_, rfl, ?_⟩
  simp [Uint64_SetBytes, word]

theorem UnpackIntoUpdateTokenWeightRequest_weight (data : Bytes) (h : data.length = 64) :
    ∃ req, UnpackIntoUpdateTokenWeightRequest data = .ok req ∧
      req.Weight = word data 1 % 2 ^ 64 := by
  have s0 := slice_ok data 0 32 (by omega) (by omega)
  have s1 := slice_ok data 32 64 (by omega) (by omega)
  simp only [UnpackIntoUpdateTokenWeightRequest, h, s0, s1, ne_eq, not_true_eq_false, if_false,
    Res.ok_bind, Res.pure_eq]
  refine ⟨_, rfl, ?_⟩
  simp [Uint64_SetBytes, word]

set_option maxRecDepth 100000 in
/-- C20, as stated, fails: UnpackIntoUnlockRequest and UnpackIntoClaimRequest read the id word
2^64 + 5 as the id 5, and UnpackIntoUpdateTokenWeightRequest reads the weight word 2^64 + 5 as
the weight 5; all three return a request and no error. -/
theorem C20_locking_words_truncated :
    UnpackIntoUnlockRequest (toBE 32 (2 ^ 64 + 5) ++ List.replicate 128 0)
      = .ok ⟨5, List.replicate 20 0, List.replicate 20 0, List.replicate 20 0, 0⟩ ∧
    UnpackIntoClaimRequest (toBE 32 (2 ^ 64 + 5) ++ List.replicate 64 0)
      = .ok ⟨5, List.replicate 20 0, List.replicate 20 0⟩ ∧
    UnpackIntoUpdateTokenWeightRequest (List.replicate 32 0 ++ toBE 32 (2 ^ 64 + 5))
      = .ok ⟨List.replicate 20 0, 5⟩ ∧
    fromBE (toBE 32 (2 ^ 64 + 5)) = 2 ^ 64 + 5 := by
  decide

/-- C20, amended: the locking event decoders make no range check.  For data of the right size,
UnpackIntoUnlockRequest (160 bytes) and UnpackIntoClaimRequest (96 bytes) succeed with Id the
value of the id word `data[0:32]` modulo `2^64`, and UnpackIntoUpdateTokenWeightRequest
(64 bytes) succeeds with Weight the value of the weight word `data[32:64]` modulo `2^64`; the
u64 field is the value of the word whenever the word is at most `2^64 - 1`. -/
theorem C20_locking_words_low_bits (data : Bytes) :
    (data.length = 160 → ∃ req, UnpackIntoUnlockRequest data = .ok req ∧
      req.Id = word data 0 % 2 ^ 64 ∧ (word data 0 < 2 ^ 64 → req.Id = word data 0)) ∧
    (data.length = 96 → ∃ req, UnpackIntoClaimRequest data = .ok req ∧
      req.Id = word data 0 % 2 ^ 64 ∧ (word data 0 < 2 ^ 64 → req.Id = word data 0)) ∧
    (data.length = 64 → ∃ req, UnpackIntoUpdateTokenWeightRequest data = .ok req ∧
      req.Weight = word data 1 % 2 ^ 64 ∧
      (word data 1 < 2 ^ 64 → req.Weight = word data 1)) := by
  refine ⟨fun h => ?_, fun h => ?_, fun h => ?_⟩
  · obtain ⟨req, h1, h2⟩ := UnpackIntoUnlockRequest_id data h
    exact ⟨req, h1, h2, fun hlt => h2.trans (Nat.mod_eq_of_lt hlt)⟩
  · obtain ⟨req, h1, h2⟩ := UnpackIntoClaimRequest_id data h
    exact ⟨req, h1, h2, fun hlt => h2.trans (Nat.mod_eq_of_lt hlt)⟩
  · obtain ⟨req, h1, h2⟩ := UnpackIntoUpdateTokenWeightRequest_weight data h
    exact ⟨req, h1, h2, fun hlt => h2.trans (Nat.mod_eq_of_lt hlt)⟩

set_option maxRecDepth 100000 in
/-- C20 amended, on Unlock data whose id word is 258 and on Unlock data whose id word is
`2^64 + 5`. -/
theorem C20_locking_words_low_bits_witness :
    (∃ req, UnpackIntoUnlockRequest (toBE 32 258 ++ List.replicate 128 0) = .ok req ∧
      req.Id = 258) ∧
    (∃ req, UnpackIntoUnlockRequest (toBE 32 (2 ^ 64 + 5) ++ List.replicate 128 0) = .ok req ∧
      req.Id = 5) := by
  obtain ⟨r1, a1, _, c1⟩ :=
    (C20_locking_words_low_bits (toBE 32 258 ++ List.replicate 128 0)).1 (by decide)
  obtain ⟨r2, a2, b2, _⟩ :=
    (C20_locking_words_low_bits (toBE 32 (2 ^ 64 + 5) ++ List.replicate 128 0)).1 (by decide)
  exact ⟨⟨r1, a1, (c1 (by decide)).trans (by decide)⟩, ⟨r2, a2, b2.trans (by decide)⟩⟩



/-! ## Claim C21: the Withdrawal address length on the wire -/

section WireAddress

theorem selectDecode_withdrawal (input : Bytes)
    (h : input.head? = some WithdrawalRequestType) :
    selectDecode input = some ((WithdrawalRequest.new.Decode input).wrap .withdrawal) := by
  cases input with
  | nil => simp at h
  | cons t l =>
    simp only [List.head?_cons, Option.some.injEq] at h
    subst h
    unfold selectDecode
    rw [List.getElem?_cons_zero]
    dsimp only
    rw [if_neg (by decide), if_pos rfl]

theorem WithdrawalRequest_decode_accepts (r : WithdrawalRequest) (b : Bytes)
    (hl : 26 ≤ b.length) (ht : b.head? = some WithdrawalRequestType)
    (hlen : b.length = 26 + (b.getD 25 0).val) :
    ∃ v, r.Decode b = .ok v ∧ v.Address = b.drop 26 ∧ v.Address.length = (b.getD 25 0).val := by
  rw [WithdrawalRequest_decode_cases r b hl ht, if_neg (by omega)]
  exact ⟨_, rfl, rfl, by simp only [List.length_drop]; omega⟩

end WireAddress

set_option maxRecDepth 100000 in
/-- C21, as stated, fails: the 117-byte string made of the tag 0x61, 24 zero bytes, the length
byte 91 and 91 address bytes has a length byte above 90, and WithdrawalRequest.Decode accepts it
with an address of 91 bytes; DecodeRequests accepts the list of this one entry. -/
theorem C21_long_address_accepted :
    (WithdrawalRequestType :: (List.replicate 24 0 ++ [91] ++ List.replicate 91 7))[25]?
      = some (91 : Byte) ∧
    WithdrawalRequest.new.Decode
        (WithdrawalRequestType :: (List.replicate 24 0 ++ [91] ++ List.replicate 91 7))
      = .ok ⟨0, 0, 0, List.replicate 91 7⟩ ∧
    DecodeRequests [WithdrawalRequestType :: (List.replicate 24 0 ++ [91] ++ List.replicate 91 7)]
      = some ⟨⟨[⟨0, 0, 0, List.replicate 91 7⟩], [], []⟩, ⟨[], []⟩,
          ⟨[], [], [], [], [], [], [], []⟩, none⟩ := by
  refine ⟨by decide, by decide, by decide⟩

/-- C21, amended: the length byte is checked against the bytes that follow it, not against 90.
For every byte string `b` whose length is not 26 plus the value of its length byte `b[25]` (or
that has no byte 25), WithdrawalRequest.Decode returns an error, and DecodeRequests rejects every
list with such an entry whose tag is 0x61; a string with the tag 0x61 and length `26 + b[25]` is
accepted with the address `b[26:]` of `b[25]` bytes, whatever the length byte. -/
theorem C21_wire_address_length (b : Bytes) :
    ((∀ x : Byte, b[25]? = some x → b.length ≠ 26 + x.val) →
      ∀ r : WithdrawalRequest, ∃ e, r.Decode b = .err e) ∧
    ((∀ x : Byte, b[25]? = some x → b.length ≠ 26 + x.val) →
      b.head? = some WithdrawalRequestType →
      ∀ reqs : List Bytes, b ∈ reqs → ∃ d e, DecodeRequests reqs = some d ∧ d.err = some e) ∧
    (26 ≤ b.length → b.head? = some WithdrawalRequestType →
      b.length = 26 + (b.getD 25 0).val →
      ∀ r : WithdrawalRequest, ∃ v, r.Decode b = .ok v ∧ v.Address = b.drop 26 ∧
        v.Address.length = (b.getD 25 0).val) := by
  refine ⟨fun h r => (Res.isErr_iff _).1 (WithdrawalRequest_decode_length r b h),
    fun h ht reqs hin => ?_, fun hl ht hlen r => WithdrawalRequest_decode_accepts r b hl ht hlen⟩
  obtain ⟨e, he⟩ := (Res.isErr_iff _).1 (WithdrawalRequest_decode_length WithdrawalRequest.new b h)
  refine DecodeRequests_loop_err reqs
    ⟨⟨[], [], []⟩, ⟨[], []⟩, ⟨[], [], [], [], [], [], [], []⟩, none⟩
    ⟨b, hin, Or.inr (Or.inr ⟨e, ?_⟩)⟩
  rw [selectDecode_withdrawal b ht, he]
  rfl

/-- C21 amended on a Withdrawal encoding whose length byte says 3 while 2 address bytes
follow. -/
theorem C21_wire_address_length_witness :
    ∃ e, WithdrawalRequest.new.Decode
      (WithdrawalRequestType :: (List.replicate 24 0 ++ [3] ++ [7, 7])) = .err e :=
  (C21_wire_address_length (WithdrawalRequestType :: (List.replicate 24 0 ++ [3] ++ [7, 7]))).1
    (fun x hx => by
      obtain rfl : x = 3 := Option.some.inj (hx.symm.trans (by decide))
      decide)
    WithdrawalRequest.new



/-! ## Claims C22 and C24: byte layouts -/

section ByteLayout

theorem toLE_getElem? (k n j : Nat) (h : j < k) :
    (toLE k n)[j]? = some (byte (n / 256 ^ j)) := by
  induction k generalizing n j with
  | zero => omega
  | succ k ih =>
    cases j with
    | zero => simp [toLE]
    | succ j =>
      rw [toLE, List.getElem?_cons_succ, ih (n / 256) j (by omega), Nat.div_div_eq_div_mul,
        pow_succ, Nat.mul_comm]

theorem toBE_getElem? (k n j : Nat) (h : j < k) :
    (toBE k n)[j]? = some (byte (n / 256 ^ (k - 1 - j))) := by
  rw [toBE, List.getElem?_reverse (by simpa using h), toLE_length,
    toLE_getElem? k n (k - 1 - j) (by omega)]

theorem drop_take_of_slice {α : Type} (b m : List α) (lo hi : Nat) (h1 : lo ≤ hi)
    (h2 : hi ≤ b.length) (h : slice b lo hi = .ok m) : (b.take hi).drop lo = m := by
  rw [slice_ok b lo hi h1 h2] at h
  exact Res.ok.inj h

theorem UnlockRequest_encode_eq (v : UnlockRequest) (h0 : 0 ≤ v.Amount)
    (h : v.Amount < 2 ^ 256) :
    v.Encode = some (UnlockRequestType ::
      (toLE 8 v.Id ++ (v.Validator ++ (v.Recipient ++ (v.Token ++ toBE 32 v.Amount.toNat))))) := by
  have hlt : v.Amount.natAbs < 256 ^ 32 := by
    have : (256 : Nat) ^ 32 = 2 ^ 256 := by norm_num
    omega
  have hn : v.Amount.natAbs = v.Amount.toNat := by omega
  have hf : FillBytes v.Amount 32 = some (toBE 32 v.Amount.toNat) := by
    rw [FillBytes, if_pos hlt, hn]
  simp [UnlockRequest.Encode, UnlockRequest.RequestType, hf, EncodeUint64, PutUint64]

end ByteLayout

/-- C22: for every UnlockRequest (id a u64, the three addresses of 20 bytes) with amount in
`[0, 2^256)`, Encode returns 101 bytes: byte 0 is the tag 0x66, bytes 1..8 the id as 8
little-endian bytes (byte `1 + j` is `(id / 256^j) mod 256`), bytes 9..28 the validator, 29..48
the recipient, 49..68 the token, and bytes 69..100 the amount as a 32-byte big-endian integer
(byte `69 + k` is `(amount / 256^(31-k)) mod 256`, so the left is padded with zeros). -/
theorem C22_unlock_layout (v : UnlockRequest) (hv : v.Valid) :
    ∃ b, v.Encode = some b ∧ b.length = 101 ∧ b[0]? = some (0x66 : Byte) ∧
      (b.take 9).drop 1 = toLE 8 v.Id ∧
      (∀ j, j < 8 → b[1 + j]? = some (byte (v.Id / 256 ^ j))) ∧
      (b.take 29).drop 9 = v.Validator ∧
      (b.take 49).drop 29 = v.Recipient ∧
      (b.take 69).drop 49 = v.Token ∧
      (b.take 101).drop 69 = toBE 32 v.Amount.toNat ∧
      (∀ k, k < 32 → b[69 + k]? = some (byte (v.Amount.toNat / 256 ^ (31 - k)))) ∧
      SetBytes (b.drop 69) = v.Amount := by
  obtain ⟨h1, h2, h3, h4, h5, h6⟩ := hv
  refine ⟨_, UnlockRequest_encode_eq v h5 h6, by simp [h2, h3, h4], rfl, ?_, ?_, ?_, ?_, ?_, ?_,
    ?_, ?_⟩
  · exact drop_take_of_slice _ _ 1 9 (by omega) (by simp [h2, h3, h4])
      (slice_mid [UnlockRequestType] (toLE 8 v.Id) _ 1 9 rfl (by simp))
  · intro j hj
    rw [Nat.add_comm, List.getElem?_cons_succ, List.getElem?_append_left (by simpa using hj)]
    exact toLE_getElem? 8 v.Id j hj
  · have := slice_mid (UnlockRequestType :: toLE 8 v.Id) v.Validator
      (v.Recipient ++ (v.Token ++ toBE 32 v.Amount.toNat)) 9 29 (by simp) (by simp [h2])
    exact drop_take_of_slice _ _ 9 29 (by omega) (by simp [h2, h3, h4]) (by simpa using this)
  · have := slice_mid (UnlockRequestType :: (toLE 8 v.Id ++ v.Validator)) v.Recipient
      (v.Token ++ toBE 32 v.Amount.toNat) 29 49 (by simp [h2]) (by simp [h3])
    exact drop_take_of_slice _ _ 29 49 (by omega) (by simp [h2, h3, h4]) (by simpa using this)
  · have := slice_mid (UnlockRequestType :: (toLE 8 v.Id ++ (v.Validator ++ v.Recipient)))
      v.Token (toBE 32 v.Amount.toNat ++ []) 49 69 (by simp [h2, h3]) (by simp [h4])
    exact drop_take_of_slice _ _ 49 69 (by omega) (by simp [h2, h3, h4]) (by simpa using this)
  · have := slice_mid
      (UnlockRequestType :: (toLE 8 v.Id ++ (v.Validator ++ (v.Recipient ++ v.Token))))
      (toBE 32 v.Amount.toNat) [] 69 101 (by simp [h2, h3, h4]) (by simp)
    exact drop_take_of_slice _ _ 69 101 (by omega) (by simp [h2, h3, h4]) (by simpa using this)
  · intro k hk
    have e : UnlockRequestType :: (toLE 8 v.Id ++ (v.Validator ++ (v.Recipient ++
        (v.Token ++ toBE 32 v.Amount.toNat)))) =
        (UnlockRequestType :: (toLE 8 v.Id ++ (v.Validator ++ (v.Recipient ++ v.Token)))) ++
          toBE 32 v.Amount.toNat := by simp
    rw [e, List.getElem?_append_right (by simp [h2, h3, h4])]
    have e2 : 69 + k - (UnlockRequestType ::
        (toLE 8 v.Id ++ (v.Validator ++ (v.Recipient ++ v.Token)))).length = k := by
      simp [h2, h3, h4]
    rw [e2]
    exact toBE_getElem? 32 v.Amount.toNat k hk
  · have e : UnlockRequestType :: (toLE 8 v.Id ++ (v.Validator ++ (v.Recipient ++
        (v.Token ++ toBE 32 v.Amount.toNat)))) =
        (UnlockRequestType :: (toLE 8 v.Id ++ (v.Validator ++ (v.Recipient ++ v.Token)))) ++
          toBE 32 v.Amount.toNat := by simp
    have hlen : (UnlockRequestType ::
        (toLE 8 v.Id ++ (v.Validator ++ (v.Recipient ++ v.Token)))).length = 69 := by
      simp [h2, h3, h4]
    rw [e, ← hlen, List.drop_left]
    have hlt : v.Amount.toNat < 256 ^ 32 := by
      have : (256 : Nat) ^ 32 = 2 ^ 256 := by norm_num
      omega
    simp only [SetBytes, fromBE_toBE_of_lt 32 _ hlt, Int.ofNat_eq_coe]
    omega

/-- C22 on the Unlock request with id 258, the sample address three times and amount 1000. -/
theorem C22_unlock_layout_witness :
    ∃ b, UnlockRequest.Encode ⟨258, sampleAddress, sampleAddress, sampleAddress, 1000⟩ = some b ∧
      b.length = 101 ∧ b[0]? = some (0x66 : Byte) ∧ (b.take 9).drop 1 = toLE 8 258 ∧
      (b.take 29).drop 9 = sampleAddress ∧ (b.take 101).drop 69 = toBE 32 1000 := by
  obtain ⟨b, h1, h2, h3, h4, _, h5, _, _, h6, _, _⟩ :=
    C22_unlock_layout ⟨258, sampleAddress, sampleAddress, sampleAddress, 1000⟩
      (by norm_num [UnlockRequest.Valid, sampleAddress])
  exact ⟨b, h1, h2, h3, h4, h5, h6⟩



/-! ## Claims C23 – C25: the uint64 codec -/

/-- C23: for every list `ns` of 64-bit unsigned integers, the empty list included,
`DecodeUint64(EncodeUint64(ns...), len(ns))` succeeds and returns `ns`. -/
theorem C23_uint64_round_trip (ns : List Nat) (hns : ∀ n ∈ ns, n < 2 ^ 64) :
    DecodeUint64 (EncodeUint64 ns) ns.length = .ok ns ∧
    DecodeUint64 (EncodeUint64 []) ([] : List Nat).length = .ok [] :=
  ⟨DecodeUint64_encode ns hns, DecodeUint64_encode [] (fun _ h => absurd h (List.not_mem_nil _))⟩

/-- C23 on the lists of the test of the codec: `[100, 10000]` and `[4294967297]`. -/
theorem C23_uint64_round_trip_witness :
    DecodeUint64 (EncodeUint64 [100, 10000]) 2 = .ok [100, 10000] ∧
    DecodeUint64 (EncodeUint64 [4294967297]) 1 = .ok [4294967297] :=
  ⟨(C23_uint64_round_trip [100, 10000] (by decide)).1,
   (C23_uint64_round_trip [4294967297] (by decide)).1⟩

section Uint64Layout

theorem EncodeUint64_getElem? (ns : List Nat) (i j n : Nat) (hi : ns[i]? = some n)
    (hj : j < 8) : (EncodeUint64 ns)[8 * i + j]? = some (byte (n / 256 ^ j)) := by
  induction ns generalizing i with
  | nil => simp at hi
  | cons m ns ih =>
    cases i with
    | zero =>
      simp only [List.getElem?_cons_zero, Option.some.injEq] at hi
      subst hi
      rw [EncodeUint64, PutUint64, Nat.mul_zero, Nat.zero_add,
        List.getElem?_append_left (by simpa using hj)]
      exact toLE_getElem? 8 m j hj
    | succ i =>
      rw [List.getElem?_cons_succ] at hi
      rw [EncodeUint64, PutUint64, List.getElem?_append_right (by simp; omega)]
      have e : 8 * (i + 1) + j - (toLE 8 m).length = 8 * i + j := by simp; omega
      rw [e]
      exact ih i hi

theorem EncodeUint64_append (ns ms : List Nat) :
    EncodeUint64 (ns ++ ms) = EncodeUint64 ns ++ EncodeUint64 ms := by
  induction ns with
  | nil => rfl
  | cons n ns ih => simp [EncodeUint64, ih]

end Uint64Layout

/-- C24: for every list `ns` of `n` values, `EncodeUint64(ns...)` has `8 * n` bytes and its byte
at index `8 * i + j` (`i < n`, `j < 8`) is `(ns[i] / 256^j) mod 256`: the values are
concatenated in the order of the arguments, each as 8 little-endian bytes;
`EncodeUint64(100, 10000) = [100,0,0,0,0,0,0,0,16,39,0,0,0,0,0,0]` and
`EncodeUint64(4294967297) = [1,0,0,0,1,0,0,0]`. -/
theorem C24_uint64_layout (ns : List Nat) :
    (EncodeUint64 ns).length = 8 * ns.length ∧
    (∀ i j n, ns[i]? = some n → j < 8 →
      ∃ x : Byte, (EncodeUint64 ns)[8 * i + j]? = some x ∧ x.val = n / 256 ^ j % 256) ∧
    (∀ n ms, EncodeUint64 (n :: ms) = toLE 8 n ++ EncodeUint64 ms) ∧
    EncodeUint64 [100, 10000] = [100, 0, 0, 0, 0, 0, 0, 0, 16, 39, 0, 0, 0, 0, 0, 0] ∧
    EncodeUint64 [4294967297] = [1, 0, 0, 0, 1, 0, 0, 0] :=
  ⟨EncodeUint64_length ns,
   fun i j n hi hj => ⟨_, EncodeUint64_getElem? ns i j n hi hj, rfl⟩,
   fun _ _ => rfl, by decide, by decide⟩

/-- C24 on the second byte of the second value of `EncodeUint64(100, 10000)`: it is
`(10000 / 256) mod 256 = 39`. -/
theorem C24_uint64_layout_witness :
    ∃ x : Byte, (EncodeUint64 [100, 10000])[8 * 1 + 1]? = some x ∧ x.val = 10000 / 256 ^ 1 % 256 :=
  (C24_uint64_layout [100, 10000]).2.1 1 1 10000 rfl (by decide)

section Uint64Length

theorem DecodeUint64_err_iff (data : Bytes) (c : Int) :
    (∃ e, DecodeUint64 data c = .err e) ↔ (data.length : Int) ≠ c * 8 := by
  by_cases h : ((data.length / 8 : Nat) : Int) ≠ c ∨ data.length % 8 ≠ 0
  · have hne : (data.length : Int) ≠ c * 8 := by omega
    simp only [DecodeUint64, h, if_true, hne, ne_eq, not_false_eq_true, iff_true]
    exact ⟨_, rfl⟩
  · have heq : (data.length : Int) = c * 8 := by omega
    have hc : c = ((data.length / 8 : Nat) : Int) := by omega
    have hd := DecodeUint64_ok data (data.length / 8) (by omega)
    rw [hc, hd]
    simp only [reduceCtorEq, exists_false, false_iff, ne_eq, not_not]
    omega

theorem DecodeUint64_values (data : Bytes) (c : Int) (h : (data.length : Int) = c * 8) :
    DecodeUint64 data c =
      .ok ((List.range c.toNat).map fun i => fromLE ((data.take (8 * i + 8)).drop (8 * i))) := by
  have hc : c = ((c.toNat : Nat) : Int) := by omega
  have hd := DecodeUint64_ok data c.toNat (by omega)
  rw [← hc] at hd
  rw [hd]
  congr 1
  apply List.map_congr_left
  intro j _
  rw [List.drop_take, Nat.mul_comm]
  congr 2
  omega

end Uint64Length

/-- C25: for every byte string and every integer count, `DecodeUint64(data, count)` returns an
error if and only if `len(data) ≠ count * 8`; otherwise it succeeds (it never panics) with
exactly `count` values, the `i`-th being the little-endian value of `data[8i : 8i+8]`. -/
theorem C25_uint64_length_check (data : Bytes) (c : Int) :
    ((∃ e, DecodeUint64 data c = .err e) ↔ (data.length : Int) ≠ c * 8) ∧
    DecodeUint64 data c ≠ .panic ∧
    ((data.length : Int) = c * 8 →
      ∃ vs, DecodeUint64 data c = .ok vs ∧ (vs.length : Int) = c ∧
        ∀ i, i < vs.length →
          vs[i]? = some (fromLE ((data.take (8 * i + 8)).drop (8 * i)))) := by
  refine ⟨DecodeUint64_err_iff data c, ?_, fun h => ?_⟩
  · by_cases h : (data.length : Int) = c * 8
    · rw [DecodeUint64_values data c h]
      simp
    · obtain ⟨e, he⟩ := (DecodeUint64_err_iff data c).2 h
      rw [he]
      simp
  · refine ⟨_, DecodeUint64_values data c h, ?_, fun i hi => ?_⟩
    · simp only [List.length_map, List.length_range]
      omega
    · simp only [List.length_map, List.length_range] at hi
      simp [List.getElem?_map, List.getElem?_range hi]

/-- C25 on 16 bytes read as 2 values, and on 15 bytes. -/
theorem C25_uint64_length_check_witness :
    (∃ vs, DecodeUint64 (EncodeUint64 [100, 10000]) 2 = .ok vs ∧ (vs.length : Int) = 2 ∧
      ∀ i, i < vs.length →
        vs[i]? = some (fromLE (((EncodeUint64 [100, 10000]).take (8 * i + 8)).drop (8 * i)))) ∧
    (∃ e, DecodeUint64 (List.replicate 15 0) 2 = .err e) :=
  ⟨(C25_uint64_length_check (EncodeUint64 [100, 10000]) 2).2.2 (by decide),
   (C25_uint64_length_check (List.replicate 15 0) 2).1.2 (by decide)⟩



/-! ## Claim C26: address narrowing in the Lock event decoder -/

section LockNarrowing

theorem UnpackIntoLockRequest_eq (data : Bytes) (h : data.length = 96) :
    UnpackIntoLockRequest data = .ok
      { Validator := (data.take 32).drop 12
        Token := (data.take 64).drop 44
        Amount := (fromBE (data.drop 64) : Int) } := by
  have s0 := slice_ok data 0 32 (by omega) (by omega)
  have s1 := slice_ok data 32 64 (by omega) (by omega)
  have s2 := sliceFrom_eq data 64 (by omega)
  have a0 : BytesToAddress ((data.take 32).drop 0) = (data.take 32).drop 12 := by
    rw [List.drop_zero, BytesToAddress_of_hash _ (by simp; omega)]
  have a1 : BytesToAddress ((data.take 64).drop 32) = (data.take 64).drop 44 := by
    rw [BytesToAddress_of_hash _ (by simp; omega), List.drop_drop]
  simp only [UnpackIntoLockRequest, h, s0, s1, s2, a0, a1, ne_eq, not_true_eq_false, if_false,
    Res.ok_bind, Res.pure_eq, SetBytes, Int.ofNat_eq_coe]

end LockNarrowing

/-- C26: for every data of 96 bytes, UnpackIntoLockRequest succeeds with Validator
`data[12:32]`, Token `data[44:64]` and Amount the big-endian value of `data[64:96]`, which lies
in `[0, 2^256)`; two data strings of 96 bytes that agree on the bytes 12..31 and 44..95 are
unpacked to the same request, so the bytes 0..11 and 32..43 have no influence. -/
theorem C26_lock_address_narrowing (data : Bytes) (h : data.length = 96) :
    (∃ req, UnpackIntoLockRequest data = .ok req ∧
      req.Validator = (data.take 32).drop 12 ∧ req.Validator.length = 20 ∧
      req.Token = (data.take 64).drop 44 ∧ req.Token.length = 20 ∧
      req.Amount = (fromBE ((data.take 96).drop 64) : Int) ∧
      0 ≤ req.Amount ∧ req.Amount < 2 ^ 256) ∧
    (∀ other : Bytes, other.length = 96 →
      (other.take 32).drop 12 = (data.take 32).drop 12 → other.drop 44 = data.drop 44 →
      UnpackIntoLockRequest other = UnpackIntoLockRequest data) := by
  have ht : data.take 96 = data := List.take_of_length_le (by omega)
  refine ⟨⟨_, UnpackIntoLockRequest_eq data h, rfl, by simp; omega, rfl, by simp; omega,
    by rw [ht], by positivity, ?_⟩, fun other ho hv hr => ?_⟩
  · have hlt := fromBE_lt (data.drop 64)
    have hl : (data.drop 64).length = 32 := by simp; omega
    rw [hl] at hlt
    have : (256 : Nat) ^ 32 = 2 ^ 256 := by norm_num
    simp only
    exact_mod_cast this ▸ hlt
  · rw [UnpackIntoLockRequest_eq data h, UnpackIntoLockRequest_eq other ho, hv]
    have e1 : ∀ b : Bytes, (b.take 64).drop 44 = (b.drop 44).take 20 := by
      intro b; rw [List.drop_take]
    have e2 : ∀ b : Bytes, b.drop 64 = (b.drop 44).drop 20 := by
      intro b; rw [List.drop_drop]
    rw [e1 other, e1 data, e2 other, e2 data, hr]

set_option maxRecDepth 100000 in
/-- C26 on two Lock events that differ in the 12 high-order bytes of both address slots. -/
theorem C26_lock_address_narrowing_witness :
    UnpackIntoLockRequest
        (List.replicate 12 0xff ++ sampleAddress ++ List.replicate 12 0xff ++ sampleAddress ++
          toBE 32 1000) =
      UnpackIntoLockRequest
        (List.replicate 12 0 ++ sampleAddress ++ List.replicate 12 0 ++ sampleAddress ++
          toBE 32 1000) :=
  (C26_lock_address_narrowing
      (List.replicate 12 0 ++ sampleAddress ++ List.replicate 12 0 ++ sampleAddress ++
        toBE 32 1000) (by decide)).2
    (List.replicate 12 0xff ++ sampleAddress ++ List.replicate 12 0xff ++ sampleAddress ++
      toBE 32 1000) (by decide) (by decide) (by decide)



/-! ## Decode accepts one byte string per request -/

section Canonical

theorem exists_split {α : Type} (l : List α) (n : Nat) (h : n ≤ l.length) :
    ∃ p s, l = p ++ s ∧ p.length = n :=
  ⟨l.take n, l.drop n, (List.take_append_drop n l).symm, by simp [h]⟩

theorem fromLE_lt_u64 (x : Bytes) (h : x.length = 8) : fromLE x < 2 ^ 64 := by
  have := fromLE_lt x
  rw [h] at this
  omega

theorem toLE_fromLE_of_length (x : Bytes) (h : x.length = 8) : toLE 8 (fromLE x) = x := by
  have := toLE_fromLE x
  rwa [h] at this

theorem fromBE_word_lt (x : Bytes) (h : x.length = 32) : ((fromBE x : Nat) : Int) < 2 ^ 256 := by
  have := fromBE_lt x
  rw [h] at this
  have e : (256 : Nat) ^ 32 = 2 ^ 256 := by norm_num
  rw [e] at this
  exact_mod_cast this

theorem FillBytes_fromBE (x : Bytes) (h : x.length = 32) :
    FillBytes ((fromBE x : Nat) : Int) 32 = some x := by
  have hlt := fromBE_lt x
  rw [h] at hlt
  have hx := toBE_fromBE x
  rw [h] at hx
  simp only [FillBytes, Int.natAbs_ofNat, hlt, if_true, hx]

theorem head_and_tail (b : Bytes) (t : Byte) (h : b.head? = some t) : ∃ l, b = t :: l := by
  cases b with
  | nil => simp at h
  | cons a l =>
    simp only [List.head?_cons, Option.some.injEq] at h
    exact ⟨l, by rw [h]⟩

theorem GasRequest_canonical (r v : GasRequest) (b : Bytes) (h : r.Decode b = .ok v) :
    v.Encode = some b := by
  have hl : b.length = 41 := by
    by_contra hc
    have := GasRequest_decode_length r b hc
    rw [h] at this
    simp [Res.isErr] at this
  have ht : b.head? = some GasRequestType := by
    by_contra hc
    have := GasRequest_decode_tag r b hc
    rw [h] at this
    simp [Res.isErr] at this
  obtain ⟨l, rfl⟩ := head_and_tail b _ ht
  simp only [List.length_cons] at hl
  obtain ⟨p0, s0, rfl, hp0⟩ := exists_split l 8 (by omega)
  simp only [List.length_append] at hl
  have e0 := toLE_fromLE_of_length p0 (by omega)
  have e1 := FillBytes_fromBE s0 (by omega)
  have hv : GasRequest.Valid ⟨fromLE p0, ((fromBE s0 : Nat) : Int)⟩ := ⟨fromLE_lt_u64 p0 (by omega), by positivity, fromBE_word_lt s0 (by omega)⟩
  have he : GasRequest.Encode ⟨fromLE p0, ((fromBE s0 : Nat) : Int)⟩ = some (GasRequestType :: (p0 ++ s0)) := by
    simp [GasRequest.Encode, GasRequest.RequestType, EncodeUint64, PutUint64, e0, e1]
  obtain ⟨enc, h1, _, h2⟩ := GasRequest_decode_encode ⟨fromLE p0, ((fromBE s0 : Nat) : Int)⟩ hv
  have h3 := h2 r
  rw [he] at h1
  rw [← Option.some.inj h1, h] at h3
  rw [Res.ok.inj h3]
  exact he

theorem ReplaceByFeeRequest_canonical (r v : ReplaceByFeeRequest) (b : Bytes) (h : r.Decode b = .ok v) :
    v.Encode = b := by
  have hl : b.length = 17 := by
    by_contra hc
    have := ReplaceByFeeRequest_decode_length r b hc
    rw [h] at this
    simp [Res.isErr] at this
  have ht : b.head? = some ReplaceByFeeRequestType := by
    by_contra hc
    have := ReplaceByFeeRequest_decode_tag r b hc
    rw [h] at this
    simp [Res.isErr] at this
  obtain ⟨l, rfl⟩ := head_and_tail b _ ht
  simp only [List.length_cons] at hl
  obtain ⟨p0, s0, rfl, hp0⟩ := exists_split l 8 (by omega)
  simp only [List.length_append] at hl
  have e0 := toLE_fromLE_of_length p0 (by omega)
  have e1 := toLE_fromLE_of_length s0 (by omega)
  have hv : ReplaceByFeeRequest.Valid ⟨fromLE p0, fromLE s0⟩ := ⟨fromLE_lt_u64 p0 (by omega), fromLE_lt_u64 s0 (by omega)⟩
  have he : ReplaceByFeeRequest.Encode ⟨fromLE p0, fromLE s0⟩ = (ReplaceByFeeRequestType :: (p0 ++ s0)) := by
    simp [ReplaceByFeeRequest.Encode, ReplaceByFeeRequest.RequestType, EncodeUint64, PutUint64, e0, e1]
  have hd := ReplaceByFeeRequest_decode_encode r ⟨fromLE p0, fromLE s0⟩ hv
  rw [he, h] at hd
  rw [Res.ok.inj hd]
  exact he

theorem Cancel1Request_canonical (r v : Cancel1Request) (b : Bytes) (h : r.Decode b = .ok v) :
    v.Encode = b := by
  have hl : b.length = 9 := by
    by_contra hc
    have := Cancel1Request_decode_length r b hc
    rw [h] at this
    simp [Res.isErr] at this
  have ht : b.head? = some Cancel1RequestType := by
    by_contra hc
    have := Cancel1Request_decode_tag r b hc
    rw [h] at this
    simp [Res.isErr] at this
  obtain ⟨l, rfl⟩ := head_and_tail b _ ht
  simp only [List.length_cons] at hl
  have e0 := toLE_fromLE_of_length l (by omega)
  have hv : Cancel1Request.Valid ⟨fromLE l⟩ := fromLE_lt_u64 l (by omega)
  have he : Cancel1Request.Encode ⟨fromLE l⟩ = (Cancel1RequestType :: l) := by
    simp [Cancel1Request.Encode, Cancel1Request.RequestType, EncodeUint64, PutUint64, e0]
  have hd := Cancel1Request_decode_encode r ⟨fromLE l⟩ hv
  rw [he, h] at hd
  rw [Res.ok.inj hd]
  exact he

theorem CreateRequest_canonical (r v : CreateRequest) (b : Bytes) (h : r.Decode b = .ok v) :
    v.Encode = b := by
  have hl : b.length = 85 := by
    by_contra hc
    have := CreateRequest_decode_length r b hc
    rw [h] at this
    simp [Res.isErr] at this
  have ht : b.head? = some CreateRequestType := by
    by_contra hc
    have := CreateRequest_decode_tag r b hc
    rw [h] at this
    simp [Res.isErr] at this
  obtain ⟨l, rfl⟩ := head_and_tail b _ ht
  simp only [List.length_cons] at hl
  obtain ⟨p0, s0, rfl, hp0⟩ := exists_split l 20 (by omega)
  simp only [List.length_append] at hl
  have hv : CreateRequest.Valid ⟨p0, s0⟩ := ⟨(by dsimp only [CreateRequest.Valid]; omega), (by dsimp only [CreateRequest.Valid]; omega)⟩
  have he : CreateRequest.Encode ⟨p0, s0⟩ = (CreateRequestType :: (p0 ++ s0)) := by
    simp [CreateRequest.Encode, CreateRequest.RequestType, EncodeUint64, PutUint64]
  have hd := CreateRequest_decode_encode r ⟨p0, s0⟩ hv
  rw [he, h] at hd
  rw [Res.ok.inj hd]
  exact he

theorem LockRequest_canonical (r v : LockRequest) (b : Bytes) (h : r.Decode b = .ok v) :
    v.Encode = some b := by
  have hl : b.length = 73 := by
    by_contra hc
    have := LockRequest_decode_length r b hc
    rw [h] at this
    simp [Res.isErr] at this
  have ht : b.head? = some LockRequestType := by
    by_contra hc
    have := LockRequest_decode_tag r b hc
    rw [h] at this
    simp [Res.isErr] at this
  obtain ⟨l, rfl⟩ := head_and_tail b _ ht
  simp only [List.length_cons] at hl
  obtain ⟨p0, s0, rfl, hp0⟩ := exists_split l 20 (by omega)
  simp only [List.length_append] at hl
  obtain ⟨p1, s1, rfl, hp1⟩ := exists_split s0 20 (by omega)
  simp only [List.length_append] at hl
  have e2 := FillBytes_fromBE s1 (by omega)
  have hv : LockRequest.Valid ⟨p0, p1, ((fromBE s1 : Nat) : Int)⟩ := ⟨(by dsimp only [LockRequest.Valid]; omega), (by dsimp only [LockRequest.Valid]; omega), by positivity, fromBE_word_lt s1 (by omega)⟩
  have he : LockRequest.Encode ⟨p0, p1, ((fromBE s1 : Nat) : Int)⟩ = some (LockRequestType :: (p0 ++ (p1 ++ s1))) := by
    simp [LockRequest.Encode, LockRequest.RequestType, EncodeUint64, PutUint64, e2]
  obtain ⟨enc, h1, h2⟩ := LockRequest_decode_encode ⟨p0, p1, ((fromBE s1 : Nat) : Int)⟩ hv
  have h3 := h2 r
  rw [he] at h1
  rw [← Option.some.inj h1, h] at h3
  rw [Res.ok.inj h3]
  exact he

theorem UnlockRequest_canonical (r v : UnlockRequest) (b : Bytes) (h : r.Decode b = .ok v) :
    v.Encode = some b := by
  have hl : b.length = 101 := by
    by_contra hc
    have := UnlockRequest_decode_length r b hc
    rw [h] at this
    simp [Res.isErr] at this
  have ht : b.head? = some UnlockRequestType := by
    by_contra hc
    have := UnlockRequest_decode_tag r b hc
    rw [h] at this
    simp [Res.isErr] at this
  obtain ⟨l, rfl⟩ := head_and_tail b _ ht
  simp only [List.length_cons] at hl
  obtain ⟨p0, s0, rfl, hp0⟩ := exists_split l 8 (by omega)
  simp only [List.length_append] at hl
  obtain ⟨p1, s1, rfl, hp1⟩ := exists_split s0 20 (by omega)
  simp only [List.length_append] at hl
  obtain ⟨p2, s2, rfl, hp2⟩ := exists_split s1 20 (by omega)
  simp only [List.length_append] at hl
  obtain ⟨p3, s3, rfl, hp3⟩ := exists_split s2 20 (by omega)
  simp only [List.length_append] at hl
  have e0 := toLE_fromLE_of_length p0 (by omega)
  have e4 := FillBytes_fromBE s3 (by omega)
  have hv : UnlockRequest.Valid ⟨fromLE p0, p1, p2, p3, ((fromBE s3 : Nat) : Int)⟩ := ⟨fromLE_lt_u64 p0 (by omega), (by dsimp only [UnlockRequest.Valid]; omega), (by dsimp only [UnlockRequest.Valid]; omega), (by dsimp only [UnlockRequest.Valid]; omega), by positivity, fromBE_word_lt s3 (by omega)⟩
  have he : UnlockRequest.Encode ⟨fromLE p0, p1, p2, p3, ((fromBE s3 : Nat) : Int)⟩ = some (UnlockRequestType :: (p0 ++ (p1 ++ (p2 ++ (p3 ++ s3))))) := by
    simp [UnlockRequest.Encode, UnlockRequest.RequestType, EncodeUint64, PutUint64, e0, e4]
  obtain ⟨enc, h1, h2⟩ := UnlockRequest_decode_encode ⟨fromLE p0, p1, p2, p3, ((fromBE s3 : Nat) : Int)⟩ hv
  have h3 := h2 r
  rw [he] at h1
  rw [← Option.some.inj h1, h] at h3
  rw [Res.ok.inj h3]
  exact he

theorem ClaimRequest_canonical (r v : ClaimRequest) (b : Bytes) (h : r.Decode b = .ok v) :
    v.Encode = b := by
  have hl : b.length = 49 := by
    by_contra hc
    have := ClaimRequest_decode_length r b hc
    rw [h] at this
    simp [Res.isErr] at this
  have ht : b.head? = some ClaimRequestType := by
    by_contra hc
    have := ClaimRequest_decode_tag r b hc
    rw [h] at this
    simp [Res.isErr] at this
  obtain ⟨l, rfl⟩ := head_and_tail b _ ht
  simp only [List.length_cons] at hl
  obtain ⟨p0, s0, rfl, hp0⟩ := exists_split l 8 (by omega)
  simp only [List.length_append] at hl
  obtain ⟨p1, s1, rfl, hp1⟩ := exists_split s0 20 (by omega)
  simp only [List.length_append] at hl
  have e0 := toLE_fromLE_of_length p0 (by omega)
  have hv : ClaimRequest.Valid ⟨fromLE p0, p1, s1⟩ := ⟨fromLE_lt_u64 p0 (by omega), (by dsimp only [ClaimRequest.Valid]; omega), (by dsimp only [ClaimRequest.Valid]; omega)⟩
  have he : ClaimRequest.Encode ⟨fromLE p0, p1, s1⟩ = (ClaimRequestType :: (p0 ++ (p1 ++ s1))) := by
    simp [ClaimRequest.Encode, ClaimRequest.RequestType, EncodeUint64, PutUint64, e0]
  have hd := ClaimRequest_decode_encode r ⟨fromLE p0, p1, s1⟩ hv
  rw [he, h] at hd
  rw [Res.ok.inj hd]
  exact he

theorem UpdateTokenWeightRequest_canonical (r v : UpdateTokenWeightRequest) (b : Bytes) (h : r.Decode b = .ok v) :
    v.Encode = b := by
  have hl : b.length = 29 := by
    by_contra hc
    have := UpdateTokenWeightRequest_decode_length r b hc
    rw [h] at this
    simp [Res.isErr] at this
  have ht : b.head? = some UpdateTokenWeightRequestType := by
    by_contra hc
    have := UpdateTokenWeightRequest_decode_tag r b hc
    rw [h] at this
    simp [Res.isErr] at this
  obtain ⟨l, rfl⟩ := head_and_tail b _ ht
  simp only [List.length_cons] at hl
  obtain ⟨p0, s0, rfl, hp0⟩ := exists_split l 20 (by omega)
  simp only [List.length_append] at hl
  have e1 := toLE_fromLE_of_length s0 (by omega)
  have hv : UpdateTokenWeightRequest.Valid ⟨p0, fromLE s0⟩ := ⟨(by dsimp only [UpdateTokenWeightRequest.Valid]; omega), fromLE_lt_u64 s0 (by omega)⟩
  have he : UpdateTokenWeightRequest.Encode ⟨p0, fromLE s0⟩ = (UpdateTokenWeightRequestType :: (p0 ++ s0)) := by
    simp [UpdateTokenWeightRequest.Encode, UpdateTokenWeightRequest.RequestType, EncodeUint64, PutUint64, e1]
  have hd := UpdateTokenWeightRequest_decode_encode r ⟨p0, fromLE s0⟩ hv
  rw [he, h] at hd
  rw [Res.ok.inj hd]
  exact he

theorem UpdateTokenThresholdRequest_canonical (r v : UpdateTokenThresholdRequest) (b : Bytes) (h : r.Decode b = .ok v) :
    v.Encode = some b := by
  have hl : b.length = 53 := by
    by_contra hc
    have := UpdateTokenThresholdRequest_decode_length r b hc
    rw [h] at this
    simp [Res.isErr] at this
  have ht : b.head? = some UpdateTokenThresholdRequestType := by
    by_contra hc
    have := UpdateTokenThresholdRequest_decode_tag r b hc
    rw [h] at this
    simp [Res.isErr] at this
  obtain ⟨l, rfl⟩ := head_and_tail b _ ht
  simp only [List.length_cons] at hl
  obtain ⟨p0, s0, rfl, hp0⟩ := exists_split l 20 (by omega)
  simp only [List.length_append] at hl
  have e1 := FillBytes_fromBE s0 (by omega)
  have hv : UpdateTokenThresholdRequest.Valid ⟨p0, ((fromBE s0 : Nat) : Int)⟩ := ⟨(by dsimp only [UpdateTokenThresholdRequest.Valid]; omega), by positivity, fromBE_word_lt s0 (by omega)⟩
  have he : UpdateTokenThresholdRequest.Encode ⟨p0, ((fromBE s0 : Nat) : Int)⟩ = some (UpdateTokenThresholdRequestType :: (p0 ++ s0)) := by
    simp [UpdateTokenThresholdRequest.Encode, UpdateTokenThresholdRequest.RequestType, EncodeUint64, PutUint64, e1]
  obtain ⟨enc, h1, h2⟩ := UpdateTokenThresholdRequest_decode_encode ⟨p0, ((fromBE s0 : Nat) : Int)⟩ hv
  have h3 := h2 r
  rw [he] at h1
  rw [← Option.some.inj h1, h] at h3
  rw [Res.ok.inj h3]
  exact he

theorem GrantRequest_canonical (r v : GrantRequest) (b : Bytes) (h : r.Decode b = .ok v) :
    v.Encode = some b := by
  have hl : b.length = 33 := by
    by_contra hc
    have := GrantRequest_decode_length r b hc
    rw [h] at this
    simp [Res.isErr] at this
  have ht : b.head? = some GrantRequestType := by
    by_contra hc
    have := GrantRequest_decode_tag r b hc
    rw [h] at this
    simp [Res.isErr] at this
  obtain ⟨l, rfl⟩ := head_and_tail b _ ht
  simp only [List.length_cons] at hl
  have e0 := FillBytes_fromBE l (by omega)
  have hv : GrantRequest.Valid ⟨((fromBE l : Nat) : Int)⟩ := ⟨by positivity, fromBE_word_lt l (by omega)⟩
  have he : GrantRequest.Encode ⟨((fromBE l : Nat) : Int)⟩ = some (GrantRequestType :: l) := by
    simp [GrantRequest.Encode, GrantRequest.RequestType, EncodeUint64, PutUint64, e0]
  obtain ⟨enc, h1, h2⟩ := GrantRequest_decode_encode ⟨((fromBE l : Nat) : Int)⟩ hv
  have h3 := h2 r
  rw [he] at h1
  rw [← Option.some.inj h1, h] at h3
  rw [Res.ok.inj h3]
  exact he

theorem AddVoterRequest_canonical (r v : AddVoterRequest) (b : Bytes) (h : r.Decode b = .ok v) :
    v.Encode = b := by
  have hl : b.length = 53 := by
    by_contra hc
    have := AddVoterRequest_decode_length r b hc
    rw [h] at this
    simp [Res.isErr] at this
  have ht : b.head? = some AddVoterRequestType := by
    by_contra hc
    have := AddVoterRequest_decode_tag r b hc
    rw [h] at this
    simp [Res.isErr] at this
  obtain ⟨l, rfl⟩ := head_and_tail b _ ht
  simp only [List.length_cons] at hl
  obtain ⟨p0, s0, rfl, hp0⟩ := exists_split l 20 (by omega)
  simp only [List.length_append] at hl
  have hv : AddVoterRequest.Valid ⟨p0, s0⟩ := ⟨(by dsimp only [AddVoterRequest.Valid]; omega), (by dsimp only [AddVoterRequest.Valid]; omega)⟩
  have he : AddVoterRequest.Encode ⟨p0, s0⟩ = (AddVoterRequestType :: (p0 ++ s0)) := by
    simp [AddVoterRequest.Encode, AddVoterRequest.RequestType, EncodeUint64, PutUint64]
  have hd := AddVoterRequest_decode_encode r ⟨p0, s0⟩ hv
  rw [he, h] at hd
  rw [Res.ok.inj hd]
  exact he

theorem RemoveVoterRequest_canonical (r v : RemoveVoterRequest) (b : Bytes) (h : r.Decode b = .ok v) :
    v.Encode = b := by
  have hl : b.length = 21 := by
    by_contra hc
    have := RemoveVoterRequest_decode_length r b hc
    rw [h] at this
    simp [Res.isErr] at this
  have ht : b.head? = some RemoveVoterRequestType := by
    by_contra hc
    have := RemoveVoterRequest_decode_tag r b hc
    rw [h] at this
    simp [Res.isErr] at this
  obtain ⟨l, rfl⟩ := head_and_tail b _ ht
  simp only [List.length_cons] at hl
  have hv : RemoveVoterRequest.Valid ⟨l⟩ := (by dsimp only [RemoveVoterRequest.Valid]; omega)
  have he : RemoveVoterRequest.Encode ⟨l⟩ = (RemoveVoterRequestType :: l) := by
    simp [RemoveVoterRequest.Encode, RemoveVoterRequest.RequestType, EncodeUint64, PutUint64]
  have hd := RemoveVoterRequest_decode_encode r ⟨l⟩ hv
  rw [he, h] at hd
  rw [Res.ok.inj hd]
  exact he

theorem WithdrawalRequest_decode_encode_wire (r v : WithdrawalRequest) (h1 : v.Id < 2 ^ 64)
    (h2 : v.Amount < 2 ^ 64) (h3 : v.TxPrice < 2 ^ 64) (h4 : v.Address.length ≤ 255) :
    r.Decode v.Encode = .ok v := by
  have hd := DecodeUint64_encode3 _ _ _ h1 h2 h3
  have hb : (byte v.Address.length).val = v.Address.length := by
    simp only [byte]; omega
  have hl : ¬ (24 + (v.Address.length + 1) + 1 < 26) := by omega
  have hs : sliceFrom (WithdrawalRequestType ::
      (EncodeUint64 [v.Id, v.Amount, v.TxPrice] ++ byte v.Address.length :: v.Address)) 26
      = .ok v.Address := by
    rw [sliceFrom_eq _ _ (by simp; omega)]
    have h5 : EncodeUint64 [v.Id, v.Amount, v.TxPrice] ++ byte v.Address.length :: v.Address
        = (EncodeUint64 [v.Id, v.Amount, v.TxPrice] ++ [byte v.Address.length]) ++ v.Address := by
      simp
    rw [List.drop_succ_cons, h5, List.drop_left' (by simp)]
  simp [WithdrawalRequest.Decode, WithdrawalRequest.Encode, WithdrawalRequest.RequestType,
    slice_initial, index_append_right, hd, hb, hl, hs]

theorem WithdrawalRequest_canonical (r v : WithdrawalRequest) (b : Bytes)
    (h : r.Decode b = .ok v) : v.Encode = b := by
  have hx : ∃ x : Byte, b[25]? = some x ∧ b.length = 26 + x.val := by
    by_contra hc
    have := WithdrawalRequest_decode_length r b (fun x hx hlen => hc ⟨x, hx, hlen⟩)
    rw [h] at this
    simp [Res.isErr] at this
  have ht : b.head? = some WithdrawalRequestType := by
    by_contra hc
    have := WithdrawalRequest_decode_tag r b hc
    rw [h] at this
    simp [Res.isErr] at this
  obtain ⟨x, hx, hl⟩ := hx
  obtain ⟨l, rfl⟩ := head_and_tail b _ ht
  simp only [List.length_cons] at hl
  rw [List.getElem?_cons_succ] at hx
  obtain ⟨p0, s0, rfl, hp0⟩ := exists_split l 8 (by omega)
  simp only [List.length_append] at hl
  obtain ⟨p1, s1, rfl, hp1⟩ := exists_split s0 8 (by omega)
  simp only [List.length_append] at hl
  obtain ⟨p2, s2, rfl, hp2⟩ := exists_split s1 8 (by omega)
  simp only [List.length_append] at hl
  obtain ⟨y, a, rfl⟩ : ∃ y a, s2 = y :: a := by
    cases s2 with
    | nil => simp at hl; omega
    | cons y a => exact ⟨y, a, rfl⟩
  simp only [List.length_cons] at hl
  have hy : y = x := by
    rw [List.getElem?_append_right (by omega), List.getElem?_append_right (by omega),
      List.getElem?_append_right (by omega)] at hx
    have e : 24 - p0.length - p1.length - p2.length = 0 := by omega
    rw [e, List.getElem?_cons_zero] at hx
    exact Option.some.inj hx
  subst hy
  have e0 := toLE_fromLE_of_length p0 (by omega)
  have e1 := toLE_fromLE_of_length p1 (by omega)
  have e2 := toLE_fromLE_of_length p2 (by omega)
  have hlen : a.length = y.val := by omega
  have hbyte : byte a.length = y := by
    apply Fin.ext
    simp only [byte, hlen]
    exact Nat.mod_eq_of_lt y.isLt
  have he : WithdrawalRequest.Encode ⟨fromLE p0, fromLE p1, fromLE p2, a⟩ =
      WithdrawalRequestType :: (p0 ++ (p1 ++ (p2 ++ y :: a))) := by
    simp [WithdrawalRequest.Encode, WithdrawalRequest.RequestType, EncodeUint64, PutUint64, e0,
      e1, e2, hbyte]
  have hd := WithdrawalRequest_decode_encode_wire r ⟨fromLE p0, fromLE p1, fromLE p2, a⟩
    (fromLE_lt_u64 p0 (by omega)) (fromLE_lt_u64 p1 (by omega)) (fromLE_lt_u64 p2 (by omega))
    (by have := y.isLt; simp only; omega)
  rw [he, h] at hd
  rw [Res.ok.inj hd]
  exact he

end Canonical



section CanonicalBulk

theorem selectDecode_canonical (input : Bytes) (req : Request)
    (h : selectDecode input = some (.ok req)) : req.Encode = some input := by
  unfold selectDecode at h
  cases hi : input[0]? with
  | none =>
    rw [hi] at h
    simp at h
  | some tag =>
    rw [hi] at h
    dsimp only at h
    by_cases h0 : tag = GasRequestType
    · rw [if_pos h0] at h
      obtain ⟨v, hv, rfl⟩ := Res.wrap_ok _ _ _ (Option.some.inj h)
      exact GasRequest_canonical _ v input hv
    rw [if_neg h0] at h
    by_cases h1 : tag = WithdrawalRequestType
    · rw [if_pos h1] at h
      obtain ⟨v, hv, rfl⟩ := Res.wrap_ok _ _ _ (Option.some.inj h)
      exact congrArg some (WithdrawalRequest_canonical _ v input hv)
    rw [if_neg h1] at h
    by_cases h2 : tag = ReplaceByFeeRequestType
    · rw [if_pos h2] at h
      obtain ⟨v, hv, rfl⟩ := Res.wrap_ok _ _ _ (Option.some.inj h)
      exact congrArg some (ReplaceByFeeRequest_canonical _ v input hv)
    rw [if_neg h2] at h
    by_cases h3 : tag = Cancel1RequestType
    · rw [if_pos h3] at h
      obtain ⟨v, hv, rfl⟩ := Res.wrap_ok _ _ _ (Option.some.inj h)
      exact congrArg some (Cancel1Request_canonical _ v input hv)
    rw [if_neg h3] at h
    by_cases h4 : tag = CreateRequestType
    · rw [if_pos h4] at h
      obtain ⟨v, hv, rfl⟩ := Res.wrap_ok _ _ _ (Option.some.inj h)
      exact congrArg some (CreateRequest_canonical _ v input hv)
    rw [if_neg h4] at h
    by_cases h5 : tag = LockRequestType
    · rw [if_pos h5] at h
      obtain ⟨v, hv, rfl⟩ := Res.wrap_ok _ _ _ (Option.some.inj h)
      exact LockRequest_canonical _ v input hv
    rw [if_neg h5] at h
    by_cases h6 : tag = UnlockRequestType
    · rw [if_pos h6] at h
      obtain ⟨v, hv, rfl⟩ := Res.wrap_ok _ _ _ (Option.some.inj h)
      exact UnlockRequest_canonical _ v input hv
    rw [if_neg h6] at h
    by_cases h7 : tag = ClaimRequestType
    · rw [if_pos h7] at h
      obtain ⟨v, hv, rfl⟩ := Res.wrap_ok _ _ _ (Option.some.inj h)
      exact congrArg some (ClaimRequest_canonical _ v input hv)
    rw [if_neg h7] at h
    by_cases h8 : tag = UpdateTokenWeightRequestType
    · rw [if_pos h8] at h
      obtain ⟨v, hv, rfl⟩ := Res.wrap_ok _ _ _ (Option.some.inj h)
      exact congrArg some (UpdateTokenWeightRequest_canonical _ v input hv)
    rw [if_neg h8] at h
    by_cases h9 : tag = UpdateTokenThresholdRequestType
    · rw [if_pos h9] at h
      obtain ⟨v, hv, rfl⟩ := Res.wrap_ok _ _ _ (Option.some.inj h)
      exact UpdateTokenThresholdRequest_canonical _ v input hv
    rw [if_neg h9] at h
    by_cases h10 : tag = GrantRequestType
    · rw [if_pos h10] at h
      obtain ⟨v, hv, rfl⟩ := Res.wrap_ok _ _ _ (Option.some.inj h)
      exact GrantRequest_canonical _ v input hv
    rw [if_neg h10] at h
    by_cases h11 : tag = AddVoterRequestType
    · rw [if_pos h11] at h
      obtain ⟨v, hv, rfl⟩ := Res.wrap_ok _ _ _ (Option.some.inj h)
      exact congrArg some (AddVoterRequest_canonical _ v input hv)
    rw [if_neg h11] at h
    by_cases h12 : tag = RemoveVoterRequestType
    · rw [if_pos h12] at h
      obtain ⟨v, hv, rfl⟩ := Res.wrap_ok _ _ _ (Option.some.inj h)
      exact congrArg some (RemoveVoterRequest_canonical _ v input hv)
    rw [if_neg h12] at h
    simp at h

theorem DecodeRequests_loop_canonical (reqs : List Bytes) (d d' : DecodeResult)
    (h : DecodeRequests.loop reqs d.bridge d.relayer d.locking = some d')
    (herr : d'.err = none) :
    ∃ rs : List Request, List.Forall₂ (fun r e => r.Encode = some e) rs reqs ∧
      d' = ⟨(rs.foldl DecodeResult.push d).bridge, (rs.foldl DecodeResult.push d).relayer,
        (rs.foldl DecodeResult.push d).locking, none⟩ := by
  induction reqs generalizing d with
  | nil =>
    rw [DecodeRequests.loop] at h
    exact ⟨[], List.Forall₂.nil, (Option.some.inj h).symm⟩
  | cons input rest ih =>
    rw [DecodeRequests_loop_cons] at h
    by_cases hl : input.length ≤ 1
    · rw [if_pos hl] at h
      rw [← Option.some.inj h] at herr
      simp at herr
    · rw [if_neg hl] at h
      cases hs : selectDecode input with
      | none =>
        rw [hs] at h
        rw [← Option.some.inj h] at herr
        simp at herr
      | some res =>
        rw [hs] at h
        cases res with
        | panic => simp at h
        | err e =>
          rw [← Option.some.inj h] at herr
          simp at herr
        | ok req =>
          obtain ⟨rs, hrs, hd⟩ := ih (d.push req) h
          exact ⟨req :: rs, List.Forall₂.cons (selectDecode_canonical input req hs) hrs, hd⟩

end CanonicalBulk

/-- C28: for each of the 13 variants, every receiver and every byte string `b`, if Decode of
`b` succeeds with the value `v`, then `v.Encode()` returns `b`; so two byte strings that a
variant decodes to the same value are equal, the request selected by the first byte of an entry
encodes back to the entry, and when DecodeRequests succeeds on a list, the list is, entry by
entry, the encoding of a list of requests of which the 13 collections are the sublists by
variant. -/
theorem C28_canonical_encodings (b : Bytes) :
    (∀ r v : GasRequest, r.Decode b = .ok v → v.Encode = some b) ∧
    (∀ r v : WithdrawalRequest, r.Decode b = .ok v → v.Encode = b) ∧
    (∀ r v : ReplaceByFeeRequest, r.Decode b = .ok v → v.Encode = b) ∧
    (∀ r v : Cancel1Request, r.Decode b = .ok v → v.Encode = b) ∧
    (∀ r v : CreateRequest, r.Decode b = .ok v → v.Encode = b) ∧
    (∀ r v : LockRequest, r.Decode b = .ok v → v.Encode = some b) ∧
    (∀ r v : UnlockRequest, r.Decode b = .ok v → v.Encode = some b) ∧
    (∀ r v : ClaimRequest, r.Decode b = .ok v → v.Encode = b) ∧
    (∀ r v : UpdateTokenWeightRequest, r.Decode b = .ok v → v.Encode = b) ∧
    (∀ r v : UpdateTokenThresholdRequest, r.Decode b = .ok v → v.Encode = some b) ∧
    (∀ r v : GrantRequest, r.Decode b = .ok v → v.Encode = some b) ∧
    (∀ r v : AddVoterRequest, r.Decode b = .ok v → v.Encode = b) ∧
    (∀ r v : RemoveVoterRequest, r.Decode b = .ok v → v.Encode = b) ∧
    (∀ (other : Bytes) (req : Request), selectDecode b = some (.ok req) →
      selectDecode other = some (.ok req) → other = b) ∧
    (∀ req : Request, selectDecode b = some (.ok req) → req.Encode = some b) ∧
    (∀ (reqs : List Bytes) (d : DecodeResult), DecodeRequests reqs = some d → d.err = none →
      ∃ rs : List Request, List.Forall₂ (fun r e => r.Encode = some e) rs reqs ∧
        d.bridge.Withdraws = rs.filterMap Request.withdrawal? ∧
        d.bridge.ReplaceByFees = rs.filterMap Request.replaceByFee? ∧
        d.bridge.Cancel1s = rs.filterMap Request.cancel1? ∧
        d.locking.Gas = rs.filterMap Request.gas? ∧
        d.locking.Creates = rs.filterMap Request.create? ∧
        d.locking.Locks = rs.filterMap Request.lock? ∧
        d.locking.Unlocks = rs.filterMap Request.unlock? ∧
        d.locking.Claims = rs.filterMap Request.claim? ∧
        d.locking.Grants = rs.filterMap Request.grant? ∧
        d.locking.UpdateWeights = rs.filterMap Request.updateTokenWeight? ∧
        d.locking.UpdateThresholds = rs.filterMap Request.updateTokenThreshold? ∧
        d.relayer.Adds = rs.filterMap Request.addVoter? ∧
        d.relayer.Removes = rs.filterMap Request.removeVoter?) := by
  refine ⟨fun r v h => GasRequest_canonical r v b h, fun r v h => WithdrawalRequest_canonical r v b h, fun r v h => ReplaceByFeeRequest_canonical r v b h, fun r v h => Cancel1Request_canonical r v b h, fun r v h => CreateRequest_canonical r v b h, fun r v h => LockRequest_canonical r v b h, fun r v h => UnlockRequest_canonical r v b h, fun r v h => ClaimRequest_canonical r v b h, fun r v h => UpdateTokenWeightRequest_canonical r v b h, fun r v h => UpdateTokenThresholdRequest_canonical r v b h, fun r v h => GrantRequest_canonical r v b h, fun r v h => AddVoterRequest_canonical r v b h, fun r v h => RemoveVoterRequest_canonical r v b h,
    fun other req h1 h2 => ?_, fun req h => selectDecode_canonical b req h,
    fun reqs d h herr => ?_⟩
  · have e1 := selectDecode_canonical b req h1
    have e2 := selectDecode_canonical other req h2
    rw [e1] at e2
    exact (Option.some.inj e2).symm
  · obtain ⟨rs, hrs, hd⟩ := DecodeRequests_loop_canonical reqs
      ⟨⟨[], [], []⟩, ⟨[], []⟩, ⟨[], [], [], [], [], [], [], []⟩, none⟩ d h herr
    have hf := foldl_push_collections rs
      ⟨⟨[], [], []⟩, ⟨[], []⟩, ⟨[], [], [], [], [], [], [], []⟩, none⟩
    simp only [List.nil_append] at hf
    obtain ⟨f1, f2, f3, f4, f5, f6, f7, f8, f9, f10, f11, f12, f13⟩ := hf
    subst hd
    exact ⟨rs, hrs, f1, f2, f3, f4, f5, f6, f7, f8, f9, f10, f11, f12, f13⟩

/-- C28 on a byte string that Cancel.Decode accepts: the value encodes back to it. -/
theorem C28_canonical_encodings_witness :
    Cancel1Request.Encode ⟨5⟩ = [0x63, 5, 0, 0, 0, 0, 0, 0, 0] :=
  (C28_canonical_encodings [0x63, 5, 0, 0, 0, 0, 0, 0, 0]).2.2.2.1 ⟨0⟩ ⟨5⟩ (by decide)



/-! ## Requests unpacked from a log are valid -/

section UnpackedValid

theorem Uint64_lt (x : Int) : Uint64 x < 2 ^ 64 :=
  Nat.mod_lt _ (by norm_num)

theorem SetBytes_nonneg (b : Bytes) : 0 ≤ SetBytes b :=
  Int.ofNat_nonneg _

theorem SetBytes_word_lt (b : Bytes) (h : b.length = 32) : SetBytes b < 2 ^ 256 :=
  fromBE_word_lt b h

theorem sliceInt_length {α : Type} (b r : List α) (lo hi : Int)
    (h : sliceInt b lo hi = .ok r) : (r.length : Int) = hi - lo := by
  unfold sliceInt at h
  by_cases hc : 0 ≤ lo ∧ lo ≤ hi ∧ hi ≤ b.length
  · rw [if_pos hc] at h
    rw [← Res.ok.inj h]
    simp only [List.length_drop, List.length_take]
    omega
  · rw [if_neg hc] at h
    simp at h

theorem UnpackIntoWithdrawRequest_valid (topics : List Bytes) (data : Bytes)
    (req : WithdrawalRequest) (h : UnpackIntoWithdrawRequest topics data = .ok req) :
    req.Valid := by
  obtain ⟨_, _, _, h1, h2, _, h3, _, e1, e2, e3, h4, h5⟩ := withdraw_ok topics data req h
  have h6 := sliceInt_length _ _ _ _ h5
  refine ⟨e1 ▸ h1, e2 ▸ h2, e3 ▸ h3, ?_⟩
  clear h1 h2 h3 e1 e2 e3 h5 h
  omega

theorem UnpackIntoReplaceByFeeRequest_valid (topics : List Bytes) (data : Bytes)
    (req : ReplaceByFeeRequest) (h : UnpackIntoReplaceByFeeRequest topics data = .ok req) :
    req.Valid := by
  obtain ⟨_, _, h1, h2, rfl⟩ := (UnpackIntoReplaceByFeeRequest_ok_iff topics data req).1 h
  exact ⟨h1, h2⟩

theorem UnpackIntoCancel1Request_valid (topics : List Bytes) (data : Bytes)
    (req : Cancel1Request) (h : UnpackIntoCancel1Request topics data = .ok req) :
    req.Valid := by
  obtain ⟨_, _, h1, rfl⟩ := (UnpackIntoCancel1Request_ok_iff topics data req).1 h
  exact h1

theorem UnpackIntoAddVoterRequest_valid (topics : List Bytes) (data : Bytes)
    (req : AddVoterRequest) (h : UnpackIntoAddVoterRequest topics data = .ok req) :
    req.Valid := by
  by_cases ht : topics.length = 2
  swap
  · simp [UnpackIntoAddVoterRequest, ht] at h
  by_cases hd : data.length = 32
  swap
  · simp [UnpackIntoAddVoterRequest, ht, hd] at h
  have hi := index_one_of_length_two topics ht
  simp only [UnpackIntoAddVoterRequest, ht, hd, hi, ne_eq, not_true_eq_false, if_false,
    Res.ok_bind, Res.pure_eq] at h
  rw [← Res.ok.inj h]
  exact ⟨BytesToAddress_length _, BytesToHash_length _⟩

theorem UnpackIntoRemoveVoterRequest_valid (topics : List Bytes) (data : Bytes)
    (req : RemoveVoterRequest) (h : UnpackIntoRemoveVoterRequest topics data = .ok req) :
    req.Valid := by
  by_cases ht : topics.length = 2
  swap
  · simp [UnpackIntoRemoveVoterRequest, ht] at h
  by_cases hd : data.length = 0
  swap
  · simp [UnpackIntoRemoveVoterRequest, ht, hd] at h
  have hi := index_one_of_length_two topics ht
  simp only [UnpackIntoRemoveVoterRequest, ht, hd, hi, ne_eq, not_true_eq_false, if_false,
    Res.ok_bind, Res.pure_eq] at h
  rw [← Res.ok.inj h]
  exact BytesToAddress_length _

theorem UnpackIntoCreateRequest_valid (data : Bytes) (req : CreateRequest)
    (h : UnpackIntoCreateRequest data = .ok req) : req.Valid := by
  have hl : data.length = 128 := by
    by_contra hc
    have := UnpackIntoCreateRequest_err data hc
    rw [h] at this
    simp [Res.isErr] at this
  have s0 := slice_ok data 0 32 (by omega) (by omega)
  have s1 := sliceFrom_eq data 64 (by omega)
  have ha : ¬ (data.drop 64).length < 64 := by simp; omega
  simp only [UnpackIntoCreateRequest, hl, s0, s1, ha, toArray, ne_eq, not_true_eq_false, if_false, Res.ok_bind,
    Res.pure_eq] at h
  rw [← Res.ok.inj h]
  exact ⟨BytesToAddress_length _, by simp; omega⟩

theorem UnpackIntoLockRequest_valid (data : Bytes) (req : LockRequest)
    (h : UnpackIntoLockRequest data = .ok req) : req.Valid := by
  have hl : data.length = 96 := by
    by_contra hc
    have := UnpackIntoLockRequest_err data hc
    rw [h] at this
    simp [Res.isErr] at this
  have s0 := slice_ok data 0 32 (by omega) (by omega)
  have s1 := slice_ok data 32 64 (by omega) (by omega)
  have s2 := sliceFrom_eq data 64 (by omega)
  simp only [UnpackIntoLockRequest, hl, s0, s1, s2, ne_eq, not_true_eq_false, if_false, Res.ok_bind,
    Res.pure_eq] at h
  rw [← Res.ok.inj h]
  exact ⟨BytesToAddress_length _, BytesToAddress_length _, SetBytes_nonneg _, SetBytes_word_lt _ (by simp; omega)⟩

theorem UnpackIntoUnlockRequest_valid (data : Bytes) (req : UnlockRequest)
    (h : UnpackIntoUnlockRequest data = .ok req) : req.Valid := by
  have hl : data.length = 160 := by
    by_contra hc
    have := UnpackIntoUnlockRequest_err data hc
    rw [h] at this
    simp [Res.isErr] at this
  have s0 := slice_ok data 0 32 (by omega) (by omega)
  have s1 := slice_ok data 32 64 (by omega) (by omega)
  have s2 := slice_ok data 64 96 (by omega) (by omega)
  have s3 := slice_ok data 96 128 (by omega) (by omega)
  have s4 := slice_ok data 128 160 (by omega) (by omega)
  simp only [UnpackIntoUnlockRequest, hl, s0, s1, s2, s3, s4, ne_eq, not_true_eq_false, if_false, Res.ok_bind,
    Res.pure_eq] at h
  rw [← Res.ok.inj h]
  exact ⟨Uint64_lt _, BytesToAddress_length _, BytesToAddress_length _, BytesToAddress_length _, SetBytes_nonneg _, SetBytes_word_lt _ (by simp; omega)⟩

theorem UnpackIntoClaimRequest_valid (data : Bytes) (req : ClaimRequest)
    (h : UnpackIntoClaimRequest data = .ok req) : req.Valid := by
  have hl : data.length = 96 := by
    by_contra hc
    have := UnpackIntoClaimRequest_err data hc
    rw [h] at this
    simp [Res.isErr] at this
  have s0 := slice_ok data 0 32 (by omega) (by omega)
  have s1 := slice_ok data 32 64 (by omega) (by omega)
  have s2 := slice_ok data 64 96 (by omega) (by omega)
  simp only [UnpackIntoClaimRequest, hl, s0, s1, s2, ne_eq, not_true_eq_false, if_false, Res.ok_bind,
    Res.pure_eq] at h
  rw [← Res.ok.inj h]
  exact ⟨Uint64_lt _, BytesToAddress_length _, BytesToAddress_length _⟩

theorem UnpackIntoGrantRequest_valid (data : Bytes) (req : GrantRequest)
    (h : UnpackIntoGrantRequest data = .ok req) : req.Valid := by
  have hl : data.length = 32 := by
    by_contra hc
    have := UnpackIntoGrantRequest_err data hc
    rw [h] at this
    simp [Res.isErr] at this
  simp only [UnpackIntoGrantRequest, hl, ne_eq, not_true_eq_false, if_false, Res.ok_bind,
    Res.pure_eq] at h
  rw [← Res.ok.inj h]
  exact ⟨SetBytes_nonneg _, SetBytes_word_lt _ hl⟩

theorem UnpackIntoUpdateTokenWeightRequest_valid (data : Bytes) (req : UpdateTokenWeightRequest)
    (h : UnpackIntoUpdateTokenWeightRequest data = .ok req) : req.Valid := by
  have hl : data.length = 64 := by
    by_contra hc
    have := UnpackIntoUpdateTokenWeightRequest_err data hc
    rw [h] at this
    simp [Res.isErr] at this
  have s0 := slice_ok data 0 32 (by omega) (by omega)
  have s1 := slice_ok data 32 64 (by omega) (by omega)
  simp only [UnpackIntoUpdateTokenWeightRequest, hl, s0, s1, ne_eq, not_true_eq_false, if_false, Res.ok_bind,
    Res.pure_eq] at h
  rw [← Res.ok.inj h]
  exact ⟨BytesToAddress_length _, Uint64_lt _⟩

theorem UnpackIntoUpdateTokenThresholdRequest_valid (data : Bytes) (req : UpdateTokenThresholdRequest)
    (h : UnpackIntoUpdateTokenThresholdRequest data = .ok req) : req.Valid := by
  have hl : data.length = 64 := by
    by_contra hc
    have := UnpackIntoUpdateTokenThresholdRequest_err data hc
    rw [h] at this
    simp [Res.isErr] at this
  have s0 := slice_ok data 0 32 (by omega) (by omega)
  have s1 := slice_ok data 32 64 (by omega) (by omega)
  simp only [UnpackIntoUpdateTokenThresholdRequest, hl, s0, s1, ne_eq, not_true_eq_false, if_false, Res.ok_bind,
    Res.pure_eq] at h
  rw [← Res.ok.inj h]
  exact ⟨BytesToAddress_length _, SetBytes_nonneg _, SetBytes_word_lt _ (by simp; omega)⟩

theorem unpack_valid (ev : Event) (log : Log) (req : Request)
    (h : ev.unpack log = .ok req) : req.Valid ∧ req.gas? = none := by
  cases ev <;> simp only [Event.unpack] at h <;> obtain ⟨v, hv, rfl⟩ := Res.wrap_ok _ _ _ h
  · exact ⟨UnpackIntoWithdrawRequest_valid _ _ _ hv, rfl⟩
  · exact ⟨UnpackIntoReplaceByFeeRequest_valid _ _ _ hv, rfl⟩
  · exact ⟨UnpackIntoCancel1Request_valid _ _ _ hv, rfl⟩
  · exact ⟨UnpackIntoCreateRequest_valid _ _ hv, rfl⟩
  · exact ⟨UnpackIntoLockRequest_valid _ _ hv, rfl⟩
  · exact ⟨UnpackIntoUnlockRequest_valid _ _ hv, rfl⟩
  · exact ⟨UnpackIntoClaimRequest_valid _ _ hv, rfl⟩
  · exact ⟨UnpackIntoGrantRequest_valid _ _ hv, rfl⟩
  · exact ⟨UnpackIntoUpdateTokenWeightRequest_valid _ _ hv, rfl⟩
  · exact ⟨UnpackIntoUpdateTokenThresholdRequest_valid _ _ hv, rfl⟩
  · exact ⟨UnpackIntoAddVoterRequest_valid _ _ _ hv, rfl⟩
  · exact ⟨UnpackIntoRemoveVoterRequest_valid _ _ _ hv, rfl⟩

end UnpackedValid



/-! ## Claim C27: the output of the pipeline is accepted by the bulk decoder -/

section PipelineDecodes

theorem unpacked_requests (ls : List Log) (encs : List Bytes)
    (h : List.Forall₂
      (fun log enc => ∃ ev req, dispatch log = some ev ∧ ev.unpack log = .ok req ∧
        req.Encode = some enc) ls encs) :
    ∃ rs : List Request,
      List.Forall₂ (fun log r => ∃ ev, dispatch log = some ev ∧ ev.unpack log = .ok r) ls rs ∧
      List.Forall₂ (fun r e => r.Valid ∧ r.Encode = some e) rs encs ∧
      (∀ r ∈ rs, r.Valid) ∧ rs.filterMap Request.gas? = [] := by
  induction h with
  | nil => exact ⟨[], List.Forall₂.nil, List.Forall₂.nil, by simp, rfl⟩
  | cons hhead _ ih =>
    obtain ⟨ev, req, hd, hu, he⟩ := hhead
    obtain ⟨rs, h1, h2, h3, h4⟩ := ih
    obtain ⟨hv, hg⟩ := unpack_valid ev _ req hu
    refine ⟨req :: rs, List.Forall₂.cons ⟨ev, hd, hu⟩ h1, List.Forall₂.cons ⟨hv, he⟩ h2, ?_, ?_⟩
    · intro r hr
      rcases List.mem_cons.1 hr with rfl | hr'
      · exact hv
      · exact h3 r hr'
    · rw [List.filterMap_cons, hg]
      exact h4

theorem withdrawal_of_mem_filterMap (rs : List Request) (w : WithdrawalRequest)
    (h : w ∈ rs.filterMap Request.withdrawal?) : Request.withdrawal w ∈ rs := by
  obtain ⟨r, hr, hw⟩ := List.mem_filterMap.1 h
  cases r <;> simp only [Request.withdrawal?, Option.some.injEq, reduceCtorEq] at hw
  subst hw
  exact hr

end PipelineDecodes

/-- C27: for every height (a u64), every reward in `[0, 2^256)` and every log list, if
ProcessGoatRequests returns the list `out` (and no error), then DecodeRequests of `out` succeeds,
`locking.Gas` is the one element (height, reward), the sizes of the 13 collections add up to
`len(out)`, and the decoded Withdrawals are the Withdrawal requests unpacked from the dispatched
logs, in the order of the logs, each with an address of at most 90 bytes. -/
theorem C27_pipeline_output_decodes (height : Nat) (reward : Int) (logs : List Log)
    (out : List Bytes) (hheight : height < 2 ^ 64) (h0 : 0 ≤ reward) (h1 : reward < 2 ^ 256)
    (hout : ProcessGoatRequests height reward logs = some (out, none)) :
    ∃ d rs, DecodeRequests out = some d ∧ d.err = none ∧
      d.locking.Gas = [⟨height, reward⟩] ∧ d.size = out.length ∧
      List.Forall₂ (fun log r => ∃ ev, dispatch log = some ev ∧ ev.unpack log = .ok r)
        (logs.filter fun log => (dispatch log).isSome) rs ∧
      d.bridge.Withdraws = rs.filterMap Request.withdrawal? ∧
      (∀ w ∈ d.bridge.Withdraws, w.Address.length ≤ 90) := by
  obtain ⟨gas, hgas⟩ := Request_encode_of_valid (.gas (NewGasRequest height reward))
    ⟨hheight, h0, h1⟩
  have hgas' : (NewGasRequest height reward).Encode = some gas := hgas
  rw [ProcessGoatRequests_eq, hgas'] at hout
  cases hc : collect logs with
  | panic => rw [hc] at hout; simp at hout
  | err e => rw [hc] at hout; simp at hout
  | ok encs =>
    rw [hc] at hout
    simp only [Option.some.injEq, Prod.mk.injEq, and_true] at hout
    subst hout
    obtain ⟨rs, hlogs, hencs, hvalid, hnogas⟩ := unpacked_requests _ _ (collect_ok logs encs hc)
    have hall : List.Forall₂ (fun r e => r.Valid ∧ r.Encode = some e)
        (Request.gas (NewGasRequest height reward) :: rs) (gas :: encs) :=
      List.Forall₂.cons ⟨⟨hheight, h0, h1⟩, hgas⟩ hencs
    have hloop := DecodeRequests_loop_ok _ _ hall
      ⟨⟨[], [], []⟩, ⟨[], []⟩, ⟨[], [], [], [], [], [], [], []⟩, none⟩
    have hf := foldl_push_collections (Request.gas (NewGasRequest height reward) :: rs)
      ⟨⟨[], [], []⟩, ⟨[], []⟩, ⟨[], [], [], [], [], [], [], []⟩, none⟩
    simp only [List.nil_append] at hf
    obtain ⟨f1, f2, f3, f4, f5, f6, f7, f8, f9, f10, f11, f12, f13⟩ := hf
    have hw : (Request.gas (NewGasRequest height reward) :: rs).filterMap Request.withdrawal?
        = rs.filterMap Request.withdrawal? := rfl
    have hg : (Request.gas (NewGasRequest height reward) :: rs).filterMap Request.gas?
        = [⟨height, reward⟩] := by
      rw [List.filterMap_cons]
      simp only [Request.gas?, hnogas]
      rfl
    refine ⟨_, rs, hloop, rfl, f4.trans hg, ?_, hlogs, f1.trans hw, ?_⟩
    · simp only [DecodeResult.size, f1, f2, f3, f4, f5, f6, f7, f8, f9, f10, f11, f12, f13]
      rw [filterMap_lengths, List.length_cons, List.length_cons, hencs.length_eq]
    · intro w hmem
      have hmem' : w ∈ rs.filterMap Request.withdrawal? := by
        rw [← hw, ← f1]
        exact hmem
      exact (hvalid _ (withdrawal_of_mem_filterMap rs w hmem')).2.2.2

set_option maxRecDepth 100000 in
/-- C27 on height 5, reward 7 and the logs of a Withdraw event (id 1, amount 12345, max tx
price 7, address of 4 bytes) and a Grant event. -/
theorem C27_pipeline_output_decodes_witness :
    ∃ d rs,
      DecodeRequests [GasRequestType :: (toLE 8 5 ++ toBE 32 7),
        WithdrawalRequest.Encode ⟨1, 12345, 7, [1, 2, 3, 4]⟩,
        GrantRequestType :: toBE 32 1000] = some d ∧ d.err = none ∧
      d.locking.Gas = [⟨5, 7⟩] ∧
      d.size = [GasRequestType :: (toLE 8 5 ++ toBE 32 7),
        WithdrawalRequest.Encode ⟨1, 12345, 7, [1, 2, 3, 4]⟩,
        GrantRequestType :: toBE 32 1000].length ∧
      List.Forall₂ (fun log r => ∃ ev, dispatch log = some ev ∧ ev.unpack log = .ok r)
        ([⟨BridgeContract, sampleWithdrawTopics, sampleWithdrawData (12345 * 10 ^ 10) 4⟩,
          sampleGrantLog].filter fun log => (dispatch log).isSome) rs ∧
      d.bridge.Withdraws = rs.filterMap Request.withdrawal? ∧
      (∀ w ∈ d.bridge.Withdraws, w.Address.length ≤ 90) :=
  C27_pipeline_output_decodes 5 7
    [⟨BridgeContract, sampleWithdrawTopics, sampleWithdrawData (12345 * 10 ^ 10) 4⟩,
      sampleGrantLog]
    [GasRequestType :: (toLE 8 5 ++ toBE 32 7),
      WithdrawalRequest.Encode ⟨1, 12345, 7, [1, 2, 3, 4]⟩,
      GrantRequestType :: toBE 32 1000]
    (by norm_num) (by norm_num) (by norm_num) (by decide)

end Goat
